import Mathlib

/-!
Verification of the LLM-output reliability layer of the EEG-FM-Digest
pipeline (`src/eegfm_digest/summarize.py`, `triage.py`, `pipeline.py`,
`llm_openai_compat.py`), shallowly embedded in Lean.

Modelling conventions:
* Python/JSON values are the inductive `JValue`; Python `dict`s are
  insertion-ordered association lists (`JObj`), with `JObj.set` mirroring
  `d[k] = v` (replace in place, else append) and `JObj.get` mirroring
  `d.get(k)`.
* Python numbers (int and float alike) are modelled as exact rationals `ℚ`.
  No claim under study depends on binary floating-point rounding.
* JSON Schemas are the inductive `Schema`, one constructor carrying the
  keyword fields the code reads (`oneOf`, `anyOf`, `default`, `const`,
  `enum`, `type`, `minLength`, `maxLength`, `minimum`, `maximum`,
  `exclusiveMinimum`, `exclusiveMaximum`, `minItems`, `items`,
  `properties`, `required`), each optional exactly as in a JSON object.
* Exceptions are modelled by `Option`/`Except` results; the distinguished
  `RateLimitError` of `llm_openai_compat.py` (a `RuntimeError`, hence
  caught by `except Exception`) is the `GenOutcome.rateLimit` outcome.
-/

/-- A JSON / Python value as handled by the pipeline. -/
inductive JValue where
  | null : JValue
  | bool (b : Bool) : JValue
  | num (q : ℚ) : JValue
  | str (s : String) : JValue
  | arr (xs : List JValue) : JValue
  | obj (kvs : List (String × JValue)) : JValue
deriving Repr

/-- A Python dict with string keys: insertion-ordered association list. -/
abbrev JObj := List (String × JValue)

/-- `d.get(k)`: first binding of `k` (Python dicts have unique keys;
on lists built by the model, first binding wins like `dict` lookup). -/
def JObj.get (o : JObj) (k : String) : Option JValue :=
  match o with
  | [] => none
  | (k', v) :: rest => if k' = k then some v else JObj.get rest k

/-- `d.get(k, dflt)`. -/
def JObj.getD (o : JObj) (k : String) (dflt : JValue) : JValue :=
  (o.get k).getD dflt

/-- `d[k] = v`: replace the binding in place if present, else append. -/
def JObj.set (o : JObj) (k : String) (v : JValue) : JObj :=
  match o with
  | [] => [(k, v)]
  | (k', v') :: rest =>
    if k' = k then (k, v) :: rest else (k', v') :: JObj.set rest k v

/-- Python truthiness (`if x:`) of a JSON value. -/
def pyTruthy : JValue → Bool
  | .null => false
  | .bool b => b
  | .num q => q ≠ 0
  | .str s => s ≠ ""
  | .arr xs => !xs.isEmpty
  | .obj kvs => !kvs.isEmpty

/-- Whitespace characters stripped by Python `str.strip()` (ASCII subset;
the documents handled by the pipeline are ASCII-dominated text). -/
def pyIsSpace (c : Char) : Bool :=
  c = ' ' || c = '\t' || c = '\n' || c = '\r' || c = '\x0b' || c = '\x0c'

/-- Python `s.strip()`. -/
def pyStrip (s : String) : String :=
  String.mk ((s.toList.dropWhile pyIsSpace).reverse.dropWhile pyIsSpace).reverse

/-- Python `not s.strip()`: the string is blank / whitespace-only. -/
def pyIsBlank (s : String) : Bool :=
  s.toList.all pyIsSpace

/-- Digits of a decimal literal, most significant first, as a natural. -/
def digitsToNat (cs : List Char) : Nat :=
  cs.foldl (fun acc c => 10 * acc + (c.toNat - '0'.toNat)) 0

/-- Python `float(s)` on the plain-decimal subset
`[ws] [+|-] digits [. digits] [ws]` (at least one digit; scientific
notation, `inf` and `nan` are out of scope for the spec's inputs).
`none` models the `ValueError` raised on anything else. -/
def pyParseFloat (s : String) : Option ℚ :=
  let cs := (s.toList.dropWhile pyIsSpace).reverse.dropWhile pyIsSpace |>.reverse
  let (sign, cs) : ℚ × List Char :=
    match cs with
    | '+' :: rest => (1, rest)
    | '-' :: rest => (-1, rest)
    | rest => (1, rest)
  let ip := cs.takeWhile Char.isDigit
  let rest := cs.dropWhile Char.isDigit
  match rest with
  | [] =>
    if ip.isEmpty then none
    else some (sign * (digitsToNat ip : ℚ))
  | '.' :: frac =>
    if frac.all Char.isDigit ∧ ¬(ip.isEmpty ∧ frac.isEmpty) then
      some (sign * ((digitsToNat ip : ℚ) +
        (digitsToNat frac : ℚ) / (10 ^ frac.length : ℚ)))
    else none
  | _ => none

/-- Python `float(x)` on a JSON value: numbers and booleans convert,
numeric strings parse, everything else raises (`none`). -/
def pyFloat : JValue → Option ℚ
  | .num q => some q
  | .bool b => some (if b then 1 else 0)
  | .str s => pyParseFloat s
  | _ => none

/-- Python `str(x)`. Exact on strings, booleans, `None` and integers;
floats and containers are abbreviated renderings (no claim under study
depends on those cases). -/
def pyStr : JValue → String
  | .str s => s
  | .bool true => "True"
  | .bool false => "False"
  | .null => "None"
  | .num q => if q.den = 1 then toString q.num else toString q.num ++ "/" ++ toString q.den
  | .arr _ => "<list>"
  | .obj _ => "<dict>"

/-- Python string comparison `a < b` is lexicographic on code points. -/
def pyCharsLt : List Char → List Char → Bool
  | [], [] => false
  | [], _ :: _ => true
  | _ :: _, [] => false
  | a :: as, b :: bs =>
    if a.toNat < b.toNat then true
    else if b.toNat < a.toNat then false
    else pyCharsLt as bs

/-- Python `a <= b` on strings. -/
def pyStrLe (a b : String) : Bool :=
  !(pyCharsLt b.toList a.toList)

/-- Python `a < b` on strings. -/
def pyStrLt (a b : String) : Bool :=
  pyCharsLt a.toList b.toList

/-- The `type` keyword of a schema: absent, a single type name, or a list
of type names (both forms occur in `_schema_default`). -/
inductive SType where
  | absent : SType
  | single (t : String) : SType
  | listOf (ts : List String) : SType
deriving Repr, DecidableEq

/-- A JSON Schema restricted to the keywords the pipeline reads
(`summarize.py` synthesizer and the validation subset it exercises):
object/array/string/number/integer/boolean/null types, `enum`, `const`,
`default`, `oneOf`/`anyOf`, numeric and length bounds, `minItems`,
`properties`/`required`.  Absent keywords are `none`/`[]`. -/
inductive Schema where
  | mk (oneOfL anyOfL : List Schema)
       (dfltV constV : Option JValue)
       (enumV : Option (List JValue))
       (typeV : SType)
       (minLenV maxLenV : Option ℤ)
       (minV maxV eminV emaxV : Option ℚ)
       (minItemsV : Option ℤ)
       (itemsV : Option Schema)
       (propsV : Option (List (String × Schema)))
       (reqV : List String) : Schema

/-- `schema.get("oneOf")` (empty list when absent). -/
def Schema.oneOfF : Schema → List Schema
  | .mk o _ _ _ _ _ _ _ _ _ _ _ _ _ _ _ => o

/-- `schema.get("anyOf")` (empty list when absent). -/
def Schema.anyOfF : Schema → List Schema
  | .mk _ a _ _ _ _ _ _ _ _ _ _ _ _ _ _ => a

/-- `schema.get("default")`. -/
def Schema.defaultF : Schema → Option JValue
  | .mk _ _ d _ _ _ _ _ _ _ _ _ _ _ _ _ => d

/-- `schema.get("const")`. -/
def Schema.constF : Schema → Option JValue
  | .mk _ _ _ c _ _ _ _ _ _ _ _ _ _ _ _ => c

/-- `schema.get("enum")`. -/
def Schema.enumF : Schema → Option (List JValue)
  | .mk _ _ _ _ e _ _ _ _ _ _ _ _ _ _ _ => e

/-- `schema.get("type")`. -/
def Schema.typeF : Schema → SType
  | .mk _ _ _ _ _ t _ _ _ _ _ _ _ _ _ _ => t

/-- `schema.get("minLength")`. -/
def Schema.minLengthF : Schema → Option ℤ
  | .mk _ _ _ _ _ _ ml _ _ _ _ _ _ _ _ _ => ml

/-- `schema.get("maxLength")`. -/
def Schema.maxLengthF : Schema → Option ℤ
  | .mk _ _ _ _ _ _ _ ml _ _ _ _ _ _ _ _ => ml

/-- `schema.get("minimum")`. -/
def Schema.minimumF : Schema → Option ℚ
  | .mk _ _ _ _ _ _ _ _ m _ _ _ _ _ _ _ => m

/-- `schema.get("maximum")`. -/
def Schema.maximumF : Schema → Option ℚ
  | .mk _ _ _ _ _ _ _ _ _ m _ _ _ _ _ _ => m

/-- `schema.get("exclusiveMinimum")`. -/
def Schema.exclusiveMinimumF : Schema → Option ℚ
  | .mk _ _ _ _ _ _ _ _ _ _ m _ _ _ _ _ => m

/-- `schema.get("exclusiveMaximum")`. -/
def Schema.exclusiveMaximumF : Schema → Option ℚ
  | .mk _ _ _ _ _ _ _ _ _ _ _ m _ _ _ _ => m

/-- `schema.get("minItems")`. -/
def Schema.minItemsF : Schema → Option ℤ
  | .mk _ _ _ _ _ _ _ _ _ _ _ _ mi _ _ _ => mi

/-- `schema.get("items")` (when a dict). -/
def Schema.itemsF : Schema → Option Schema
  | .mk _ _ _ _ _ _ _ _ _ _ _ _ _ it _ _ => it

/-- `schema.get("properties")` (when a dict). -/
def Schema.propertiesF : Schema → Option (List (String × Schema))
  | .mk _ _ _ _ _ _ _ _ _ _ _ _ _ _ p _ => p

/-- `schema.get("required", [])` (a non-list `required` behaves as `[]`). -/
def Schema.requiredF : Schema → List String
  | .mk _ _ _ _ _ _ _ _ _ _ _ _ _ _ _ r => r

/-- Python `int(x)` on a float: truncation toward zero. -/
def pyTrunc (q : ℚ) : ℤ :=
  if 0 ≤ q then q.floor else q.ceil

/-- First-match association lookup in `properties` (`props[key]`,
the keys of a Python dict being unique). -/
def findProp (ps : List (String × Schema)) (k : String) : Option Schema :=
  match ps with
  | [] => none
  | (k', s) :: rest => if k' = k then some s else findProp rest k

/-- The scan of `_pick_schema_variant`: first variant whose `type` is not
the literal `"null"`, else the first variant (`d`). -/
def pickFirstNonNull (d : Schema) : List Schema → Schema
  | [] => d
  | v :: vs => if v.typeF = SType.single "null" then pickFirstNonNull d vs else v

/-- `_pick_schema_variant` from `summarize.py`: choose the first
non-`"null"`-typed `oneOf`/`anyOf` variant (else variant 0); the schema
itself when neither combinator is a non-empty list. -/
def _pick_schema_variant (s : Schema) : Schema :=
  match s.oneOfF with
  | v :: vs => pickFirstNonNull v (v :: vs)
  | [] =>
    match s.anyOfF with
    | w :: ws => pickFirstNonNull w (w :: ws)
    | [] => s

/-- `_string_default` from `summarize.py`: `const`/first `enum` value as a
string, else `"unknown"` padded by repetition to `minLength` and truncated
to `maxLength` (a non-positive stored bound is ignored, as by `... or 0`
plus the `> 0` guards). -/
def _string_default (s : Schema) : String :=
  match s.enumF with
  | some (e :: _) => pyStr e
  | _ =>
    match s.constF with
    | some c => pyStr c
    | none =>
      let min_len : ℤ := (s.minLengthF).getD 0
      let max_len : ℤ := (s.maxLengthF).getD 0
      let base := "unknown".toList
      let base :=
        if 0 < min_len then
          let reps := (min_len.toNat + base.length - 1) / base.length
          (List.flatten (List.replicate reps base)).take (max min_len.toNat base.length)
        else base
      let base := if 0 < max_len then base.take max_len.toNat else base
      String.mk base

/-- `_numeric_default` from `summarize.py`.  The `enum` branch is
unreachable from `_schema_default` (a non-empty `enum` already returned
there); its `int()`/`float()` conversion is modelled through `pyFloat`
with `0` for the inconvertible case. -/
def _numeric_default (s : Schema) (is_int : Bool) : ℚ :=
  match s.enumF with
  | some (e :: _) =>
    (match pyFloat e with
     | some q => if is_int then ((pyTrunc q : ℤ) : ℚ) else q
     | none => 0)
  | _ =>
    let low : Option ℚ :=
      match s.minimumF with
      | some m => some m
      | none =>
        match s.exclusiveMinimumF with
        | some e => some (e + (if is_int then 1 else 1 / 1000000))
        | none => none
    let value : ℚ := low.getD 0
    let value : ℚ := if is_int then ((pyTrunc value : ℤ) : ℚ) else value
    let value : ℚ :=
      match s.maximumF with
      | some high => if high < value then high else value
      | none => value
    if is_int then
      let value : ℚ :=
        match s.exclusiveMaximumF with
        | some he =>
          if ((pyTrunc he : ℤ) : ℚ) ≤ value then ((pyTrunc he : ℤ) : ℚ) - 1 else value
        | none => value
      ((pyTrunc value : ℤ) : ℚ)
    else
      match s.exclusiveMaximumF with
      | some he => if he ≤ value then he - 1 / 1000000 else value
      | none => value

/-- Resolution of the `type` keyword inside `_schema_default`:
`none` models the early `return None` for a type list with no non-`"null"`
entry; otherwise the single type name the dispatch proceeds with
(`some none` = no `type` key). -/
def resolveTypeKey : SType → Option (Option String)
  | .absent => some none
  | .single t => some (some t)
  | .listOf ts =>
    match ts.filter (fun t => t ≠ "null") with
    | [] => none
    | t :: _ => some (some t)

mutual

/-- Computable structural size of a JSON value (used as a fuel bound for
the recursion of the validator and of value equality). -/
def JValue.size : JValue → Nat
  | .null | .bool _ | .num _ | .str _ => 1
  | .arr xs => 1 + sizeListJV xs
  | .obj kvs => 1 + sizeObjJV kvs
termination_by structural v => v

def sizeListJV : List JValue → Nat
  | [] => 0
  | x :: xs => 1 + JValue.size x + sizeListJV xs
termination_by structural l => l

def sizeObjJV : List (String × JValue) → Nat
  | [] => 0
  | (_, v) :: kvs => 1 + JValue.size v + sizeObjJV kvs
termination_by structural l => l

end

mutual

/-- Computable structural size of a schema (used as a fuel bound for the
recursion of the synthesizer, the validator and well-formedness). -/
def Schema.size : Schema → Nat
  | .mk o a _ _ _ _ _ _ _ _ _ _ _ it ps _ =>
    1 + sizeListS o + sizeListS a + sizeOptS it + sizeOptPs ps
termination_by structural s => s

def sizeListS : List Schema → Nat
  | [] => 0
  | s :: ss => 1 + Schema.size s + sizeListS ss
termination_by structural l => l

def sizeOptS : Option Schema → Nat
  | none => 0
  | some s => 1 + Schema.size s
termination_by structural o => o

def sizeOptPs : Option (List (String × Schema)) → Nat
  | none => 0
  | some l => 1 + sizePropsS l
termination_by structural o => o

def sizePropsS : List (String × Schema) → Nat
  | [] => 0
  | (_, s) :: ps => 1 + Schema.size s + sizePropsS ps
termination_by structural l => l

end

/-- The array branch of `_schema_default`: `minItems` copies of the
`items` default (an absent `items` sub-schema is the empty schema `{}`,
whose default is `None`, inlined as `.null`), parameterized by the
recursive call `go`. -/
def arrayDefault (go : Schema → JValue) (p : Schema) : JValue :=
  match p.itemsF with
  | some it =>
    .arr (List.replicate (max 0 ((p.minItemsF).getD 0)).toNat (go it))
  | none =>
    .arr (List.replicate (max 0 ((p.minItemsF).getD 0)).toNat JValue.null)

/-- The object branch of `_schema_default` (`isObj` records whether the
resolved type is literally `"object"`): the `for key in required` loop is
the fold, each `required` key getting its declared sub-schema's default
(via the recursive call `go`) or the string `"unknown"`. -/
def objectDefault (go : Schema → JValue) (isObj : Bool) (p : Schema) :
    JValue :=
  match p.propertiesF with
  | some ps =>
    .obj (p.requiredF.foldl
      (fun (acc : JObj) k =>
        match findProp ps k with
        | some sub => acc.set k (go sub)
        | none => acc.set k (.str "unknown")) [])
  | none =>
    if isObj then
      .obj (p.requiredF.foldl
        (fun (acc : JObj) k => acc.set k (.str "unknown")) [])
    else .null

/-- The post-pick body of `_schema_default`, parameterized by the
function `go` used for the recursive occurrences (the `items` sub-schema
for arrays, the declared sub-schema of each `required` key for objects):
`default` → `const` → first `enum` entry → dispatch on the resolved
`type` (sequential equality tests against the type-name literals, as in
the source's `if`/`elif` chain; the final catch reaches the object
branch exactly when the type is `"object"` or `properties` is present).
`schema_default_eq` shows `_schema_default` satisfies pick-then-body as
a fixed point. -/
def schemaDefaultBody (go : Schema → JValue) (p : Schema) : JValue :=
  match p.defaultF with
  | some d => d
  | none =>
    match p.constF with
    | some c => c
    | none =>
      match p.enumF with
      | some (e :: _) => e
      | _ =>
        match resolveTypeKey p.typeF with
        | none => .null
        | some tv =>
          match tv with
          | none => objectDefault go false p
          | some t =>
            if t = "null" then .null
            else if t = "boolean" then .bool false
            else if t = "integer" then .num (_numeric_default p true)
            else if t = "number" then .num (_numeric_default p false)
            else if t = "string" then .str (_string_default p)
            else if t = "array" then arrayDefault go p
            else objectDefault go (t = "object") p

/-- Fuel-indexed evaluator for `_schema_default`.  The fuel only bounds
the recursion depth (`schemaDefaultFuel_sound` shows every fuel at least
`Schema.size s` gives the same value), making the function structurally
recursive and hence computable by the kernel. -/
def schemaDefaultFuel : Nat → Schema → JValue
  | 0, _ => .null
  | fuel+1, s =>
    schemaDefaultBody (fun t => schemaDefaultFuel fuel t)
      (_pick_schema_variant s)

/-- `_schema_default` from `summarize.py`: synthesize a minimal value for
a schema (`Schema.size s` strictly dominates the recursion depth, so it
is a sufficient fuel). -/
def _schema_default (s : Schema) : JValue :=
  schemaDefaultFuel (Schema.size s) s

/-- Fuel-indexed Python `==` on JSON values (fuel bounds the depth along
the first argument; `JValue.size a` is a sufficient fuel).  Lists and dicts
compare pointwise after a length check, exactly the structural equality
Python applies. -/
def jvalEqFuel : Nat → JValue → JValue → Bool
  | 0, _, _ => false
  | fuel+1, a, b =>
    match a, b with
    | .null, .null => true
    | .bool x, .bool y => x == y
    | .num x, .num y => x == y
    | .str x, .str y => x == y
    | .arr xs, .arr ys =>
      xs.length == ys.length &&
      (List.zip xs ys).all (fun p => jvalEqFuel fuel p.1 p.2)
    | .obj xs, .obj ys =>
      xs.length == ys.length &&
      (List.zip xs ys).all (fun p => p.1.1 == p.2.1 && jvalEqFuel fuel p.1.2 p.2.2)
    | _, _ => false

/-- Python `==` on JSON values (structural; used by the `enum`/`const`
validation keywords). -/
def jvalEq (a b : JValue) : Bool :=
  jvalEqFuel (JValue.size a) a b

/-- The `type` keyword check of JSON Schema draft 6+ (as implemented by the
`jsonschema` package): a number with zero fractional part is an `integer`. -/
def typeMatch (v : JValue) (t : String) : Bool :=
  match v with
  | .null => t == "null"
  | .bool _ => t == "boolean"
  | .num q => t == "number" || (t == "integer" && q.den == 1)
  | .str _ => t == "string"
  | .arr _ => t == "array"
  | .obj _ => t == "object"

/-- The `const` keyword check. -/
def checkConst (v : JValue) (s : Schema) : Bool :=
  match s.constF with
  | some c => jvalEq v c
  | none => true

/-- The `enum` keyword check. -/
def checkEnum (v : JValue) (s : Schema) : Bool :=
  match s.enumF with
  | some l => l.any (fun e => jvalEq v e)
  | none => true

/-- The `type` keyword check. -/
def checkType (v : JValue) (s : Schema) : Bool :=
  match s.typeF with
  | .absent => true
  | .single t => typeMatch v t
  | .listOf ts => ts.any (fun t => typeMatch v t)

/-- The `minimum` keyword check (numbers only). -/
def checkMinimum (v : JValue) (s : Schema) : Bool :=
  match v, s.minimumF with
  | .num q, some m => decide (m ≤ q)
  | _, _ => true

/-- The `maximum` keyword check. -/
def checkMaximum (v : JValue) (s : Schema) : Bool :=
  match v, s.maximumF with
  | .num q, some m => decide (q ≤ m)
  | _, _ => true

/-- The `exclusiveMinimum` keyword check. -/
def checkExclusiveMinimum (v : JValue) (s : Schema) : Bool :=
  match v, s.exclusiveMinimumF with
  | .num q, some m => decide (m < q)
  | _, _ => true

/-- The `exclusiveMaximum` keyword check. -/
def checkExclusiveMaximum (v : JValue) (s : Schema) : Bool :=
  match v, s.exclusiveMaximumF with
  | .num q, some m => decide (q < m)
  | _, _ => true

/-- The `minLength` keyword check (strings only). -/
def checkMinLength (v : JValue) (s : Schema) : Bool :=
  match v, s.minLengthF with
  | .str sv, some m => decide (m ≤ (sv.length : ℤ))
  | _, _ => true

/-- The `maxLength` keyword check. -/
def checkMaxLength (v : JValue) (s : Schema) : Bool :=
  match v, s.maxLengthF with
  | .str sv, some m => decide ((sv.length : ℤ) ≤ m)
  | _, _ => true

/-- The `minItems` keyword check (arrays only). -/
def checkMinItems (v : JValue) (s : Schema) : Bool :=
  match v, s.minItemsF with
  | .arr xs, some m => decide (m ≤ (xs.length : ℤ))
  | _, _ => true

/-- The `required` keyword check (objects only). -/
def checkRequired (v : JValue) (s : Schema) : Bool :=
  match v with
  | .obj kvs => s.requiredF.all (fun k => (JObj.get kvs k).isSome)
  | _ => true

/-- The `items` keyword check (arrays only), parameterized by the
recursive validation call `go`. -/
def itemsCheck (go : JValue → Schema → Bool) (v : JValue)
    (o : Option Schema) : Bool :=
  match v, o with
  | .arr xs, some it => xs.all (fun x => go x it)
  | _, _ => true

/-- The per-property check inside the `properties` keyword: an absent key
is unconstrained. -/
def propCheck (go : JValue → Schema → Bool) (kvs : JObj)
    (p : String × Schema) : Bool :=
  match JObj.get kvs p.1 with
  | some w => go w p.2
  | none => true

/-- The `properties` keyword check (objects only), parameterized by the
recursive validation call `go`. -/
def propsCheck (go : JValue → Schema → Bool) (v : JValue)
    (o : Option (List (String × Schema))) : Bool :=
  match v, o with
  | .obj kvs, some ps => ps.all (fun p => propCheck go kvs p)
  | _, _ => true

/-- The one-step body of the validator, parameterized by the function
`go` used for the recursive occurrences (sub-schemas of `oneOf`/`anyOf`,
`items` against array elements, declared properties against present
keys); `validate_json_eq` shows `validate_json` satisfies this body as a
fixed point. -/
def validateBody (go : JValue → Schema → Bool) (v : JValue) (s : Schema) :
    Bool :=
  (if s.oneOfF.isEmpty then true
   else (s.oneOfF.countP (fun w => go v w)) == 1) &&
  (if s.anyOfF.isEmpty then true
   else (s.anyOfF.countP (fun w => go v w)) != 0) &&
  checkConst v s && checkEnum v s && checkType v s &&
  checkMinimum v s && checkMaximum v s &&
  checkExclusiveMinimum v s && checkExclusiveMaximum v s &&
  checkMinLength v s && checkMaxLength v s && checkMinItems v s &&
  itemsCheck go v s.itemsF &&
  propsCheck go v s.propertiesF &&
  checkRequired v s

/-- Fuel-indexed evaluator for the validator.  Fuel only bounds the
recursion depth (`validateFuel_sound` shows every fuel at least
`Schema.size s + JValue.size v` gives the same result); it makes the
function structurally recursive and hence computable by the kernel. -/
def validateFuel : Nat → JValue → Schema → Bool
  | 0, _, _ => false
  | fuel+1, v, s => validateBody (fun x t => validateFuel fuel x t) v s

/-- `validate_json` from `triage.py`: validation of a value against the
schema subset in scope, with the conjunctive keyword semantics of the
`jsonschema` package (draft 7).  `true` models a normal return, `false`
the raised `SchemaValidationError` (`Schema.size s + JValue.size v`
strictly dominates the recursion depth, so it is a sufficient fuel). -/
def validate_json (v : JValue) (s : Schema) : Bool :=
  validateFuel (Schema.size s + JValue.size v) v s

/-- Integer-path starting value of `_numeric_default` (before clamping). -/
def intBase (s : Schema) : ℤ :=
  match s.minimumF with
  | some m => pyTrunc m
  | none =>
    match s.exclusiveMinimumF with
    | some e => pyTrunc (e + 1)
    | none => 0

/-- Number-path starting value of `_numeric_default` (before clamping). -/
def numBase (s : Schema) : ℚ :=
  match s.minimumF with
  | some m => m
  | none =>
    match s.exclusiveMinimumF with
    | some e => e + 1 / 1000000
    | none => 0

/-- Bound consistency for an `integer` leaf: an integral `minimum`, upper
bounds that leave the starting value untouched, and a strict gap between
`exclusiveMinimum` and `minimum` when both are present. -/
def wfIntB (s : Schema) : Bool :=
  (match s.minimumF with
   | some m => decide (m.den = 1)
   | none => true) &&
  (match s.maximumF with
   | some mx => decide ((intBase s : ℚ) ≤ mx)
   | none => true) &&
  (match s.exclusiveMaximumF with
   | some ex => decide (intBase s < pyTrunc ex)
   | none => true) &&
  (match s.minimumF, s.exclusiveMinimumF with
   | some m, some e => decide (e < m)
   | _, _ => true)

/-- Bound consistency for a `number` leaf. -/
def wfNumB (s : Schema) : Bool :=
  (match s.maximumF with
   | some mx => decide (numBase s ≤ mx)
   | none => true) &&
  (match s.exclusiveMaximumF with
   | some ex => decide (numBase s < ex)
   | none => true) &&
  (match s.minimumF, s.exclusiveMinimumF with
   | some m, some e => decide (e < m)
   | _, _ => true)

/-- Bound consistency for a `string` leaf (a stored `maxLength` must be
positive: the code treats `maxLength: 0` as absent but the validator does
not). -/
def wfStrB (s : Schema) : Bool :=
  (match s.minLengthF, s.maxLengthF with
   | some a, some b => decide (a ≤ b)
   | _, _ => true) &&
  (match s.maxLengthF with
   | some b => decide (1 ≤ b)
   | none => true)

/-- The value the validator's `type` keyword check gives to `v` under `tv`. -/
def typeOkTV (c : JValue) : SType → Bool
  | .absent => true
  | .single t => typeMatch c t
  | .listOf ts => ts.any (fun t => typeMatch c t)

/-- The declared single type of a variant (`""` when not single-typed). -/
def varType (v : Schema) : String :=
  match v.typeF with
  | .single t => t
  | _ => ""

/-- `oneOf` variants with pairwise exclusive single types (`integer` and
`number` may not coexist, a whole number matching both). -/
def singleTypedDistinctB (l : List Schema) : Bool :=
  (l.all fun v => match v.typeF with
    | .single _ => true
    | _ => false) &&
  decide ((l.map varType).Nodup) &&
  !(decide ("integer" ∈ l.map varType) && decide ("number" ∈ l.map varType))

/-- A combinator schema carrying no other keyword. -/
def combinatorBareB (s : Schema) : Bool :=
  s.constF.isNone && s.enumF.isNone && (s.typeF == SType.absent) &&
  s.minLengthF.isNone && s.maxLengthF.isNone &&
  s.minimumF.isNone && s.maximumF.isNone &&
  s.exclusiveMinimumF.isNone && s.exclusiveMaximumF.isNone &&
  s.minItemsF.isNone && s.itemsF.isNone && s.propertiesF.isNone &&
  s.requiredF.isEmpty

/-- Combinator variants are admissible: no nested combinators and each
variant well-formed (via the recursive call `go`). -/
def wfVariants (go : Schema → Bool) (l : List Schema) : Bool :=
  l.all (fun w => w.oneOfF.isEmpty && w.anyOfF.isEmpty && go w)

/-- An `items` sub-schema, when present, is well-formed. -/
def wfItems (go : Schema → Bool) (o : Option Schema) : Bool :=
  match o with
  | some it => go it
  | none => true

/-- Declared properties, when present, have distinct keys and well-formed
sub-schemas. -/
def wfProps (go : Schema → Bool)
    (o : Option (List (String × Schema))) : Bool :=
  match o with
  | some ps =>
    decide ((ps.map Prod.fst).Nodup) && ps.all (fun p => go p.2)
  | none => true

/-- The one-step body of schema well-formedness, parameterized by the
function `go` used for the recursive occurrences (combinator variants,
the `items` sub-schema, property sub-schemas).  Well-formedness is a
decidable sufficient condition under which `_schema_default` provably
synthesizes a schema-valid value (the condition of the amended
fallback-validity claim).  It requires: no `default` keyword; combinators
bare, one level deep, with exclusively single-typed variants for `oneOf`;
`const`/`enum` values type-consistent and unaccompanied by other
constraints; known type names; consistent numeric/length bounds that
leave the synthesizer's starting value inside the admissible range;
well-formed `items` and property sub-schemas with distinct property
keys. -/
def wfBody (go : Schema → Bool) (s : Schema) : Bool :=
  if s.defaultF.isSome then false
  else
    match s.oneOfF with
    | v :: vs =>
      s.anyOfF.isEmpty && combinatorBareB s &&
      wfVariants go (v :: vs) && singleTypedDistinctB (v :: vs)
    | [] =>
      match s.anyOfF with
      | w :: ws => combinatorBareB s && wfVariants go (w :: ws)
      | [] =>
        match s.constF with
        | some c =>
          s.enumF.isNone && typeOkTV c s.typeF &&
          s.minLengthF.isNone && s.maxLengthF.isNone &&
          s.minimumF.isNone && s.maximumF.isNone &&
          s.exclusiveMinimumF.isNone && s.exclusiveMaximumF.isNone &&
          s.minItemsF.isNone && s.itemsF.isNone &&
          s.propertiesF.isNone && s.requiredF.isEmpty
        | none =>
          match s.enumF with
          | some (e :: _) =>
            typeOkTV e s.typeF &&
            s.minLengthF.isNone && s.maxLengthF.isNone &&
            s.minimumF.isNone && s.maximumF.isNone &&
            s.exclusiveMinimumF.isNone && s.exclusiveMaximumF.isNone &&
            s.minItemsF.isNone && s.itemsF.isNone &&
            s.propertiesF.isNone && s.requiredF.isEmpty
          | some [] => false
          | none =>
            match resolveTypeKey s.typeF with
            | none => decide (s.typeF ≠ SType.listOf [])
            | some tv =>
              match tv with
              | none => wfProps go s.propertiesF
              | some t =>
                if t = "null" then true
                else if t = "boolean" then true
                else if t = "integer" then wfIntB s
                else if t = "number" then wfNumB s
                else if t = "string" then wfStrB s
                else if t = "array" then wfItems go s.itemsF
                else if t = "object" then wfProps go s.propertiesF
                else false

/-- Fuel-indexed well-formedness (`wfFuel_sound`: every fuel at least
`Schema.size s` gives the same result). -/
def wfFuel : Nat → Schema → Bool
  | 0, _ => false
  | fuel+1, s => wfBody (fun t => wfFuel fuel t) s

/-- Well-formedness of a schema, at the sufficient fuel `Schema.size s`. -/
def wfSchema (s : Schema) : Bool :=
  wfFuel (Schema.size s) s

mutual

/-- `json.dumps` (deterministic rendering; byte-level formatting details
such as string escaping are immaterial here: the rendered prompt is only
ever passed to the opaque `generate`/`count_tokens` capabilities). -/
def jsonDumps : JValue → String
  | .null => "null"
  | .bool true => "true"
  | .bool false => "false"
  | .num q => pyStr (.num q)
  | .str s => "\"" ++ s ++ "\""
  | .arr xs => "[" ++ jsonDumpsList xs ++ "]"
  | .obj kvs => "\x7b" ++ jsonDumpsObj kvs ++ "\x7d"

def jsonDumpsList : List JValue → String
  | [] => ""
  | [x] => jsonDumps x
  | x :: y :: xs => jsonDumps x ++ ", " ++ jsonDumpsList (y :: xs)

def jsonDumpsObj : List (String × JValue) → String
  | [] => ""
  | [(k, v)] => "\"" ++ k ++ "\": " ++ jsonDumps v
  | (k, v) :: p :: kvs => "\"" ++ k ++ "\": " ++ jsonDumps v ++ ", " ++ jsonDumpsObj (p :: kvs)

end

/-- A candidate document as fetched by retrieval (data model §3: the
fields `summarize.py`/`triage.py` read are always present). -/
structure Paper where
  arxiv_id_base : String
  title : String
  published : String
  categories : List String
  summary : String
  authors : JValue
  links : JValue

/-- Outcome of one `llm.generate(...)` call.  `rateLimit` is the
distinguished `RateLimitError` of `llm_openai_compat.py` — a
`RuntimeError`, so `except Exception` catches it; `failure` is any other
`Exception` raised by the call. -/
inductive GenOutcome where
  | text (s : String) : GenOutcome
  | rateLimit : GenOutcome
  | failure : GenOutcome

/-- An LLM client capability: the outcome of the n-th `generate` call
(0-indexed), and an optional `count_tokens` attribute whose `none` result
models a raised exception. -/
structure LLMStub where
  gen : Nat → GenOutcome
  countTokens : Option (String → Option ℤ)

/-- How the generation protocol terminates when it does not return a
record: a propagated rate-limit error, another propagated generation
error, a `SchemaValidationError` raised on the fallback itself, or an
exception while building the payload. -/
inductive ProtoError where
  | rateLimited : ProtoError
  | generationFailed : ProtoError
  | invalidFallback : ProtoError
  | payloadError : ProtoError
deriving Repr, DecidableEq

/-- `_count_tokens_or_none` from `summarize.py`: `None` when the client
has no callable `count_tokens`, or when calling it raises. -/
def _count_tokens_or_none (llm : LLMStub) (prompt : String) : Option ℤ :=
  match llm.countTokens with
  | none => none
  | some f => f prompt

/-- `_summary_triage_payload` from `summarize.py` (`none` models the
`float()` call raising on a non-numeric `confidence`). -/
def _summary_triage_payload (triage : JObj) : Option JObj :=
  let reasons : JValue :=
    match triage.getD "reasons" (.arr []) with
    | .arr l => .arr l
    | v => .arr [.str (pyStr v)]
  match pyFloat (triage.getD "confidence" (.num 0)) with
  | none => none
  | some conf =>
    some [("decision", triage.getD "decision" (.str "reject")),
          ("confidence", .num conf),
          ("reasons", reasons)]

/-- The `allowed_tags` mapping rendered as a JSON value. -/
def allowedTagsJ (ats : List (String × List String)) : JValue :=
  .obj (ats.map (fun p => (p.1, .arr (p.2.map JValue.str))))

/-- `_base_payload` from `summarize.py`. -/
def _base_payload (paper : Paper) (triage : JObj)
    (allowed_tags : Option (List (String × List String))) : Option JObj :=
  match _summary_triage_payload triage with
  | none => none
  | some tp =>
    let payload : JObj :=
      [("arxiv_id_base", .str paper.arxiv_id_base),
       ("title", .str paper.title),
       ("published_date", .str (paper.published.take 10)),
       ("categories", .arr (paper.categories.map JValue.str)),
       ("abstract", .str paper.summary),
       ("triage", .obj tp)]
    match allowed_tags with
    | some ats =>
      if !ats.isEmpty then some (payload.set "allowed_tags" (allowedTagsJ ats))
      else some payload
    | none => some payload

/-- `_render_prompt` from `summarize.py`. -/
def _render_prompt (prompt_template : String) (payload : JObj) : String :=
  prompt_template.replace "\x7b\x7bINPUT_JSON\x7d\x7d" (jsonDumps (.obj payload))

/-- The slices dict as a JSON value. -/
def slicesJ (l : List (String × String)) : JValue :=
  .obj (l.map (fun p => (p.1, .str p.2)))

/-- `_select_payload` from `summarize.py`: full text when non-blank and
within the token budget, otherwise slices, with the mode note recording
the branch.  The outer `none` models an exception escaping from the
triage-payload construction (`float()` on a malformed `confidence`);
every quantified input (document, full text, slices, counter, budget)
yields `some`. -/
def _select_payload (paper : Paper) (triage : JObj) (raw_fulltext : String)
    (fulltext_slices : List (String × String)) (prompt_template : String)
    (llm : LLMStub) (max_input_tokens : ℤ)
    (allowed_tags : Option (List (String × List String))) :
    Option (JObj × String) :=
  match _base_payload paper triage allowed_tags with
  | none => none
  | some base =>
    if pyIsBlank raw_fulltext then
      some (base.set "fulltext_slices" (slicesJ fulltext_slices),
        "input_mode=fulltext_slices;reason=missing_fulltext")
    else
      let payload_fulltext := base.set "fulltext" (.str raw_fulltext)
      let prompt_fulltext := _render_prompt prompt_template payload_fulltext
      let token_count := _count_tokens_or_none llm prompt_fulltext
      match token_count with
      | some n =>
        if n ≤ max_input_tokens then
          some (payload_fulltext, "input_mode=fulltext;prompt_tokens=" ++ toString n)
        else
          some (base.set "fulltext_slices" (slicesJ fulltext_slices),
            "input_mode=fulltext_slices;reason=fulltext_over_limit;prompt_tokens=" ++
              toString n ++ ";max_tokens=" ++ toString max_input_tokens)
      | none =>
        some (base.set "fulltext_slices" (slicesJ fulltext_slices),
          "input_mode=fulltext_slices;reason=count_tokens_failed")

/-- `_schema_has_key` from `summarize.py`. -/
def _schema_has_key (schema : Schema) (key : String) : Bool :=
  match schema.propertiesF with
  | some ps => (findProp ps key).isSome
  | none => false

/-- The deterministic fields of `_inject_deterministic_fields`, in the
source's insertion order. -/
def deterministicFields (paper : Paper) (used_fulltext : Bool)
    (notes : String) : List (String × JValue) :=
  [("arxiv_id_base", .str paper.arxiv_id_base),
   ("title", .str paper.title),
   ("published_date", .str (paper.published.take 10)),
   ("categories", .arr (paper.categories.map JValue.str)),
   ("used_fulltext", .bool used_fulltext),
   ("notes", .str notes)]

/-- `_inject_deterministic_fields` from `summarize.py`: overwrite each
identity/pipeline field on `out` — but only when the schema declares the
key among its `properties`. -/
def _inject_deterministic_fields (out : JObj) (schema : Schema)
    (paper : Paper) (used_fulltext : Bool) (notes : String) : JObj :=
  (deterministicFields paper used_fulltext notes).foldl
    (fun acc kv => if _schema_has_key schema kv.1 then acc.set kv.1 kv.2 else acc)
    out

/-- `raw_values` extraction in `_filter_allowed_tags`: a bare string
becomes a singleton, a non-list becomes `[]`. -/
def rawTagValues (tags : JObj) (cat : String) : List JValue :=
  match tags.getD cat (.arr []) with
  | .str s => [.str s]
  | .arr l => l
  | _ => []

/-- The `keep` loop of `_filter_allowed_tags`: strip, filter against the
allow-list, de-duplicate, stop at 2. -/
def keepTagLoop (allowedSet : List String) (acc : List String) :
    List JValue → List String
  | [] => acc
  | v :: rest =>
    let vs := pyStrip (pyStr v)
    let acc' := if vs ∈ allowedSet ∧ vs ∉ acc then acc ++ [vs] else acc
    if acc'.length ≥ 2 then acc' else keepTagLoop allowedSet acc' rest

/-- `_filter_allowed_tags` from `summarize.py`. -/
def _filter_allowed_tags (out : JObj)
    (allowed_tags : Option (List (String × List String))) : JObj :=
  match allowed_tags with
  | none => out
  | some ats =>
    if ats.isEmpty then out
    else
      match out.get "tags" with
      | some (.obj tags) =>
        out.set "tags" (.obj (ats.map (fun p =>
          (p.1, .arr ((keepTagLoop p.2 [] (rawTagValues tags p.1)).map JValue.str)))))
      | _ => out

/-- `_normalize_summary_output` from `summarize.py` (the `dict(data)` copy
is the identity in this functional model). -/
def _normalize_summary_output (data : JObj) (schema : Schema) (paper : Paper)
    (used_fulltext : Bool) (notes : String)
    (allowed_tags : Option (List (String × List String))) : JObj :=
  _filter_allowed_tags
    (_inject_deterministic_fields data schema paper used_fulltext notes)
    allowed_tags

/-- `_schema_fallback_output` from `summarize.py`: the synthesized default
(an empty dict when it is not a dict) with the deterministic fields
injected. -/
def _schema_fallback_output (schema : Schema) (paper : Paper)
    (used_fulltext : Bool) (notes : String) : JObj :=
  let raw := _schema_default schema
  let out : JObj :=
    match raw with
    | .obj kvs => kvs
    | _ => []
  _inject_deterministic_fields out schema paper used_fulltext notes

/-- One parse→normalize→validate attempt of `summarize_paper`'s
try-blocks; `none` models any exception caught by `except Exception`
(`parse_json_text`, a non-dict result, or `SchemaValidationError`). -/
def summarize_attempt (raw : String) (parse : String → Option JObj)
    (schema : Schema) (paper : Paper) (used_fulltext : Bool)
    (merged_notes : String)
    (allowed_tags : Option (List (String × List String))) : Option JObj :=
  match parse raw with
  | none => none
  | some data =>
    let d := _normalize_summary_output data schema paper used_fulltext
      merged_notes allowed_tags
    if validate_json (.obj d) schema then some d else none

/-- The fallback tail of `summarize_paper`: synthesize, inject, append the
`summary_json_error` marker, validate the fallback itself (an invalid
fallback raises out of the function). -/
def summarize_fallback (schema : Schema) (paper : Paper)
    (used_fulltext : Bool) (merged_notes : String) (calls : Nat) :
    Except ProtoError JObj × Nat :=
  let fallback_notes :=
    if merged_notes ≠ "" then merged_notes ++ ";summary_json_error"
    else "summary_json_error"
  let fb := _schema_fallback_output schema paper used_fulltext fallback_notes
  if validate_json (.obj fb) schema then (.ok fb, calls)
  else (.error .invalidFallback, calls)

/-- `summarize_paper` from `summarize.py`, with the number of
`llm.generate` calls made.  `parse` stands for `parse_json_text`
(`json.loads`); a non-dict result counts as a failure like a parse error.
The initial `generate` sits outside the try-block, so its exceptions
propagate; the repair `generate` sits inside `try: ... except Exception`,
which catches `RateLimitError` (a `RuntimeError`) as well. -/
def summarize_paper (paper : Paper) (triage : JObj) (raw_fulltext : String)
    (fulltext_slices : List (String × String)) (used_fulltext : Bool)
    (notes : String) (llm : LLMStub) (prompt_template repair_template : String)
    (schema : Schema) (max_input_tokens : ℤ)
    (allowed_tags : Option (List (String × List String)))
    (parse : String → Option JObj) : Except ProtoError JObj × Nat :=
  match _select_payload paper triage raw_fulltext fulltext_slices
      prompt_template llm max_input_tokens allowed_tags with
  | none => (.error .payloadError, 0)
  | some pm =>
    let mode_notes := pm.2
    let merged_notes := if notes ≠ "" then notes ++ ";" ++ mode_notes else mode_notes
    match llm.gen 0 with
    | .rateLimit => (.error .rateLimited, 1)
    | .failure => (.error .generationFailed, 1)
    | .text raw =>
      match summarize_attempt raw parse schema paper used_fulltext
          merged_notes allowed_tags with
      | some data => (.ok data, 1)
      | none =>
        match llm.gen 1 with
        | .text repaired =>
          match summarize_attempt repaired parse schema paper used_fulltext
              merged_notes allowed_tags with
          | some data => (.ok data, 2)
          | none => summarize_fallback schema paper used_fulltext merged_notes 2
        | _ => summarize_fallback schema paper used_fulltext merged_notes 2

/-- `apply_decision_policy` from `triage.py` (`none` models `float()`
raising on a malformed `confidence`; the reject branch leaves any
pre-existing `borderline` key untouched, as in the source). -/
def apply_decision_policy (decision : JObj) : Option JObj :=
  match pyFloat (decision.getD "confidence" (.num 0)) with
  | none => none
  | some conf =>
    if pyTruthy (decision.getD "is_eeg_related" .null) &&
       pyTruthy (decision.getD "is_foundation_model_related" .null) &&
       decide ((0.6 : ℚ) ≤ conf) then
      some ((decision.set "decision" (.str "accept")).set "borderline" (.bool false))
    else if decide ((0.35 : ℚ) ≤ conf) then
      some ((decision.set "decision" (.str "borderline")).set "borderline" (.bool true))
    else
      some (decision.set "decision" (.str "reject"))

/-- One parse→policy→validate attempt of `triage_paper`'s try-blocks. -/
def triage_attempt (raw : String) (parse : String → Option JObj)
    (schema : Schema) : Option JObj :=
  match parse raw with
  | none => none
  | some data =>
    match apply_decision_policy data with
    | none => none
    | some d => if validate_json (.obj d) schema then some d else none

/-- The literal fallback dict of `triage_paper`. -/
def triage_fallback_record (paper : Paper) : JObj :=
  [("arxiv_id_base", .str paper.arxiv_id_base),
   ("is_eeg_related", .bool false),
   ("is_foundation_model_related", .bool false),
   ("borderline", .bool false),
   ("paper_type", .str "other"),
   ("confidence", .num 0),
   ("reasons", .arr [.str "triage_json_error"]),
   ("suggested_digest_tags", .arr []),
   ("decision", .str "reject")]

/-- `triage_paper` from `triage.py`, with the number of `llm.generate`
calls made.  `parse` stands for `parse_json_text` — modelled from the
spec ("parse response as JSON"): it lives in `llm_gemini.py`, which is
absent from the sources; `none` is a parse failure.  As in
`summarize_paper`, only the initial `generate` call is outside the
try-block; the repair call's exceptions (including `RateLimitError`) are
caught and resolve to the literal fallback record, which is returned
without validation. -/
def triage_paper (paper : Paper) (llm : LLMStub)
    (prompt_template repair_template : String) (schema : Schema)
    (parse : String → Option JObj) : Except ProtoError JObj × Nat :=
  match llm.gen 0 with
  | .rateLimit => (.error .rateLimited, 1)
  | .failure => (.error .generationFailed, 1)
  | .text raw =>
    match triage_attempt raw parse schema with
    | some d => (.ok d, 1)
    | none =>
      match llm.gen 1 with
      | .text repaired =>
        match triage_attempt repaired parse schema with
        | some d => (.ok d, 2)
        | none => (.ok (triage_fallback_record paper), 2)
      | _ => (.ok (triage_fallback_record paper), 2)

/-- Python `needle in haystack` on strings. -/
def pyInStr (needle haystack : String) : Bool :=
  decide (needle.toList <:+: haystack.toList)

/-- `is_placeholder_summary` from `summarize.py` (`none` covers the
non-dict inputs, which give `False`). -/
def is_placeholder_summary (summary : Option JObj) : Bool :=
  match summary with
  | none => false
  | some s =>
    let notes := pyStr (s.getD "notes" (.str ""))
    if pyInStr "summary_json_error" notes || pyInStr "summary_retry_failed" notes then
      true
    else
      let kpFlag :=
        match s.getD "key_points" (.arr []) with
        | .arr l =>
          let normalized := l.map (fun item => (pyStrip (pyStr item)).toLower)
          !normalized.isEmpty &&
            normalized.all (fun x => x == "" || x == "unknown")
        | _ => false
      if kpFlag then true
      else
        let unique := (pyStrip (pyStr (s.getD "unique_contribution" (.str "")))).toLower
        (unique == "" || unique == "unknown") &&
          !(pyInStr "summary_retry_recovered" notes)

/-- `should_retry_cached_summary` from `summarize.py`. -/
def should_retry_cached_summary (summary : Option JObj) : Bool :=
  if !(is_placeholder_summary summary) then false
  else
    let notes := pyStr ((summary.getD []).getD "notes" (.str ""))
    if pyInStr "summary_retry_failed" notes then false
    else true

/-- `mark_summary_retry_failed` from `summarize.py`. -/
def mark_summary_retry_failed (summary : JObj) (reason : String) : JObj :=
  let notes := pyStrip (pyStr (summary.getD "notes" (.str "")))
  let marker := "summary_retry_failed;summary_retry_failed_reason=" ++ reason
  summary.set "notes" (.str (if notes ≠ "" then notes ++ ";" ++ marker else marker))

/-- `mark_summary_retry_recovered` from `summarize.py`. -/
def mark_summary_retry_recovered (summary : JObj) : JObj :=
  let notes := pyStrip (pyStr (summary.getD "notes" (.str "")))
  let marker := "summary_retry_recovered"
  summary.set "notes" (.str (if notes ≠ "" then notes ++ ";" ++ marker else marker))

/-- Sort key of `pipeline.py` line 187: `lambda x: x["arxiv_id_base"]`
(every triage row carries the key by construction). -/
def triage_sort_key (row : JObj) : String :=
  pyStr (row.getD "arxiv_id_base" (.str ""))

/-- Sort key of `pipeline.py` line 303:
`lambda x: (x["published_date"], x["arxiv_id_base"])`. -/
def summary_sort_key (row : JObj) : String × String :=
  (pyStr (row.getD "published_date" (.str "")),
   pyStr (row.getD "arxiv_id_base" (.str "")))

/-- Python tuple `<=` on string pairs. -/
def pyPairLe (a b : String × String) : Bool :=
  if a.1 = b.1 then pyStrLe a.2 b.2 else pyStrLt a.1 b.1

/-- `sorted(triage_rows, key=lambda x: x["arxiv_id_base"])` — Python's
`sorted` is a stable ascending sort, embedded as insertion sort (which is
stable). -/
def sorted_triage_rows (rows : List JObj) : List JObj :=
  List.insertionSort
    (fun a b => pyStrLe (triage_sort_key a) (triage_sort_key b) = true) rows

/-- `sorted(summaries, key=lambda x: (x["published_date"],
x["arxiv_id_base"]))`. -/
def sorted_summaries (rows : List JObj) : List JObj :=
  List.insertionSort
    (fun a b => pyPairLe (summary_sort_key a) (summary_sort_key b) = true) rows

/-- Modelled from the spec: numeric-with-suffix parsing of the response
normalizer ("string values like `"10k+"` convert to `10000.0` by
stripping `+`/commas, lower-casing, and treating a trailing `k` as a
×1000 multiplier; values that fail to parse become `null`, never
raise").  The coercion helper itself is absent from the sources under
`src/` — only its test (`tests/test_summarize_modes.py`) and this spec
sentence describe it; numbers pass through unchanged as in the test's
`channels` case. -/
def coerce_numeric_with_suffix (v : JValue) : JValue :=
  match v with
  | .num q => .num q
  | .str s =>
    let t := ((pyStrip s).toList.filter (fun c => !(c == '+') && !(c == ','))).map Char.toLower
    match t.getLast? with
    | some 'k' =>
      (match pyParseFloat (String.mk t.dropLast) with
       | some q => .num (q * 1000)
       | none => .null)
    | _ =>
      (match pyParseFloat (String.mk t) with
       | some q => .num q
       | none => .null)
  | _ => .null

/-! ## Supporting lemmas -/

theorem jobj_get_set_self (o : JObj) (k : String) (v : JValue) :
    (o.set k v).get k = some v := by
  induction o with
  | nil => simp [JObj.set, JObj.get]
  | cons hd tl ih =>
    cases hd with
    | mk k' v' =>
      by_cases h : k' = k
      · simp [JObj.set, JObj.get, h]
      · simp [JObj.set, JObj.get, h, ih]

theorem jobj_get_set_ne (o : JObj) (k k' : String) (v : JValue)
    (h : k ≠ k') : (o.set k v).get k' = o.get k' := by
  induction o with
  | nil => simp [JObj.set, JObj.get, h]
  | cons hd tl ih =>
    cases hd with
    | mk ka va =>
      by_cases hk : ka = k
      · subst hk
        simp [JObj.set, JObj.get, h]
      · simp only [JObj.set, if_neg hk]
        by_cases hk' : ka = k'
        · simp [JObj.get, hk']
        · simp [JObj.get, hk', ih]

theorem foldl_cond_set_get_ne (det : List (String × JValue)) (out : JObj)
    (cond : String → Bool) (k : String) (hk : ∀ p ∈ det, p.1 ≠ k) :
    (det.foldl (fun acc kv => if cond kv.1 then acc.set kv.1 kv.2 else acc)
      out).get k = out.get k := by
  induction det generalizing out with
  | nil => rfl
  | cons hd tl ih =>
    have hhd : hd.1 ≠ k := hk hd (List.mem_cons_self _ _)
    have htl : ∀ p ∈ tl, p.1 ≠ k := fun p hp => hk p (List.mem_cons_of_mem _ hp)
    simp only [List.foldl_cons]
    by_cases hc : cond hd.1
    · rw [if_pos hc, ih _ htl, jobj_get_set_ne _ _ _ _ hhd]
    · rw [if_neg hc, ih _ htl]

theorem foldl_cond_set_get_mem (det : List (String × JValue)) (out : JObj)
    (cond : String → Bool) (k : String) (v : JValue)
    (hmem : (k, v) ∈ det) (hnodup : (det.map Prod.fst).Nodup)
    (hc : cond k = true) :
    (det.foldl (fun acc kv => if cond kv.1 then acc.set kv.1 kv.2 else acc)
      out).get k = some v := by
  induction det generalizing out with
  | nil => simp at hmem
  | cons hd tl ih =>
    simp only [List.map_cons, List.nodup_cons] at hnodup
    rcases List.mem_cons.mp hmem with heq | hmem'
    · subst heq
      simp only [List.foldl_cons, hc, if_pos]
      have htl : ∀ p ∈ tl, p.1 ≠ k := by
        intro p hp hpk
        apply hnodup.1
        have h2 := List.mem_map_of_mem Prod.fst hp
        rw [hpk] at h2
        exact h2
      rw [foldl_cond_set_get_ne tl _ cond k htl, jobj_get_set_self]
    · have hne : hd.1 ≠ k := by
        intro h
        apply hnodup.1
        have h2 := List.mem_map_of_mem Prod.fst hmem'
        rw [h]
        exact h2
      simp only [List.foldl_cons]
      by_cases hcnd : cond hd.1
      · rw [if_pos hcnd]
        exact ih _ hmem' hnodup.2
      · rw [if_neg hcnd]
        exact ih _ hmem' hnodup.2

/-- `_filter_allowed_tags` only ever rewrites the `"tags"` binding. -/
theorem filter_allowed_tags_get_ne (out : JObj)
    (ats : Option (List (String × List String))) (k : String)
    (hk : k ≠ "tags") :
    (_filter_allowed_tags out ats).get k = out.get k := by
  cases ats with
  | none => rfl
  | some l =>
    by_cases hl : l.isEmpty
    · simp [_filter_allowed_tags, hl]
    · simp only [_filter_allowed_tags, hl, Bool.false_eq_true, if_false]
      cases hg : out.get "tags" with
      | none => simp [hg]
      | some tv =>
        cases tv with
        | obj tags =>
          simp only [hg]
          exact jobj_get_set_ne _ _ _ _ (fun h => hk h.symm)
        | null => simp [hg]
        | bool b => simp [hg]
        | num q => simp [hg]
        | str s => simp [hg]
        | arr xs => simp [hg]

/-- Substring containment survives appending on either side. -/
theorem pyInStr_append_right (n x m : String) (h : pyInStr n m = true) :
    pyInStr n (x ++ m) = true := by
  simp only [pyInStr, decide_eq_true_eq] at h ⊢
  obtain ⟨s, t, hst⟩ := h
  refine ⟨x.toList ++ s, t, ?_⟩
  have : (x ++ m).toList = x.toList ++ m.toList := by simp
  rw [this, ← hst]
  simp [List.append_assoc]

theorem pyInStr_append_left (n m x : String) (h : pyInStr n m = true) :
    pyInStr n (m ++ x) = true := by
  simp only [pyInStr, decide_eq_true_eq] at h ⊢
  obtain ⟨s, t, hst⟩ := h
  refine ⟨s, t ++ x.toList, ?_⟩
  have : (m ++ x).toList = m.toList ++ x.toList := by simp
  rw [this, ← hst]
  simp [List.append_assoc]

/-- A string that starts with the needle contains it. -/
theorem pyInStr_marker_self (n x : String) :
    pyInStr n (n ++ x) = true := by
  simp only [pyInStr, decide_eq_true_eq]
  refine ⟨[], x.toList, ?_⟩
  have : (n ++ x).toList = n.toList ++ x.toList := by simp
  rw [this]
  simp

/-- The `summary_retry_failed` token is contained in the notes string
written by `mark_summary_retry_failed`, whatever the previous notes. -/
theorem marker_in_marked_notes (old reason : String) :
    pyInStr "summary_retry_failed"
      (if old ≠ "" then
        old ++ ";" ++ ("summary_retry_failed;summary_retry_failed_reason=" ++ reason)
       else "summary_retry_failed;summary_retry_failed_reason=" ++ reason) = true := by
  have hsplit : "summary_retry_failed;summary_retry_failed_reason=" ++ reason =
      "summary_retry_failed" ++ (";summary_retry_failed_reason=" ++ reason) := by
    rw [← String.append_assoc]
    rfl
  by_cases h : old ≠ ""
  · rw [if_pos h, hsplit]
    exact pyInStr_append_right _ _ _ (pyInStr_marker_self _ _)
  · rw [if_neg h, hsplit]
    exact pyInStr_marker_self _ _

/-! ## C6 — determinism of the schema-default synthesizer -/

/-- C6: the schema default synthesizer is deterministic — two calls with
the same schema yield equal values.  `_schema_default` and its helpers
(`_pick_schema_variant`, `_string_default`, `_numeric_default`) read
nothing but the schema argument: the source imports no randomness or
clock, so the embedding is a pure function and determinism is
definitional. -/
theorem schema_default_deterministic (s1 s2 : Schema) (h : s1 = s2) :
    _schema_default s1 = _schema_default s2 :=
  congrArg _schema_default h

/-- Witness for `schema_default_deterministic` at a concrete schema. -/
theorem schema_default_deterministic_witness :
    _schema_default (Schema.mk [] [] none none none (.single "boolean")
      none none none none none none none none none []) =
    _schema_default (Schema.mk [] [] none none none (.single "boolean")
      none none none none none none none none none []) :=
  schema_default_deterministic _ _ rfl

/-! ## C10 — a retry-failed summary is never retried again -/

/-- C10: for every summary dict and reason, marking it retry-failed makes
`should_retry_cached_summary` return `false`: the marker written by
`mark_summary_retry_failed` contains the `summary_retry_failed` token that
`should_retry_cached_summary` checks, whatever the previous notes were. -/
theorem mark_retry_failed_never_retried (s : JObj) (reason : String) :
    should_retry_cached_summary (some (mark_summary_retry_failed s reason)) = false := by
  have hnotes :
      JObj.get (mark_summary_retry_failed s reason) "notes" =
      some (.str (if pyStrip (pyStr (s.getD "notes" (.str ""))) ≠ "" then
        pyStrip (pyStr (s.getD "notes" (.str ""))) ++ ";" ++
          ("summary_retry_failed;summary_retry_failed_reason=" ++ reason)
        else "summary_retry_failed;summary_retry_failed_reason=" ++ reason)) := by
    rw [mark_summary_retry_failed]
    exact jobj_get_set_self _ _ _
  have hX : pyStr (((some (mark_summary_retry_failed s reason)).getD []).getD
      "notes" (.str "")) =
      (if pyStrip (pyStr (s.getD "notes" (.str ""))) ≠ "" then
        pyStrip (pyStr (s.getD "notes" (.str ""))) ++ ";" ++
          ("summary_retry_failed;summary_retry_failed_reason=" ++ reason)
        else "summary_retry_failed;summary_retry_failed_reason=" ++ reason) := by
    show pyStr (JObj.getD (mark_summary_retry_failed s reason) "notes" (.str "")) = _
    rw [JObj.getD, hnotes]
    rfl
  rw [should_retry_cached_summary]
  by_cases hp : is_placeholder_summary (some (mark_summary_retry_failed s reason))
  · simp only [hp, Bool.not_true, Bool.false_eq_true, if_false]
    rw [hX, marker_in_marked_notes]
    simp
  · simp [hp]

/-- Witness for `mark_retry_failed_never_retried` (the theorem has only
universally quantified data arguments; instantiated at a concrete summary
and reason). -/
theorem mark_retry_failed_never_retried_witness :
    should_retry_cached_summary
      (some (mark_summary_retry_failed
        [("notes", .str "summary_json_error"), ("unique_contribution", .str "")]
        "quota")) = false :=
  mark_retry_failed_never_retried _ _

/-! ## C8 — triage decision-policy thresholds -/

/-- C8: `apply_decision_policy` yields `accept` when both relatedness
flags are truthy and confidence ≥ 0.6, else `borderline` when confidence
≥ 0.35, else `reject`; in particular, true flags with confidence 0.6,
0.5 and 0.34 give `accept`, `borderline` and `reject` respectively. -/
theorem apply_decision_policy_thresholds (d : JObj) (conf : ℚ)
    (hconf : JObj.get d "confidence" = some (.num conf)) :
    (pyTruthy (d.getD "is_eeg_related" .null) = true →
     pyTruthy (d.getD "is_foundation_model_related" .null) = true →
     (0.6 : ℚ) ≤ conf →
     ∃ r, apply_decision_policy d = some r ∧ r.get "decision" = some (.str "accept")) ∧
    (¬(pyTruthy (d.getD "is_eeg_related" .null) = true ∧
       pyTruthy (d.getD "is_foundation_model_related" .null) = true ∧
       (0.6 : ℚ) ≤ conf) →
     (0.35 : ℚ) ≤ conf →
     ∃ r, apply_decision_policy d = some r ∧ r.get "decision" = some (.str "borderline")) ∧
    (conf < (0.35 : ℚ) →
     ∃ r, apply_decision_policy d = some r ∧ r.get "decision" = some (.str "reject")) := by
  have hfloat : pyFloat (d.getD "confidence" (.num 0)) = some conf := by
    rw [JObj.getD, hconf]
    rfl
  refine ⟨?_, ?_, ?_⟩
  · intro heeg hfm hge
    have hb : (pyTruthy (d.getD "is_eeg_related" .null) &&
        pyTruthy (d.getD "is_foundation_model_related" .null) &&
        decide ((0.6 : ℚ) ≤ conf)) = true := by
      rw [heeg, hfm]
      simp [hge]
    simp only [apply_decision_policy, hfloat, hb, if_true]
    refine ⟨_, rfl, ?_⟩
    rw [jobj_get_set_ne _ _ _ _ (by decide), jobj_get_set_self]
  · intro hnotacc hge
    have hb : (pyTruthy (d.getD "is_eeg_related" .null) &&
        pyTruthy (d.getD "is_foundation_model_related" .null) &&
        decide ((0.6 : ℚ) ≤ conf)) = false := by
      by_contra hc
      have hc' := eq_true_of_ne_false hc
      simp only [Bool.and_eq_true, decide_eq_true_eq] at hc'
      exact hnotacc ⟨hc'.1.1, hc'.1.2, hc'.2⟩
    have hb35 : decide ((0.35 : ℚ) ≤ conf) = true := by simp [hge]
    simp only [apply_decision_policy, hfloat, hb, hb35, Bool.false_eq_true,
      if_false, if_true]
    refine ⟨_, rfl, ?_⟩
    rw [jobj_get_set_ne _ _ _ _ (by decide), jobj_get_set_self]
  · intro hlt
    have hb : (pyTruthy (d.getD "is_eeg_related" .null) &&
        pyTruthy (d.getD "is_foundation_model_related" .null) &&
        decide ((0.6 : ℚ) ≤ conf)) = false := by
      have h6 : decide ((0.6 : ℚ) ≤ conf) = false := by
        simp only [decide_eq_false_iff_not, not_le]
        calc conf < (0.35 : ℚ) := hlt
          _ ≤ (0.6 : ℚ) := by norm_num
      rw [h6]
      simp
    have hb35 : decide ((0.35 : ℚ) ≤ conf) = false := by
      simp only [decide_eq_false_iff_not, not_le]
      exact hlt
    simp only [apply_decision_policy, hfloat, hb, hb35, Bool.false_eq_true,
      if_false]
    exact ⟨_, rfl, jobj_get_set_self _ _ _⟩

/-- Witness for `apply_decision_policy_thresholds`: the three spec
examples — flags (true, true) with confidence 0.6 → accept, 0.5 →
borderline, 0.34 → reject. -/
theorem apply_decision_policy_thresholds_witness :
    (∃ r, apply_decision_policy
        [("is_eeg_related", .bool true), ("is_foundation_model_related", .bool true),
         ("confidence", .num 0.6)] = some r ∧
      r.get "decision" = some (.str "accept")) ∧
    (∃ r, apply_decision_policy
        [("is_eeg_related", .bool true), ("is_foundation_model_related", .bool true),
         ("confidence", .num 0.5)] = some r ∧
      r.get "decision" = some (.str "borderline")) ∧
    (∃ r, apply_decision_policy
        [("is_eeg_related", .bool true), ("is_foundation_model_related", .bool true),
         ("confidence", .num 0.34)] = some r ∧
      r.get "decision" = some (.str "reject")) := by
  refine ⟨?_, ?_, ?_⟩
  · exact (apply_decision_policy_thresholds
      [("is_eeg_related", .bool true), ("is_foundation_model_related", .bool true),
       ("confidence", .num 0.6)] 0.6 rfl).1 rfl rfl (by norm_num)
  · refine (apply_decision_policy_thresholds
      [("is_eeg_related", .bool true), ("is_foundation_model_related", .bool true),
       ("confidence", .num 0.5)] 0.5 rfl).2.1 ?_ (by norm_num)
    intro h
    have := h.2.2
    norm_num at this
  · exact (apply_decision_policy_thresholds
      [("is_eeg_related", .bool true), ("is_foundation_model_related", .bool true),
       ("confidence", .num 0.34)] 0.34 rfl).2.2 (by norm_num)

/-! ## C7 — numeric-with-suffix parsing -/

/-- C7: the numeric coercion converts `"10k+"` to `10000.0` and `"64"` to
`64.0`, turns anything unparseable into `null`, and — being a total
function whose string branch only ever produces a number or `null` —
never raises. -/
theorem coerce_numeric_examples :
    coerce_numeric_with_suffix (.str "10k+") = .num 10000 ∧
    coerce_numeric_with_suffix (.str "64") = .num 64 ∧
    coerce_numeric_with_suffix (.str "not-a-number") = .null ∧
    ∀ s : String, (∃ q : ℚ, coerce_numeric_with_suffix (.str s) = .num q) ∨
      coerce_numeric_with_suffix (.str s) = .null := by
  refine ⟨?_, ?_, ?_, ?_⟩
  · have e1 : coerce_numeric_with_suffix (.str "10k+") =
        .num ((1 : ℚ) * ((10 : ℕ) : ℚ) * 1000) := rfl
    rw [e1]
    exact congrArg JValue.num (by norm_num)
  · have e2 : coerce_numeric_with_suffix (.str "64") =
        .num ((1 : ℚ) * ((64 : ℕ) : ℚ)) := rfl
    rw [e2]
    exact congrArg JValue.num (by norm_num)
  · rfl
  · intro s
    rw [coerce_numeric_with_suffix]
    split
    · split
      · exact Or.inl ⟨_, rfl⟩
      · exact Or.inr rfl
    · split
      · exact Or.inl ⟨_, rfl⟩
      · exact Or.inr rfl

/-! ## C5 — token-budget payload selection -/

/-- C5: `_select_payload` returns the full-text payload (containing
`fulltext`, omitting `fulltext_slices`) exactly when the full text is
non-blank and the counted token value is at most `max_input_tokens`, with
the count recorded in the mode note; it returns the slices payload with
reason `missing_fulltext` on blank text, `count_tokens_failed` when the
counter raises, and `fulltext_over_limit` (with count and ceiling) when
over budget; and it never raises — every branch yields a payload (the
sole hypothesis pins the triage `confidence` to a number, as the data
model guarantees; the quantified inputs never cause an exception). -/
theorem select_payload_spec (paper : Paper) (triage : JObj) (raw : String)
    (slices : List (String × String)) (template : String) (llm : LLMStub)
    (maxTok : ℤ) (ats : Option (List (String × List String))) (conf : ℚ)
    (hconf : pyFloat (triage.getD "confidence" (.num 0)) = some conf) :
    ∃ base, _base_payload paper triage ats = some base ∧
      base.get "fulltext" = none ∧ base.get "fulltext_slices" = none ∧
      (pyIsBlank raw = true →
        _select_payload paper triage raw slices template llm maxTok ats =
          some (base.set "fulltext_slices" (slicesJ slices),
            "input_mode=fulltext_slices;reason=missing_fulltext")) ∧
      (pyIsBlank raw = false → ∀ n : ℤ,
        _count_tokens_or_none llm
          (_render_prompt template (base.set "fulltext" (.str raw))) = some n →
        n ≤ maxTok →
        _select_payload paper triage raw slices template llm maxTok ats =
          some (base.set "fulltext" (.str raw),
            "input_mode=fulltext;prompt_tokens=" ++ toString n)) ∧
      (pyIsBlank raw = false → ∀ n : ℤ,
        _count_tokens_or_none llm
          (_render_prompt template (base.set "fulltext" (.str raw))) = some n →
        maxTok < n →
        _select_payload paper triage raw slices template llm maxTok ats =
          some (base.set "fulltext_slices" (slicesJ slices),
            "input_mode=fulltext_slices;reason=fulltext_over_limit;prompt_tokens=" ++
              toString n ++ ";max_tokens=" ++ toString maxTok)) ∧
      (pyIsBlank raw = false →
        _count_tokens_or_none llm
          (_render_prompt template (base.set "fulltext" (.str raw))) = none →
        _select_payload paper triage raw slices template llm maxTok ats =
          some (base.set "fulltext_slices" (slicesJ slices),
            "input_mode=fulltext_slices;reason=count_tokens_failed")) ∧
      (∃ p note,
        _select_payload paper triage raw slices template llm maxTok ats =
          some (p, note) ∧
        ((p.get "fulltext").isSome = true ↔ pyIsBlank raw = false ∧
          ∃ n : ℤ, _count_tokens_or_none llm
            (_render_prompt template (base.set "fulltext" (.str raw))) = some n ∧
            n ≤ maxTok) ∧
        ((p.get "fulltext").isSome = true → p.get "fulltext_slices" = none) ∧
        (p.get "fulltext" = none →
          p.get "fulltext_slices" = some (slicesJ slices))) := by
  have htp : _summary_triage_payload triage =
      some [("decision", triage.getD "decision" (.str "reject")),
            ("confidence", .num conf),
            ("reasons", match triage.getD "reasons" (.arr []) with
              | .arr l => .arr l
              | v => .arr [.str (pyStr v)])] := by
    rw [_summary_triage_payload, hconf]
  have hbase : ∃ base, _base_payload paper triage ats = some base ∧
      base.get "fulltext" = none ∧ base.get "fulltext_slices" = none := by
    rw [_base_payload, htp]
    cases ats with
    | none => exact ⟨_, rfl, rfl, rfl⟩
    | some l =>
      by_cases hl : l.isEmpty
      · simp only [hl, Bool.not_true, Bool.false_eq_true, if_false]
        exact ⟨_, rfl, rfl, rfl⟩
      · simp only [hl, Bool.not_false, if_true]
        refine ⟨_, rfl, ?_, ?_⟩
        · rw [jobj_get_set_ne _ _ _ _ (by decide)]
          rfl
        · rw [jobj_get_set_ne _ _ _ _ (by decide)]
          rfl
  obtain ⟨base, hb, hbf, hbs⟩ := hbase
  refine ⟨base, hb, hbf, hbs, ?_, ?_, ?_, ?_, ?_⟩
  · intro hblank
    rw [_select_payload, hb]
    simp only [hblank, if_true]
  · intro hblank n hn hle
    rw [_select_payload, hb]
    simp only [hblank, Bool.false_eq_true, if_false, hn]
    rw [if_pos hle]
  · intro hblank n hn hlt
    rw [_select_payload, hb]
    simp only [hblank, Bool.false_eq_true, if_false, hn]
    rw [if_neg (not_le.mpr hlt)]
  · intro hblank hn
    rw [_select_payload, hb]
    simp only [hblank, Bool.false_eq_true, if_false, hn]
  · rw [_select_payload, hb]
    by_cases hblank : pyIsBlank raw
    · simp only [hblank, if_true]
      refine ⟨_, _, rfl, ?_, ?_, ?_⟩
      · rw [jobj_get_set_ne _ _ _ _ (by decide), hbf]
        simp only [Option.isSome_none, Bool.false_eq_true, false_iff]
        rintro ⟨hfalse, -⟩
        exact Bool.noConfusion hfalse
      · intro h
        rw [jobj_get_set_ne _ _ _ _ (by decide), hbf] at h
        simp at h
      · intro _
        exact jobj_get_set_self _ _ _
    · simp only [hblank, Bool.false_eq_true, if_false]
      cases hn : _count_tokens_or_none llm
          (_render_prompt template (base.set "fulltext" (.str raw))) with
      | some n =>
        by_cases hle : n ≤ maxTok
        · simp only [hn, hle, if_pos]
          refine ⟨_, _, rfl, ?_, ?_, ?_⟩
          · rw [jobj_get_set_self]
            simp only [Option.isSome_some, true_iff]
            exact ⟨trivial, n, rfl, hle⟩
          · intro _
            rw [jobj_get_set_ne _ _ _ _ (by decide), hbs]
          · intro h
            rw [jobj_get_set_self] at h
            simp at h
        · simp only [hn, hle, if_neg]
          refine ⟨_, _, rfl, ?_, ?_, ?_⟩
          · rw [jobj_get_set_ne _ _ _ _ (by decide), hbf]
            simp only [Option.isSome_none, Bool.false_eq_true, false_iff]
            rintro ⟨-, m, hm, hmle⟩
            have hnm := Option.some.inj hm
            rw [← hnm] at hmle
            exact hle hmle
          · intro h
            rw [jobj_get_set_ne _ _ _ _ (by decide), hbf] at h
            simp at h
          · intro _
            exact jobj_get_set_self _ _ _
      | none =>
        simp only [hn]
        refine ⟨_, _, rfl, ?_, ?_, ?_⟩
        · rw [jobj_get_set_ne _ _ _ _ (by decide), hbf]
          simp only [Option.isSome_none, Bool.false_eq_true, false_iff]
          rintro ⟨-, m, hm, -⟩
          exact Option.noConfusion hm
        · intro h
          rw [jobj_get_set_ne _ _ _ _ (by decide), hbf] at h
          simp at h
        · intro _
          exact jobj_get_set_self _ _ _

/-- Witness for `select_payload_spec` at a concrete paper, an empty triage
dict (whose defaulted confidence is the number 0), and a concrete client. -/
theorem select_payload_spec_witness :
    pyFloat (JObj.getD [] "confidence" (.num 0)) = some 0 ∧
    ∃ base, _base_payload ⟨"2501.1", "T", "2025-01-01T00:00:00Z", [], "abs",
        .null, .null⟩ [] none = some base ∧
      base.get "fulltext" = none := by
  refine ⟨rfl, ?_⟩
  obtain ⟨base, hb, hbf, -⟩ :=
    select_payload_spec ⟨"2501.1", "T", "2025-01-01T00:00:00Z", [], "abs",
      .null, .null⟩ [] "" [] "TPL" ⟨fun _ => .text "x", none⟩ 100 none 0 rfl
  exact ⟨base, hb, hbf⟩

/-! ## C4 — deterministic-field overwriting -/

theorem det_keys_nodup (paper : Paper) (uf : Bool) (notes : String) :
    ((deterministicFields paper uf notes).map Prod.fst).Nodup := by
  rw [show (deterministicFields paper uf notes).map Prod.fst =
    ["arxiv_id_base", "title", "published_date", "categories",
     "used_fulltext", "notes"] from rfl]
  decide

/-- C4 (amended): normalization and the fallback constructor overwrite
each identity/pipeline field (`arxiv_id_base`, `title`, truncated
`published_date`, `categories`, `used_fulltext`, `notes`) with the
pipeline-computed value — for every field that the schema declares among
its `properties`.  (The unamended claim, quantifying over all schemas, is
false: `_inject_deterministic_fields` skips keys the schema does not
declare — see the counterexample.) -/
theorem normalize_overwrites_declared_fields (data : JObj) (schema : Schema)
    (paper : Paper) (uf : Bool) (notes : String)
    (ats : Option (List (String × List String)))
    (hkey : _schema_has_key schema "title" = true) :
    (_normalize_summary_output data schema paper uf notes ats).get "title" =
      some (.str paper.title) ∧
    (_schema_fallback_output schema paper uf notes).get "title" =
      some (.str paper.title) ∧
    (∀ h : _schema_has_key schema "arxiv_id_base" = true,
      (_normalize_summary_output data schema paper uf notes ats).get "arxiv_id_base" =
        some (.str paper.arxiv_id_base)) ∧
    (∀ h : _schema_has_key schema "published_date" = true,
      (_normalize_summary_output data schema paper uf notes ats).get "published_date" =
        some (.str (paper.published.take 10))) ∧
    (∀ h : _schema_has_key schema "categories" = true,
      (_normalize_summary_output data schema paper uf notes ats).get "categories" =
        some (.arr (paper.categories.map JValue.str))) ∧
    (∀ h : _schema_has_key schema "used_fulltext" = true,
      (_normalize_summary_output data schema paper uf notes ats).get "used_fulltext" =
        some (.bool uf)) ∧
    (∀ h : _schema_has_key schema "notes" = true,
      (_normalize_summary_output data schema paper uf notes ats).get "notes" =
        some (.str notes)) ∧
    (∀ h : _schema_has_key schema "published_date" = true,
      (_schema_fallback_output schema paper uf notes).get "published_date" =
        some (.str (paper.published.take 10))) := by
  have hnorm : ∀ (k : String) (v : JValue), k ≠ "tags" →
      (k, v) ∈ deterministicFields paper uf notes →
      _schema_has_key schema k = true →
      (_normalize_summary_output data schema paper uf notes ats).get k = some v := by
    intro k v hk hmem hc
    rw [_normalize_summary_output, filter_allowed_tags_get_ne _ _ _ hk,
      _inject_deterministic_fields]
    exact foldl_cond_set_get_mem _ _ _ _ _ hmem (det_keys_nodup paper uf notes) hc
  have hfb : ∀ (k : String) (v : JValue),
      (k, v) ∈ deterministicFields paper uf notes →
      _schema_has_key schema k = true →
      (_schema_fallback_output schema paper uf notes).get k = some v := by
    intro k v hmem hc
    rw [_schema_fallback_output, _inject_deterministic_fields]
    exact foldl_cond_set_get_mem _ _ _ _ _ hmem (det_keys_nodup paper uf notes) hc
  refine ⟨hnorm _ _ (by decide) (by simp [deterministicFields]) hkey,
    hfb _ _ (by simp [deterministicFields]) hkey,
    fun h => hnorm _ _ (by decide) (by simp [deterministicFields]) h,
    fun h => hnorm _ _ (by decide) (by simp [deterministicFields]) h,
    fun h => hnorm _ _ (by decide) (by simp [deterministicFields]) h,
    fun h => hnorm _ _ (by decide) (by simp [deterministicFields]) h,
    fun h => hnorm _ _ (by decide) (by simp [deterministicFields]) h,
    fun h => hfb _ _ (by simp [deterministicFields]) h⟩

/-- Counterexample to C4 as stated: under a schema that does not declare
`title` among its properties, a forged model `title` survives
normalization unchanged — the true title of the source document is not
restored. -/
theorem normalize_forged_title_survives :
    (_normalize_summary_output [("title", .str "forged")]
        (Schema.mk [] [] none none none (.single "object") none none none
          none none none none none none [])
        ⟨"2501.1", "Real Title", "2025-01-10T00:00:00Z", ["cs.LG"], "abs",
          .null, .null⟩ true "n" none).get "title" = some (.str "forged") ∧
    ("forged" : String) ≠ "Real Title" := by
  exact ⟨rfl, by decide⟩

/-- Witness for `normalize_overwrites_declared_fields` at a schema that
declares the `title` property. -/
theorem normalize_overwrites_declared_fields_witness :
    _schema_has_key (Schema.mk [] [] none none none (.single "object")
      none none none none none none none none
      (some [("title", Schema.mk [] [] none none none (.single "string")
        none none none none none none none none none [])]) []) "title" = true ∧
    (_normalize_summary_output [("title", .str "forged")]
        (Schema.mk [] [] none none none (.single "object")
          none none none none none none none none
          (some [("title", Schema.mk [] [] none none none (.single "string")
            none none none none none none none none none [])]) [])
        ⟨"2501.1", "Real Title", "2025-01-10T00:00:00Z", ["cs.LG"], "abs",
          .null, .null⟩ true "n" none).get "title" =
      some (.str "Real Title") := by
  refine ⟨rfl, ?_⟩
  exact (normalize_overwrites_declared_fields [("title", .str "forged")]
    (Schema.mk [] [] none none none (.single "object")
      none none none none none none none none
      (some [("title", Schema.mk [] [] none none none (.single "string")
        none none none none none none none none none [])]) [])
    ⟨"2501.1", "Real Title", "2025-01-10T00:00:00Z", ["cs.LG"], "abs",
      .null, .null⟩ true "n" none rfl).1

/-! ## C9 — output ordering contract -/

theorem pyCharsLt_irrefl (l : List Char) : pyCharsLt l l = false := by
  induction l with
  | nil => rfl
  | cons c cs ih => simp [pyCharsLt, ih]

theorem pyCharsLt_trichotomy (a b : List Char) :
    pyCharsLt a b = true ∨ a = b ∨ pyCharsLt b a = true := by
  induction a generalizing b with
  | nil =>
    cases b with
    | nil => right; left; rfl
    | cons y ys => left; rfl
  | cons x xs ih =>
    cases b with
    | nil => right; right; rfl
    | cons y ys =>
      rcases Nat.lt_trichotomy x.toNat y.toNat with h | h | h
      · left
        simp [pyCharsLt, h]
      · have hxy : x = y := by
          have h2 : x.val = y.val := by
            have h3 : x.val.toNat = y.val.toNat := h
            exact UInt32.toNat.inj h3
          exact Char.ext h2
        subst hxy
        rcases ih ys with h1 | h1 | h1
        · left
          simp [pyCharsLt, h1]
        · right; left
          rw [h1]
        · right; right
          simp [pyCharsLt, h1]
      · right; right
        simp [pyCharsLt, h]

theorem pyCharsLt_asymm (a b : List Char) (h : pyCharsLt a b = true) :
    pyCharsLt b a = false := by
  induction a generalizing b with
  | nil =>
    cases b with
    | nil => simp [pyCharsLt] at h
    | cons y ys => rfl
  | cons x xs ih =>
    cases b with
    | nil => simp [pyCharsLt] at h
    | cons y ys =>
      rcases Nat.lt_trichotomy x.toNat y.toNat with hc | hc | hc
      · simp [pyCharsLt, hc, Nat.lt_asymm hc, Nat.not_lt_of_lt hc]
      · rw [pyCharsLt] at h ⊢
        rw [if_neg (by omega), if_neg (by omega)] at h
        rw [if_neg (by omega), if_neg (by omega)]
        exact ih ys h
      · simp [pyCharsLt, hc, Nat.lt_asymm hc, Nat.not_lt_of_lt hc] at h

theorem pyCharsLt_trans (a b c : List Char) (hab : pyCharsLt a b = true)
    (hbc : pyCharsLt b c = true) : pyCharsLt a c = true := by
  induction a generalizing b c with
  | nil =>
    cases c with
    | nil =>
      cases b with
      | nil => exact hab
      | cons y ys => simp [pyCharsLt] at hbc
    | cons z zs => rfl
  | cons x xs ih =>
    cases b with
    | nil => simp [pyCharsLt] at hab
    | cons y ys =>
      cases c with
      | nil => simp [pyCharsLt] at hbc
      | cons z zs =>
        rw [pyCharsLt] at hab hbc ⊢
        by_cases h1 : x.toNat < y.toNat
        · by_cases h2 : y.toNat < z.toNat
          · rw [if_pos (by omega)]
          · rw [if_neg h2] at hbc
            by_cases h2b : z.toNat < y.toNat
            · rw [if_pos h2b] at hbc
              exact absurd hbc (by simp)
            · rw [if_pos (by omega)]
        · rw [if_neg h1] at hab
          by_cases h1b : y.toNat < x.toNat
          · rw [if_pos h1b] at hab
            exact absurd hab (by simp)
          · rw [if_neg h1b] at hab
            by_cases h2 : y.toNat < z.toNat
            · rw [if_pos (by omega)]
            · rw [if_neg h2] at hbc
              by_cases h2b : z.toNat < y.toNat
              · rw [if_pos h2b] at hbc
                exact absurd hbc (by simp)
              · rw [if_neg h2b] at hbc
                rw [if_neg (by omega), if_neg (by omega)]
                exact ih ys zs hab hbc

theorem string_toList_inj (a b : String) (h : a.toList = b.toList) : a = b := by
  cases a with
  | mk da =>
    cases b with
    | mk db =>
      have : da = db := h
      rw [this]

theorem pyStrLe_total (a b : String) :
    pyStrLe a b = true ∨ pyStrLe b a = true := by
  rw [pyStrLe, pyStrLe]
  by_cases h : pyCharsLt b.toList a.toList
  · right
    rw [pyCharsLt_asymm _ _ h]
    rfl
  · left
    rw [Bool.not_eq_true']
    exact eq_false_of_ne_true h

theorem pyStrLe_trans (a b c : String) (hab : pyStrLe a b = true)
    (hbc : pyStrLe b c = true) : pyStrLe a c = true := by
  rw [pyStrLe, Bool.not_eq_true', Bool.eq_false_iff] at hab hbc ⊢
  intro hca
  rcases pyCharsLt_trichotomy a.toList b.toList with h1 | h1 | h1
  · rcases pyCharsLt_trichotomy b.toList c.toList with h2 | h2 | h2
    · exact absurd (pyCharsLt_trans _ _ _ (pyCharsLt_trans _ _ _ h1 h2) hca)
        (by simp [pyCharsLt_irrefl])
    · rw [h2] at h1
      exact absurd (pyCharsLt_trans _ _ _ h1 hca) (by simp [pyCharsLt_irrefl])
    · exact hbc h2
  · rw [h1] at hca
    rcases pyCharsLt_trichotomy b.toList c.toList with h2 | h2 | h2
    · exact absurd (pyCharsLt_trans _ _ _ h2 hca) (by simp [pyCharsLt_irrefl])
    · rw [h2] at hca
      exact absurd hca (by simp [pyCharsLt_irrefl])
    · exact hbc h2
  · exact hab h1

theorem pyStrLt_ne (a b : String) (h : pyStrLt a b = true) : a ≠ b := by
  intro he
  subst he
  rw [pyStrLt, pyCharsLt_irrefl] at h
  exact Bool.noConfusion h

theorem pyStrLt_trans (a b c : String) (hab : pyStrLt a b = true)
    (hbc : pyStrLt b c = true) : pyStrLt a c = true :=
  pyCharsLt_trans _ _ _ hab hbc

theorem pyPairLe_total (a b : String × String) :
    pyPairLe a b = true ∨ pyPairLe b a = true := by
  rw [pyPairLe, pyPairLe]
  by_cases h : a.1 = b.1
  · rw [if_pos h, if_pos h.symm]
    exact pyStrLe_total a.2 b.2
  · rw [if_neg h, if_neg (fun hb => h hb.symm)]
    rcases pyCharsLt_trichotomy a.1.toList b.1.toList with h1 | h1 | h1
    · left; exact h1
    · exact absurd (string_toList_inj _ _ h1) h
    · right; exact h1

theorem pyPairLe_trans (a b c : String × String) (hab : pyPairLe a b = true)
    (hbc : pyPairLe b c = true) : pyPairLe a c = true := by
  rw [pyPairLe] at hab hbc ⊢
  by_cases h1 : a.1 = b.1 <;> by_cases h2 : b.1 = c.1
  · rw [if_pos h1] at hab
    rw [if_pos h2] at hbc
    rw [if_pos (h1.trans h2)]
    exact pyStrLe_trans _ _ _ hab hbc
  · rw [if_pos h1] at hab
    rw [if_neg h2] at hbc
    have hac : a.1 ≠ c.1 := fun he => h2 (h1 ▸ he ▸ rfl)
    rw [if_neg hac]
    rw [h1]
    exact hbc
  · rw [if_neg h1] at hab
    rw [if_pos h2] at hbc
    have hac : a.1 ≠ c.1 := fun he => h1 (he.trans h2.symm)
    rw [if_neg hac, ← h2]
    exact hab
  · rw [if_neg h1] at hab
    rw [if_neg h2] at hbc
    have hlt := pyStrLt_trans _ _ _ hab hbc
    rw [if_neg (pyStrLt_ne _ _ hlt)]
    exact hlt

/-- C9: the pipeline's triage rows are written sorted ascending by base
identifier and the summary rows sorted ascending by (publication date,
base identifier): the sorted outputs are pairwise ordered permutations of
the inputs, and the spec's two concrete examples evaluate as stated
(ids `["b","a","c"]` emit as `["a","b","c"]`; dates 2025-01-01 before
2025-01-02). -/
theorem run_month_output_ordering :
    (∀ rows : List JObj,
      List.Sorted (fun a b => pyStrLe (triage_sort_key a) (triage_sort_key b) = true)
        (sorted_triage_rows rows) ∧
      (sorted_triage_rows rows).Perm rows) ∧
    (∀ rows : List JObj,
      List.Sorted (fun a b => pyPairLe (summary_sort_key a) (summary_sort_key b) = true)
        (sorted_summaries rows) ∧
      (sorted_summaries rows).Perm rows) ∧
    sorted_triage_rows
      [[("arxiv_id_base", .str "b")], [("arxiv_id_base", .str "a")],
       [("arxiv_id_base", .str "c")]] =
      [[("arxiv_id_base", .str "a")], [("arxiv_id_base", .str "b")],
       [("arxiv_id_base", .str "c")]] ∧
    sorted_summaries
      [[("published_date", .str "2025-01-02"), ("arxiv_id_base", .str "x")],
       [("published_date", .str "2025-01-01"), ("arxiv_id_base", .str "y")]] =
      [[("published_date", .str "2025-01-01"), ("arxiv_id_base", .str "y")],
       [("published_date", .str "2025-01-02"), ("arxiv_id_base", .str "x")]] := by
  refine ⟨?_, ?_, ?_, ?_⟩
  · intro rows
    constructor
    · haveI ht : IsTotal JObj
          (fun a b => pyStrLe (triage_sort_key a) (triage_sort_key b) = true) :=
        ⟨fun a b => pyStrLe_total _ _⟩
      haveI htr : IsTrans JObj
          (fun a b => pyStrLe (triage_sort_key a) (triage_sort_key b) = true) :=
        ⟨fun a b c => pyStrLe_trans _ _ _⟩
      exact List.sorted_insertionSort _ rows
    · exact List.perm_insertionSort _ rows
  · intro rows
    constructor
    · haveI ht : IsTotal JObj
          (fun a b => pyPairLe (summary_sort_key a) (summary_sort_key b) = true) :=
        ⟨fun a b => pyPairLe_total _ _⟩
      haveI htr : IsTrans JObj
          (fun a b => pyPairLe (summary_sort_key a) (summary_sort_key b) = true) :=
        ⟨fun a b c => pyPairLe_trans _ _ _⟩
      exact List.sorted_insertionSort _ rows
    · exact List.perm_insertionSort _ rows
  · rfl
  · rfl

/-! ## C1 — exactly one repair attempt, then the fallback -/

theorem pyInStr_self (n : String) : pyInStr n n = true := by
  simp only [pyInStr, decide_eq_true_eq]
  exact ⟨[], [], by simp⟩

/-- The fallback diagnostic marker is contained in the fallback notes. -/
theorem marker_in_fallback_notes (merged : String) :
    pyInStr "summary_json_error"
      (if merged ≠ "" then merged ++ ";summary_json_error"
       else "summary_json_error") = true := by
  by_cases h : merged ≠ ""
  · rw [if_pos h]
    rw [show merged ++ ";summary_json_error" =
        (merged ++ ";") ++ "summary_json_error" by
      rw [String.append_assoc]
      rfl]
    exact pyInStr_append_right _ _ _ (pyInStr_self _)
  · rw [if_neg h]
    exact pyInStr_self _

/-- C1 (amended): against a client whose `generate` always returns text
failing parse/normalize/validate, `summarize_paper` makes exactly two
`generate` calls (initial + one repair) and — provided the synthesized
fallback record validates against the schema — returns it, its `notes`
containing the `summary_json_error` marker whenever the schema declares a
`notes` property; `triage_paper` likewise makes exactly two calls and
returns its literal fallback record, whose `reasons` carry the
`triage_json_error` marker.  (Unamended, the claim fails: a schema that
does not declare `notes` yields a fallback record without any `notes`
key — see the counterexample.) -/
theorem repair_bounded_to_one_attempt (paper : Paper) (triage : JObj)
    (raw_fulltext : String) (slices : List (String × String)) (uf : Bool)
    (notes : String) (llm : LLMStub) (pt rt : String) (schema : Schema)
    (maxTok : ℤ) (ats : Option (List (String × List String)))
    (parse : String → Option JObj) (payload : JObj) (mode_notes : String)
    (merged fbNotes : String) (fb : JObj)
    (hsel : _select_payload paper triage raw_fulltext slices pt llm maxTok ats =
      some (payload, mode_notes))
    (htext : ∀ n, ∃ s, llm.gen n = .text s)
    (hfail : ∀ raw mn, summarize_attempt raw parse schema paper uf mn ats = none)
    (hmerged : merged = if notes ≠ "" then notes ++ ";" ++ mode_notes else mode_notes)
    (hfbn : fbNotes = if merged ≠ "" then merged ++ ";summary_json_error"
      else "summary_json_error")
    (hfb : fb = _schema_fallback_output schema paper uf fbNotes)
    (tpaper : Paper) (tllm : LLMStub) (tpt trt : String) (tschema : Schema)
    (tparse : String → Option JObj)
    (httext : ∀ n, ∃ s, tllm.gen n = .text s)
    (htfail : ∀ raw, triage_attempt raw tparse tschema = none) :
    (summarize_paper paper triage raw_fulltext slices uf notes llm pt rt
      schema maxTok ats parse).2 = 2 ∧
    (validate_json (.obj fb) schema = true →
      (summarize_paper paper triage raw_fulltext slices uf notes llm pt rt
        schema maxTok ats parse).1 = .ok fb) ∧
    (_schema_has_key schema "notes" = true →
      fb.get "notes" = some (.str fbNotes) ∧
      pyInStr "summary_json_error" fbNotes = true) ∧
    triage_paper tpaper tllm tpt trt tschema tparse =
      (.ok (triage_fallback_record tpaper), 2) ∧
    (triage_fallback_record tpaper).get "reasons" =
      some (.arr [.str "triage_json_error"]) := by
  obtain ⟨s0, hs0⟩ := htext 0
  obtain ⟨s1, hs1⟩ := htext 1
  have hsumm : summarize_paper paper triage raw_fulltext slices uf notes llm
      pt rt schema maxTok ats parse =
      summarize_fallback schema paper uf merged 2 := by
    rw [summarize_paper, hsel]
    simp only [hs0, hs1, hfail, hmerged]
  have hfallback : summarize_fallback schema paper uf merged 2 =
      if validate_json (.obj fb) schema = true then (.ok fb, 2)
      else (.error .invalidFallback, 2) := by
    rw [summarize_fallback, hfb, hfbn]
  obtain ⟨t0, ht0⟩ := httext 0
  obtain ⟨t1, ht1⟩ := httext 1
  have htri : triage_paper tpaper tllm tpt trt tschema tparse =
      (.ok (triage_fallback_record tpaper), 2) := by
    rw [triage_paper]
    simp only [ht0, ht1, htfail]
  refine ⟨?_, ?_, ?_, htri, rfl⟩
  · rw [hsumm, hfallback]
    split <;> rfl
  · intro hv
    rw [hsumm, hfallback, if_pos hv]
  · intro hk
    constructor
    · rw [hfb, _schema_fallback_output, _inject_deterministic_fields]
      exact foldl_cond_set_get_mem _ _ _ _ _ (by simp [deterministicFields])
        (det_keys_nodup paper uf fbNotes) hk
    · rw [hfbn]
      exact marker_in_fallback_notes merged

/-- Counterexample to C1 as stated: under a schema that declares no
`notes` property, the fallback record returned after the two failing
attempts has no `notes` key at all, so its notes cannot contain the
`summary_json_error` marker. -/
theorem fallback_notes_missing_when_undeclared :
    summarize_paper ⟨"2501.1", "T", "2025-01-10T00:00:00Z", ["cs.LG"], "abs",
        .null, .null⟩ [] "" [] false "" ⟨fun _ => .text "x", none⟩ "T" "R"
      (Schema.mk [] [] none none none (.single "object") none none none
        none none none none none none [])
      10 none (fun _ => none) =
      (.ok [], 2) ∧
    JObj.get ([] : JObj) "notes" = none := by
  exact ⟨rfl, rfl⟩

/-- Witness for `repair_bounded_to_one_attempt` at concrete stubs: an LLM
that always answers `"x"`, a parser that always fails, and a schema
declaring a `notes` property. -/
theorem repair_bounded_to_one_attempt_witness :
    (summarize_paper ⟨"2501.1", "T", "2025-01-10T00:00:00Z", ["cs.LG"], "abs",
        .null, .null⟩ [] "" [] false "" ⟨fun _ => .text "x", none⟩ "T" "R"
      (Schema.mk [] [] none none none (.single "object") none none none
        none none none none none
        (some [("notes", Schema.mk [] [] none none none (.single "string")
          none none none none none none none none none [])]) [])
      10 none (fun _ => none)).2 = 2 ∧
    triage_paper ⟨"2501.1", "T", "2025-01-10T00:00:00Z", ["cs.LG"], "abs",
        .null, .null⟩ ⟨fun _ => .text "x", none⟩ "T" "R"
      (Schema.mk [] [] none none none (.single "object") none none none
        none none none none none none []) (fun _ => none) =
      (.ok (triage_fallback_record ⟨"2501.1", "T", "2025-01-10T00:00:00Z",
        ["cs.LG"], "abs", .null, .null⟩), 2) := by
  obtain ⟨h1, -, -, h4, -⟩ := repair_bounded_to_one_attempt
    ⟨"2501.1", "T", "2025-01-10T00:00:00Z", ["cs.LG"], "abs", .null, .null⟩
    [] "" [] false "" ⟨fun _ => .text "x", none⟩ "T" "R"
    (Schema.mk [] [] none none none (.single "object") none none none
      none none none none none
      (some [("notes", Schema.mk [] [] none none none (.single "string")
        none none none none none none none none none [])]) [])
    10 none (fun _ => none) _ _ _ _ _ rfl (fun n => ⟨"x", rfl⟩)
    (fun raw mn => rfl) rfl rfl rfl
    ⟨"2501.1", "T", "2025-01-10T00:00:00Z", ["cs.LG"], "abs", .null, .null⟩
    ⟨fun _ => .text "x", none⟩ "T" "R"
    (Schema.mk [] [] none none none (.single "object") none none none
      none none none none none none []) (fun _ => none)
    (fun n => ⟨"x", rfl⟩) (fun raw => rfl)
  exact ⟨h1, h4⟩

/-- C3 (code bug): a rate-limit signal propagates uncaught from the
INITIAL `generate` call (it sits outside the try-block), but a rate-limit
signal raised by the REPAIR `generate` call is caught by that attempt's
`except Exception` (`RateLimitError` subclasses `RuntimeError`) and
silently converted into the fallback record instead of propagating —
in `summarize_paper` and `triage_paper` alike, contradicting the spec's
"propagates immediately to the caller ... from both the initial attempt
and the repair attempt". -/
theorem rate_limit_swallowed_on_repair :
    summarize_paper ⟨"2501.1", "T", "2025-01-10T00:00:00Z", ["cs.LG"], "abs",
        .null, .null⟩ [] "" [] false "" ⟨fun _ => .rateLimit, none⟩ "T" "R"
      (Schema.mk [] [] none none none (.single "object") none none none
        none none none none none none [])
      10 none (fun _ => none) =
      (.error .rateLimited, 1) ∧
    summarize_paper ⟨"2501.1", "T", "2025-01-10T00:00:00Z", ["cs.LG"], "abs",
        .null, .null⟩ [] "" [] false ""
      ⟨fun n => if n == 0 then .text "bad" else .rateLimit, none⟩ "T" "R"
      (Schema.mk [] [] none none none (.single "object") none none none
        none none none none none none [])
      10 none (fun _ => none) =
      (.ok [], 2) ∧
    triage_paper ⟨"2501.1", "T", "2025-01-10T00:00:00Z", ["cs.LG"], "abs",
        .null, .null⟩ ⟨fun _ => .rateLimit, none⟩ "T" "R"
      (Schema.mk [] [] none none none (.single "object") none none none
        none none none none none none []) (fun _ => none) =
      (.error .rateLimited, 1) ∧
    triage_paper ⟨"2501.1", "T", "2025-01-10T00:00:00Z", ["cs.LG"], "abs",
        .null, .null⟩
      ⟨fun n => if n == 0 then .text "bad" else .rateLimit, none⟩ "T" "R"
      (Schema.mk [] [] none none none (.single "object") none none none
        none none none none none none []) (fun _ => none) =
      (.ok (triage_fallback_record ⟨"2501.1", "T", "2025-01-10T00:00:00Z",
        ["cs.LG"], "abs", .null, .null⟩), 2) := by
  exact ⟨rfl, rfl, rfl, rfl⟩

/-- Every JSON value has positive size. -/
theorem jvalue_size_pos (v : JValue) : 1 ≤ JValue.size v := by
  cases v <;> simp [JValue.size]

/-- Every schema has positive size. -/
theorem schema_size_pos (s : Schema) : 1 ≤ Schema.size s := by
  cases s
  simp [Schema.size]
  omega

/-- A member of a schema list is smaller than the list. -/
theorem sizeListS_mem_lt (w : Schema) (l : List Schema) (h : w ∈ l) :
    Schema.size w < sizeListS l := by
  induction l with
  | nil => cases h
  | cons a as ih =>
    rcases List.mem_cons.mp h with rfl | h2
    · simp [sizeListS]
      omega
    · have := ih h2
      simp [sizeListS]
      omega

/-- The `oneOf` list is smaller than the schema. -/
theorem size_oneOf_lt (s : Schema) : sizeListS s.oneOfF < Schema.size s := by
  cases s
  simp [Schema.size, Schema.oneOfF]
  omega

/-- The `anyOf` list is smaller than the schema. -/
theorem size_anyOf_lt (s : Schema) : sizeListS s.anyOfF < Schema.size s := by
  cases s
  simp [Schema.size, Schema.anyOfF]
  omega

/-- A `oneOf` variant is smaller than the schema. -/
theorem size_mem_oneOf_lt (w : Schema) (s : Schema) (h : w ∈ s.oneOfF) :
    Schema.size w < Schema.size s :=
  Nat.lt_trans (sizeListS_mem_lt w _ h) (size_oneOf_lt s)

/-- An `anyOf` variant is smaller than the schema. -/
theorem size_mem_anyOf_lt (w : Schema) (s : Schema) (h : w ∈ s.anyOfF) :
    Schema.size w < Schema.size s :=
  Nat.lt_trans (sizeListS_mem_lt w _ h) (size_anyOf_lt s)

/-- The `items` sub-schema is smaller than the schema. -/
theorem size_items_lt (s it : Schema) (h : s.itemsF = some it) :
    Schema.size it < Schema.size s := by
  cases s with
  | mk o a d c e t ml ml2 m m2 em em2 mi itf p r =>
    simp only [Schema.itemsF] at h
    subst h
    simp [Schema.size, sizeOptS]
    omega

/-- The property list is smaller than the schema. -/
theorem size_props_lt (s : Schema) (ps : List (String × Schema))
    (h : s.propertiesF = some ps) : sizePropsS ps < Schema.size s := by
  cases s with
  | mk o a d c e t ml ml2 m m2 em em2 mi itf pf r =>
    simp only [Schema.propertiesF] at h
    subst h
    simp [Schema.size, sizeOptPs]
    omega

/-- A schema found by `findProp` is smaller than the property list. -/
theorem size_findProp_lt (ps : List (String × Schema)) (k : String)
    (sub : Schema) (h : findProp ps k = some sub) :
    Schema.size sub < sizePropsS ps := by
  induction ps with
  | nil => simp [findProp] at h
  | cons hd tl ih =>
    rw [findProp] at h
    by_cases hk : hd.1 = k
    · rw [if_pos hk] at h
      cases h
      cases hd
      simp [sizePropsS]
      omega
    · rw [if_neg hk] at h
      have := ih h
      cases hd
      simp [sizePropsS]
      omega

/-- A schema in a property list is smaller than the list. -/
theorem size_mem_props_lt (ps : List (String × Schema)) (q : String × Schema)
    (h : q ∈ ps) : Schema.size q.2 < sizePropsS ps := by
  induction ps with
  | nil => cases h
  | cons hd tl ih =>
    rcases List.mem_cons.mp h with rfl | h2
    · cases q
      simp [sizePropsS]
      omega
    · have := ih h2
      cases hd
      simp [sizePropsS]
      omega

/-- A member of a value list is smaller than the list. -/
theorem sizeListJV_mem_lt (x : JValue) (xs : List JValue) (h : x ∈ xs) :
    JValue.size x < sizeListJV xs := by
  induction xs with
  | nil => cases h
  | cons a as ih =>
    rcases List.mem_cons.mp h with rfl | h2
    · simp [sizeListJV]
      omega
    · have := ih h2
      simp [sizeListJV]
      omega

/-- An array element is smaller than the array. -/
theorem size_arr_mem_lt (x : JValue) (xs : List JValue) (h : x ∈ xs) :
    JValue.size x < JValue.size (.arr xs) := by
  have := sizeListJV_mem_lt x xs h
  simp [JValue.size]
  omega

/-- A value found in an object is smaller than the object. -/
theorem size_jget_lt (kvs : JObj) (k : String) (w : JValue)
    (h : JObj.get kvs k = some w) : JValue.size w < JValue.size (.obj kvs) := by
  have hlt : JValue.size w < sizeObjJV kvs := by
    induction kvs with
    | nil => simp [JObj.get] at h
    | cons hd tl ih =>
      rw [JObj.get] at h
      by_cases hk : hd.1 = k
      · rw [if_pos hk] at h
        cases h
        cases hd
        simp [sizeObjJV]
        omega
      · rw [if_neg hk] at h
        have := ih h
        cases hd
        simp [sizeObjJV]
        omega
  simp [JValue.size]
  omega

/-- `pickFirstNonNull` returns the fallback variant or a scanned one. -/
theorem pickFirstNonNull_mem (d : Schema) (vs : List Schema) :
    pickFirstNonNull d vs = d ∨ pickFirstNonNull d vs ∈ vs := by
  induction vs with
  | nil => left; rfl
  | cons v rest ih =>
    rw [pickFirstNonNull]
    by_cases hv : v.typeF = SType.single "null"
    · rw [if_pos hv]
      rcases ih with h | h
      · left; exact h
      · right; exact List.mem_cons_of_mem _ h
    · rw [if_neg hv]
      right; exact List.mem_cons_self _ _

/-- The picked variant is no larger than the schema. -/
theorem size_pick_le (s : Schema) :
    Schema.size (_pick_schema_variant s) ≤ Schema.size s := by
  cases hone : s.oneOfF with
  | cons v vs =>
    have heq : _pick_schema_variant s = pickFirstNonNull v (v :: vs) := by
      rw [_pick_schema_variant, hone]
    rw [heq]
    have hlt := size_oneOf_lt s
    rw [hone] at hlt
    rcases pickFirstNonNull_mem v (v :: vs) with h | h
    · rw [h]
      have : Schema.size v < sizeListS (v :: vs) :=
        sizeListS_mem_lt v _ (List.mem_cons_self _ _)
      omega
    · have := sizeListS_mem_lt _ _ h
      omega
  | nil =>
    cases hany : s.anyOfF with
    | cons w ws =>
      have heq : _pick_schema_variant s = pickFirstNonNull w (w :: ws) := by
        rw [_pick_schema_variant, hone, hany]
      rw [heq]
      have hlt := size_anyOf_lt s
      rw [hany] at hlt
      rcases pickFirstNonNull_mem w (w :: ws) with h | h
      · rw [h]
        have : Schema.size w < sizeListS (w :: ws) :=
          sizeListS_mem_lt w _ (List.mem_cons_self _ _)
        omega
      · have := sizeListS_mem_lt _ _ h
        omega
    | nil =>
      have heq : _pick_schema_variant s = s := by
        rw [_pick_schema_variant, hone, hany]
      rw [heq]

/-- A schema with no combinator picks itself. -/
theorem pick_self (s : Schema) (h1 : s.oneOfF = []) (h2 : s.anyOfF = []) :
    _pick_schema_variant s = s := by
  rw [_pick_schema_variant, h1, h2]

/-- Congruence for `List.all` under a pointwise-equal predicate. -/
theorem listAll_congr {α : Type} (p q : α → Bool) (l : List α)
    (h : ∀ a ∈ l, p a = q a) : l.all p = l.all q := by
  induction l with
  | nil => rfl
  | cons a as ih =>
    simp only [List.all_cons]
    rw [h a (List.mem_cons_self _ _), ih (fun b hb => h b (List.mem_cons_of_mem _ hb))]

/-- Congruence for `List.countP` under a pointwise-equal predicate. -/
theorem listCountP_congr {α : Type} (p q : α → Bool) (l : List α)
    (h : ∀ a ∈ l, p a = q a) : l.countP p = l.countP q := by
  induction l with
  | nil => rfl
  | cons a as ih =>
    simp only [List.countP_cons]
    rw [h a (List.mem_cons_self _ _), ih (fun b hb => h b (List.mem_cons_of_mem _ hb))]

/-- Congruence for `List.foldl` under pointwise-equal step functions. -/
theorem listFoldl_congr {α β : Type} (f g : β → α → β) (l : List α) (b : β)
    (h : ∀ acc a, a ∈ l → f acc a = g acc a) : l.foldl f b = l.foldl g b := by
  induction l generalizing b with
  | nil => rfl
  | cons a as ih =>
    simp only [List.foldl_cons]
    rw [h b a (List.mem_cons_self _ _)]
    exact ih _ (fun acc x hx => h acc x (List.mem_cons_of_mem _ hx))

/-- `validateBody` is monotone in the recursive call on smaller inputs. -/
theorem validateBody_congr (g1 g2 : JValue → Schema → Bool) (v : JValue)
    (s : Schema)
    (h : ∀ x t, Schema.size t + JValue.size x < Schema.size s + JValue.size v →
      g1 x t = g2 x t) :
    validateBody g1 v s = validateBody g2 v s := by
  have hv := jvalue_size_pos v
  have h1 : (s.oneOfF.countP (fun w => g1 v w)) =
      (s.oneOfF.countP (fun w => g2 v w)) :=
    listCountP_congr _ _ _ (fun w hw => h v w
      (by have := size_mem_oneOf_lt w s hw; omega))
  have h2 : (s.anyOfF.countP (fun w => g1 v w)) =
      (s.anyOfF.countP (fun w => g2 v w)) :=
    listCountP_congr _ _ _ (fun w hw => h v w
      (by have := size_mem_anyOf_lt w s hw; omega))
  have h3 : itemsCheck g1 v s.itemsF = itemsCheck g2 v s.itemsF := by
    cases hit : s.itemsF with
    | none => cases v <;> rfl
    | some it =>
      cases v with
      | arr xs =>
        exact listAll_congr _ _ _ (fun x hx => h x it
          (by
            have ha := size_arr_mem_lt x xs hx
            have hb := size_items_lt s it hit
            omega))
      | null => rfl
      | bool b => rfl
      | num q => rfl
      | str t => rfl
      | obj kvs => rfl
  have h4 : propsCheck g1 v s.propertiesF = propsCheck g2 v s.propertiesF := by
    cases hps : s.propertiesF with
    | none => cases v <;> rfl
    | some ps =>
      cases v with
      | obj kvs =>
        refine listAll_congr _ _ _ (fun p hp => ?_)
        unfold propCheck
        cases hg : JObj.get kvs p.1 with
        | none => rfl
        | some w =>
          exact h w p.2
            (by
              have ha := size_jget_lt kvs p.1 w hg
              have hb := size_mem_props_lt ps p hp
              have hc := size_props_lt s ps hps
              omega)
      | null => rfl
      | bool b => rfl
      | num q => rfl
      | str t => rfl
      | arr xs => rfl
  unfold validateBody
  rw [h1, h2, h3, h4]

/-- Any fuel at least `Schema.size s + JValue.size v` computes
`validate_json`. -/
theorem validateFuel_sound (f : Nat) :
    ∀ v s, Schema.size s + JValue.size v ≤ f →
      validateFuel f v s = validate_json v s := by
  induction f using Nat.strong_induction_on with
  | _ f IH =>
    intro v s hf
    have hs := schema_size_pos s
    have hv := jvalue_size_pos v
    obtain ⟨f', rfl⟩ : ∃ f', f = f' + 1 := ⟨f - 1, by omega⟩
    obtain ⟨N', hN⟩ : ∃ N', Schema.size s + JValue.size v = N' + 1 :=
      ⟨Schema.size s + JValue.size v - 1, by omega⟩
    rw [validate_json, hN]
    simp only [validateFuel]
    apply validateBody_congr
    intro x t hxt
    have e1 : validateFuel f' x t = validate_json x t :=
      IH f' (by omega) x t (by omega)
    have e2 : validateFuel N' x t = validate_json x t :=
      IH N' (by omega) x t (by omega)
    rw [e1, e2]

/-- `validate_json` is a fixed point of the validator body: the
recursion equation used throughout. -/
theorem validate_json_eq (v : JValue) (s : Schema) :
    validate_json v s = validateBody validate_json v s := by
  have hs := schema_size_pos s
  have hv := jvalue_size_pos v
  obtain ⟨N', hN⟩ : ∃ N', Schema.size s + JValue.size v = N' + 1 :=
    ⟨Schema.size s + JValue.size v - 1, by omega⟩
  rw [validate_json, hN]
  simp only [validateFuel]
  apply validateBody_congr
  intro x t hxt
  exact validateFuel_sound N' x t (by omega)

/-- `schemaDefaultBody` is congruent in the recursive call on smaller
schemas. -/
theorem schemaDefaultBody_congr (g1 g2 : Schema → JValue) (p : Schema)
    (h : ∀ t, Schema.size t < Schema.size p → g1 t = g2 t) :
    schemaDefaultBody g1 p = schemaDefaultBody g2 p := by
  have harr : arrayDefault g1 p = arrayDefault g2 p := by
    unfold arrayDefault
    cases hit : p.itemsF with
    | none => rfl
    | some it =>
      dsimp only
      rw [h it (size_items_lt p it hit)]
  have hobj : ∀ b : Bool, objectDefault g1 b p = objectDefault g2 b p := by
    intro b
    unfold objectDefault
    cases hps : p.propertiesF with
    | none => rfl
    | some ps =>
      have hf := listFoldl_congr
        (fun (acc : JObj) k =>
          match findProp ps k with
          | some sub => acc.set k (g1 sub)
          | none => acc.set k (.str "unknown"))
        (fun (acc : JObj) k =>
          match findProp ps k with
          | some sub => acc.set k (g2 sub)
          | none => acc.set k (.str "unknown"))
        p.requiredF ([] : JObj)
        (by
          intro acc k hk
          dsimp only
          cases hfp : findProp ps k with
          | none => rfl
          | some sub =>
            have h1 := size_findProp_lt ps k sub hfp
            have h2 := size_props_lt p ps hps
            dsimp only
            rw [h sub (by omega)])
      dsimp only
      rw [hf]
  unfold schemaDefaultBody
  simp only [harr, hobj]

/-- Any fuel at least `Schema.size s` computes `_schema_default`. -/
theorem schemaDefaultFuel_sound (f : Nat) :
    ∀ s, Schema.size s ≤ f → schemaDefaultFuel f s = _schema_default s := by
  induction f using Nat.strong_induction_on with
  | _ f IH =>
    intro s hf
    have hs := schema_size_pos s
    obtain ⟨f', rfl⟩ : ∃ f', f = f' + 1 := ⟨f - 1, by omega⟩
    obtain ⟨N', hN⟩ : ∃ N', Schema.size s = N' + 1 := ⟨Schema.size s - 1, by omega⟩
    rw [_schema_default, hN]
    simp only [schemaDefaultFuel]
    apply schemaDefaultBody_congr
    intro t ht
    have hple := size_pick_le s
    rw [IH f' (by omega) t (by omega), IH N' (by omega) t (by omega)]

/-- `_schema_default` is a fixed point of pick-then-body: the recursion
equation used throughout. -/
theorem schema_default_eq (s : Schema) :
    _schema_default s =
      schemaDefaultBody _schema_default (_pick_schema_variant s) := by
  have hs := schema_size_pos s
  obtain ⟨N', hN⟩ : ∃ N', Schema.size s = N' + 1 := ⟨Schema.size s - 1, by omega⟩
  rw [_schema_default, hN]
  simp only [schemaDefaultFuel]
  apply schemaDefaultBody_congr
  intro t ht
  have hple := size_pick_le s
  exact schemaDefaultFuel_sound N' t (by omega)

/-- `wfBody` is congruent in the recursive call on smaller schemas. -/
theorem wfBody_congr (g1 g2 : Schema → Bool) (s : Schema)
    (h : ∀ t, Schema.size t < Schema.size s → g1 t = g2 t) :
    wfBody g1 s = wfBody g2 s := by
  have hitems : wfItems g1 s.itemsF = wfItems g2 s.itemsF := by
    unfold wfItems
    cases hit : s.itemsF with
    | none => rfl
    | some it => exact h it (size_items_lt s it hit)
  have hprops : wfProps g1 s.propertiesF = wfProps g2 s.propertiesF := by
    unfold wfProps
    cases hps : s.propertiesF with
    | none => rfl
    | some ps =>
      dsimp only
      rw [listAll_congr (fun p => g1 p.2) (fun p => g2 p.2) ps
        (fun p hp => h p.2
          (by
            have h1 := size_mem_props_lt ps p hp
            have h2 := size_props_lt s ps hps
            omega))]
  unfold wfBody
  cases hone : s.oneOfF with
  | cons v vs =>
    have hone_lt := size_oneOf_lt s
    rw [hone] at hone_lt
    have hv : wfVariants g1 (v :: vs) = wfVariants g2 (v :: vs) := by
      unfold wfVariants
      apply listAll_congr
      intro w hw
      have := sizeListS_mem_lt w _ hw
      rw [h w (by omega)]
    simp only [hv]
  | nil =>
    cases hany : s.anyOfF with
    | cons w ws =>
      have hany_lt := size_anyOf_lt s
      rw [hany] at hany_lt
      have hv : wfVariants g1 (w :: ws) = wfVariants g2 (w :: ws) := by
        unfold wfVariants
        apply listAll_congr
        intro u hu
        have := sizeListS_mem_lt u _ hu
        rw [h u (by omega)]
      simp only [hv]
    | nil => simp only [hitems, hprops]

/-- Any fuel at least `Schema.size s` computes `wfSchema`. -/
theorem wfFuel_sound (f : Nat) :
    ∀ s, Schema.size s ≤ f → wfFuel f s = wfSchema s := by
  induction f using Nat.strong_induction_on with
  | _ f IH =>
    intro s hf
    have hs := schema_size_pos s
    obtain ⟨f', rfl⟩ : ∃ f', f = f' + 1 := ⟨f - 1, by omega⟩
    obtain ⟨N', hN⟩ : ∃ N', Schema.size s = N' + 1 := ⟨Schema.size s - 1, by omega⟩
    rw [wfSchema, hN]
    simp only [wfFuel]
    apply wfBody_congr
    intro t ht
    rw [IH f' (by omega) t (by omega), IH N' (by omega) t (by omega)]

/-- `wfSchema` is a fixed point of the well-formedness body. -/
theorem wfSchema_eq (s : Schema) : wfSchema s = wfBody wfSchema s := by
  have hs := schema_size_pos s
  obtain ⟨N', hN⟩ : ∃ N', Schema.size s = N' + 1 := ⟨Schema.size s - 1, by omega⟩
  rw [wfSchema, hN]
  simp only [wfFuel]
  apply wfBody_congr
  intro t ht
  exact wfFuel_sound N' t (by omega)

/-- Members of a self-zip are diagonal. -/
theorem mem_zip_self {α : Type} (l : List α) (p : α × α)
    (hp : p ∈ List.zip l l) : p.1 = p.2 ∧ p.1 ∈ l := by
  induction l with
  | nil => cases hp
  | cons a as ih =>
    rw [List.zip_cons_cons] at hp
    rcases List.mem_cons.mp hp with rfl | h2
    · exact ⟨rfl, List.mem_cons_self _ _⟩
    · obtain ⟨h3, h4⟩ := ih h2
      exact ⟨h3, List.mem_cons_of_mem _ h4⟩

/-- A value stored in an object entry list is smaller than the list. -/
theorem sizeObjJV_mem_lt (q : String × JValue) (kvs : List (String × JValue))
    (h : q ∈ kvs) : JValue.size q.2 < sizeObjJV kvs := by
  induction kvs with
  | nil => cases h
  | cons hd tl ih =>
    rcases List.mem_cons.mp h with rfl | h2
    · cases q
      simp [sizeObjJV]
      omega
    · have := ih h2
      cases hd
      simp [sizeObjJV]
      omega

/-- Fueled value equality is reflexive at sufficient fuel. -/
theorem jvalEqFuel_refl (f : Nat) :
    ∀ v, JValue.size v ≤ f → jvalEqFuel f v v = true := by
  induction f using Nat.strong_induction_on with
  | _ f IH =>
    intro v hf
    have hv := jvalue_size_pos v
    obtain ⟨f', rfl⟩ : ∃ f', f = f' + 1 := ⟨f - 1, by omega⟩
    cases v with
    | null => rfl
    | bool b => simp [jvalEqFuel]
    | num q => simp [jvalEqFuel]
    | str t => simp [jvalEqFuel]
    | arr xs =>
      simp only [jvalEqFuel, Bool.and_eq_true, beq_self_eq_true, true_and,
        List.all_eq_true]
      intro p hp
      obtain ⟨hpe, hpm⟩ := mem_zip_self xs p hp
      have hsz := size_arr_mem_lt p.1 xs hpm
      rw [← hpe]
      exact IH f' (by omega) p.1 (by omega)
    | obj kvs =>
      simp only [jvalEqFuel, Bool.and_eq_true, beq_self_eq_true, true_and,
        List.all_eq_true]
      intro p hp
      obtain ⟨q, r⟩ := p
      obtain ⟨hpe, hpm⟩ := mem_zip_self kvs (q, r) hp
      simp only at hpe
      subst hpe
      obtain ⟨k1, w1⟩ := q
      have hsz := sizeObjJV_mem_lt (k1, w1) kvs hpm
      have hlink : JValue.size (.obj kvs) = 1 + sizeObjJV kvs := by
        simp [JValue.size]
      refine ⟨by simp, ?_⟩
      exact IH f' (by omega) w1 (by simp only at hsz; omega)

/-- Python value equality is reflexive. -/
theorem jvalEq_refl (v : JValue) : jvalEq v v = true :=
  jvalEqFuel_refl (JValue.size v) v le_rfl

/-- The numeric keyword checks ignore non-number values. -/
theorem numChecks_of_not_num (v : JValue) (s : Schema)
    (h : ∀ q, v ≠ JValue.num q) :
    checkMinimum v s = true ∧ checkMaximum v s = true ∧
    checkExclusiveMinimum v s = true ∧ checkExclusiveMaximum v s = true := by
  cases v with
  | num q => exact absurd rfl (h q)
  | null =>
    exact ⟨by cases s.minimumF <;> rfl, by cases s.maximumF <;> rfl,
      by cases s.exclusiveMinimumF <;> rfl, by cases s.exclusiveMaximumF <;> rfl⟩
  | bool b =>
    exact ⟨by cases s.minimumF <;> rfl, by cases s.maximumF <;> rfl,
      by cases s.exclusiveMinimumF <;> rfl, by cases s.exclusiveMaximumF <;> rfl⟩
  | str t =>
    exact ⟨by cases s.minimumF <;> rfl, by cases s.maximumF <;> rfl,
      by cases s.exclusiveMinimumF <;> rfl, by cases s.exclusiveMaximumF <;> rfl⟩
  | arr xs =>
    exact ⟨by cases s.minimumF <;> rfl, by cases s.maximumF <;> rfl,
      by cases s.exclusiveMinimumF <;> rfl, by cases s.exclusiveMaximumF <;> rfl⟩
  | obj kvs =>
    exact ⟨by cases s.minimumF <;> rfl, by cases s.maximumF <;> rfl,
      by cases s.exclusiveMinimumF <;> rfl, by cases s.exclusiveMaximumF <;> rfl⟩

/-- The length keyword checks ignore non-string values. -/
theorem lenChecks_of_not_str (v : JValue) (s : Schema)
    (h : ∀ t, v ≠ JValue.str t) :
    checkMinLength v s = true ∧ checkMaxLength v s = true := by
  cases v with
  | str t => exact absurd rfl (h t)
  | null => exact ⟨by cases s.minLengthF <;> rfl, by cases s.maxLengthF <;> rfl⟩
  | bool b => exact ⟨by cases s.minLengthF <;> rfl, by cases s.maxLengthF <;> rfl⟩
  | num q => exact ⟨by cases s.minLengthF <;> rfl, by cases s.maxLengthF <;> rfl⟩
  | arr xs => exact ⟨by cases s.minLengthF <;> rfl, by cases s.maxLengthF <;> rfl⟩
  | obj kvs => exact ⟨by cases s.minLengthF <;> rfl, by cases s.maxLengthF <;> rfl⟩

/-- `minItems` and `items` ignore non-array values. -/
theorem arrChecks_of_not_arr (go : JValue → Schema → Bool) (v : JValue)
    (s : Schema) (h : ∀ xs, v ≠ JValue.arr xs) :
    checkMinItems v s = true ∧ itemsCheck go v s.itemsF = true := by
  cases v with
  | arr xs => exact absurd rfl (h xs)
  | null =>
    exact ⟨by cases s.minItemsF <;> rfl, by unfold itemsCheck; cases s.itemsF <;> rfl⟩
  | bool b =>
    exact ⟨by cases s.minItemsF <;> rfl, by unfold itemsCheck; cases s.itemsF <;> rfl⟩
  | num q =>
    exact ⟨by cases s.minItemsF <;> rfl, by unfold itemsCheck; cases s.itemsF <;> rfl⟩
  | str t =>
    exact ⟨by cases s.minItemsF <;> rfl, by unfold itemsCheck; cases s.itemsF <;> rfl⟩
  | obj kvs =>
    exact ⟨by cases s.minItemsF <;> rfl, by unfold itemsCheck; cases s.itemsF <;> rfl⟩

/-- `properties` and `required` ignore non-object values. -/
theorem objChecks_of_not_obj (go : JValue → Schema → Bool) (v : JValue)
    (s : Schema) (h : ∀ kvs, v ≠ JValue.obj kvs) :
    propsCheck go v s.propertiesF = true ∧ checkRequired v s = true := by
  cases v with
  | obj kvs => exact absurd rfl (h kvs)
  | null =>
    exact ⟨by unfold propsCheck; cases s.propertiesF <;> rfl, rfl⟩
  | bool b =>
    exact ⟨by unfold propsCheck; cases s.propertiesF <;> rfl, rfl⟩
  | num q =>
    exact ⟨by unfold propsCheck; cases s.propertiesF <;> rfl, rfl⟩
  | str t =>
    exact ⟨by unfold propsCheck; cases s.propertiesF <;> rfl, rfl⟩
  | arr xs =>
    exact ⟨by unfold propsCheck; cases s.propertiesF <;> rfl, rfl⟩

/-- Keyword checks with the keyword absent are vacuous. -/
theorem checkConst_none (v : JValue) (s : Schema) (h : s.constF = none) :
    checkConst v s = true := by
  unfold checkConst
  rw [h]

/-- The `enum` check with the keyword absent is vacuous. -/
theorem checkEnum_none (v : JValue) (s : Schema) (h : s.enumF = none) :
    checkEnum v s = true := by
  unfold checkEnum
  rw [h]

/-- The `minimum` check with the keyword absent is vacuous. -/
theorem checkMinimum_none (v : JValue) (s : Schema) (h : s.minimumF = none) :
    checkMinimum v s = true := by
  unfold checkMinimum
  rw [h]
  cases v <;> rfl

/-- The `maximum` check with the keyword absent is vacuous. -/
theorem checkMaximum_none (v : JValue) (s : Schema) (h : s.maximumF = none) :
    checkMaximum v s = true := by
  unfold checkMaximum
  rw [h]
  cases v <;> rfl

/-- The `exclusiveMinimum` check with the keyword absent is vacuous. -/
theorem checkExclusiveMinimum_none (v : JValue) (s : Schema)
    (h : s.exclusiveMinimumF = none) : checkExclusiveMinimum v s = true := by
  unfold checkExclusiveMinimum
  rw [h]
  cases v <;> rfl

/-- The `exclusiveMaximum` check with the keyword absent is vacuous. -/
theorem checkExclusiveMaximum_none (v : JValue) (s : Schema)
    (h : s.exclusiveMaximumF = none) : checkExclusiveMaximum v s = true := by
  unfold checkExclusiveMaximum
  rw [h]
  cases v <;> rfl

/-- The `minLength` check with the keyword absent is vacuous. -/
theorem checkMinLength_none (v : JValue) (s : Schema) (h : s.minLengthF = none) :
    checkMinLength v s = true := by
  unfold checkMinLength
  rw [h]
  cases v <;> rfl

/-- The `maxLength` check with the keyword absent is vacuous. -/
theorem checkMaxLength_none (v : JValue) (s : Schema) (h : s.maxLengthF = none) :
    checkMaxLength v s = true := by
  unfold checkMaxLength
  rw [h]
  cases v <;> rfl

/-- The `minItems` check with the keyword absent is vacuous. -/
theorem checkMinItems_none (v : JValue) (s : Schema) (h : s.minItemsF = none) :
    checkMinItems v s = true := by
  unfold checkMinItems
  rw [h]
  cases v <;> rfl

/-- The `items` check with the keyword absent is vacuous. -/
theorem itemsCheck_none (go : JValue → Schema → Bool) (v : JValue) :
    itemsCheck go v none = true := by
  unfold itemsCheck
  cases v <;> rfl

/-- The `properties` check with the keyword absent is vacuous. -/
theorem propsCheck_none (go : JValue → Schema → Bool) (v : JValue) :
    propsCheck go v none = true := by
  unfold propsCheck
  cases v <;> rfl

/-- The `required` check with an empty list is vacuous. -/
theorem checkRequired_empty (v : JValue) (s : Schema) (h : s.requiredF = []) :
    checkRequired v s = true := by
  unfold checkRequired
  cases v <;> simp [h]

/-- `checkType` coincides with `typeOkTV` on the `type` keyword. -/
theorem checkType_eq_typeOk (v : JValue) (s : Schema) :
    checkType v s = typeOkTV v s.typeF := by
  unfold checkType typeOkTV
  cases s.typeF <;> rfl

/-- A value matching the resolved type name passes the `type` check. -/
theorem checkType_of_resolve (v : JValue) (s : Schema) (t : String)
    (hrt : resolveTypeKey s.typeF = some (some t))
    (hm : typeMatch v t = true) : checkType v s = true := by
  unfold checkType
  cases hst : s.typeF with
  | absent => rfl
  | single u =>
    rw [hst] at hrt
    unfold resolveTypeKey at hrt
    cases hrt
    exact hm
  | listOf ts =>
    rw [hst] at hrt
    unfold resolveTypeKey at hrt
    dsimp only at hrt
    dsimp only
    cases hfil : ts.filter (fun x => x ≠ "null") with
    | nil => rw [hfil] at hrt; cases hrt
    | cons t0 rest =>
      rw [hfil] at hrt
      cases hrt
      have ht0 : t ∈ ts := by
        have : t ∈ ts.filter (fun x => x ≠ "null") := by
          rw [hfil]; exact List.mem_cons_self _ _
        exact List.mem_of_mem_filter this
      rw [List.any_eq_true]
      exact ⟨t, ht0, hm⟩

/-- With the `type` keyword absent, the `type` check passes. -/
theorem checkType_of_absent (v : JValue) (s : Schema)
    (hrt : resolveTypeKey s.typeF = some none) : checkType v s = true := by
  unfold checkType
  cases hst : s.typeF with
  | absent => rfl
  | single u =>
    rw [hst] at hrt
    unfold resolveTypeKey at hrt
    cases hrt
  | listOf ts =>
    rw [hst] at hrt
    unfold resolveTypeKey at hrt
    dsimp only at hrt
    cases hfil : ts.filter (fun x => x ≠ "null") with
    | nil => rw [hfil] at hrt; cases hrt
    | cons t0 rest => rw [hfil] at hrt; cases hrt

/-- When the `type` list has no non-`"null"` entry but is non-empty,
`null` passes the `type` check. -/
theorem checkType_null_of_resolve_none (s : Schema)
    (hrt : resolveTypeKey s.typeF = none) (hne : s.typeF ≠ SType.listOf []) :
    checkType JValue.null s = true := by
  unfold checkType
  cases hst : s.typeF with
  | absent => rfl
  | single u =>
    rw [hst] at hrt
    unfold resolveTypeKey at hrt
    cases hrt
  | listOf ts =>
    rw [hst] at hrt
    unfold resolveTypeKey at hrt
    dsimp only at hrt
    dsimp only
    cases hfil : ts.filter (fun x => x ≠ "null") with
    | cons t0 rest => rw [hfil] at hrt; cases hrt
    | nil =>
      have hall : ∀ x ∈ ts, x = "null" := by
        intro x hx
        have := List.filter_eq_nil.mp hfil x hx
        simp at this
        exact this
      cases hts : ts with
      | nil => rw [hst, hts] at hne; exact absurd rfl hne
      | cons u us =>
        rw [List.any_eq_true]
        refine ⟨u, List.mem_cons_self _ _, ?_⟩
        have hu : u = "null" := hall u (by rw [hts]; exact List.mem_cons_self _ _)
        rw [hu]
        rfl

/-- A value matches at most one type name, except that an integral number
matches both `"integer"` and `"number"`. -/
theorem typeMatch_unique (x : JValue) (t u : String)
    (ht : typeMatch x t = true) (hu : typeMatch x u = true) :
    t = u ∨ (t = "integer" ∧ u = "number") ∨ (t = "number" ∧ u = "integer") := by
  cases x with
  | null =>
    unfold typeMatch at ht hu
    left
    rw [eq_of_beq ht, eq_of_beq hu]
  | bool b =>
    unfold typeMatch at ht hu
    left
    rw [eq_of_beq ht, eq_of_beq hu]
  | str a =>
    unfold typeMatch at ht hu
    left
    rw [eq_of_beq ht, eq_of_beq hu]
  | arr xs =>
    unfold typeMatch at ht hu
    left
    rw [eq_of_beq ht, eq_of_beq hu]
  | obj kvs =>
    unfold typeMatch at ht hu
    left
    rw [eq_of_beq ht, eq_of_beq hu]
  | num q =>
    unfold typeMatch at ht hu
    rw [Bool.or_eq_true, Bool.and_eq_true] at ht hu
    rcases ht with ht | ⟨ht, -⟩ <;> rcases hu with hu | ⟨hu, -⟩
    · left; rw [eq_of_beq ht, eq_of_beq hu]
    · right; right; exact ⟨eq_of_beq ht, eq_of_beq hu⟩
    · right; left; exact ⟨eq_of_beq ht, eq_of_beq hu⟩
    · left; rw [eq_of_beq ht, eq_of_beq hu]

/-- A failed `type` check falsifies the whole validation. -/
theorem validate_false_of_checkType (v : JValue) (s : Schema)
    (h : checkType v s = false) : validate_json v s = false := by
  rw [validate_json_eq]
  unfold validateBody
  simp [h]

/-- A successful validation passes the `type` check. -/
theorem checkType_of_validate (v : JValue) (s : Schema)
    (h : validate_json v s = true) : checkType v s = true := by
  rw [validate_json_eq] at h
  unfold validateBody at h
  simp only [Bool.and_eq_true] at h
  exact h.1.1.1.1.1.1.1.1.1.1.2

/-- Lookup after folding `set` over a key list: keys in the list map to
their computed value, others fall through. -/
theorem foldl_set_get (req : List String) (F : String → JValue) (acc : JObj)
    (k : String) :
    JObj.get (req.foldl (fun a x => a.set x (F x)) acc) k =
      if k ∈ req then some (F k) else JObj.get acc k := by
  induction req generalizing acc with
  | nil => simp
  | cons r rs ih =>
    rw [List.foldl_cons, ih]
    by_cases hk : k ∈ rs
    · rw [if_pos hk, if_pos (List.mem_cons_of_mem _ hk)]
    · rw [if_neg hk]
      by_cases hr : r = k
      · subst hr
        rw [jobj_get_set_self, if_pos (List.mem_cons_self _ _)]
      · rw [jobj_get_set_ne _ _ _ _ hr, if_neg (by
          intro hmem
          rcases List.mem_cons.mp hmem with h1 | h1
          · exact hr h1.symm
          · exact hk h1)]

/-- The object-default fold is a `set` fold over a per-key value
function. -/
theorem objectDefault_fold_eq (go : Schema → JValue)
    (ps : List (String × Schema)) (req : List String) :
    req.foldl
      (fun (acc : JObj) k =>
        match findProp ps k with
        | some sub => acc.set k (go sub)
        | none => acc.set k (.str "unknown")) [] =
    req.foldl
      (fun (a : JObj) x =>
        a.set x (match findProp ps x with
          | some sub => go sub
          | none => .str "unknown")) [] := by
  apply listFoldl_congr
  intro acc x hx
  cases hfp : findProp ps x <;> dsimp only <;> rw [hfp]

/-- With `Nodup` keys, a declared property is found by `findProp`. -/
theorem findProp_of_mem_nodup (ps : List (String × Schema)) (k : String)
    (sub : Schema) (hmem : (k, sub) ∈ ps)
    (hnd : (ps.map Prod.fst).Nodup) : findProp ps k = some sub := by
  induction ps with
  | nil => cases hmem
  | cons hd tl ih =>
    rw [List.map_cons, List.nodup_cons] at hnd
    rcases List.mem_cons.mp hmem with heq | h2
    · rw [← heq, findProp, if_pos rfl]
    · rw [findProp]
      have hne : hd.1 ≠ k := by
        intro he
        apply hnd.1
        rw [he]
        exact List.mem_map.mpr ⟨(k, sub), h2, rfl⟩
      rw [if_neg hne]
      exact ih h2 hnd.2

/-- `Rat.ceil` agrees with the `FloorRing` ceiling. -/
theorem rat_ceil_eq (q : ℚ) : q.ceil = ⌈q⌉ := by
  unfold Rat.ceil
  by_cases hden : q.den = 1
  · rw [if_pos hden]
    have hq : (q.num : ℚ) = q := (Rat.den_eq_one_iff q).mp hden
    symm
    rw [Int.ceil_eq_iff]
    constructor
    · conv_rhs => rw [← hq]
      push_cast
      norm_num
    · exact le_of_eq hq.symm
  · rw [if_neg hden]
    have hfl : q.num / (q.den : ℤ) = ⌊q⌋ := Rat.floor_def.symm
    rw [hfl]
    symm
    rw [Int.ceil_eq_iff]
    have h1 : (⌊q⌋ : ℚ) ≤ q := Int.floor_le q
    have h2 : (⌊q⌋ : ℚ) ≠ q := by
      intro he
      apply hden
      rw [← he]
      exact Rat.den_intCast _
    have h3 := Int.lt_floor_add_one q
    constructor
    · push_cast
      have := lt_of_le_of_ne h1 h2
      linarith
    · push_cast
      linarith

/-- `pyTrunc` on non-negatives is the floor. -/
theorem pyTrunc_eq_floor (q : ℚ) (h : 0 ≤ q) : pyTrunc q = ⌊q⌋ := by
  unfold pyTrunc
  rw [if_pos h]
  rfl

/-- `pyTrunc` on negatives is the ceiling. -/
theorem pyTrunc_eq_ceil (q : ℚ) (h : ¬0 ≤ q) : pyTrunc q = ⌈q⌉ := by
  unfold pyTrunc
  rw [if_neg h]
  exact rat_ceil_eq q

/-- Truncation never exceeds the argument by one. -/
theorem pyTrunc_lt_add_one (q : ℚ) : (pyTrunc q : ℚ) < q + 1 := by
  by_cases h : 0 ≤ q
  · rw [pyTrunc_eq_floor q h]
    have := Int.floor_le q
    push_cast
    linarith
  · rw [pyTrunc_eq_ceil q h]
    exact Int.ceil_lt_add_one q

/-- Truncation never falls short of the argument by one. -/
theorem sub_one_lt_pyTrunc (q : ℚ) : q - 1 < (pyTrunc q : ℚ) := by
  by_cases h : 0 ≤ q
  · rw [pyTrunc_eq_floor q h]
    exact Int.sub_one_lt_floor q
  · rw [pyTrunc_eq_ceil q h]
    have := Int.le_ceil q
    linarith

/-- Truncation of an integral rational is the identity. -/
theorem pyTrunc_den_one (q : ℚ) (h : q.den = 1) : ((pyTrunc q : ℤ) : ℚ) = q := by
  have hq : (q.num : ℚ) = q := (Rat.den_eq_one_iff q).mp h
  by_cases h0 : 0 ≤ q
  · rw [pyTrunc_eq_floor q h0, ← hq, Int.floor_intCast]
  · rw [pyTrunc_eq_ceil q h0, ← hq, Int.ceil_intCast]

/-- Truncation of an integer cast is that integer. -/
theorem pyTrunc_intCast (z : ℤ) : pyTrunc ((z : ℤ) : ℚ) = z := by
  have := pyTrunc_den_one ((z : ℤ) : ℚ) (Rat.den_intCast z)
  exact_mod_cast this

/-- On an `integer` leaf with consistent bounds, the synthesized numeric
default is exactly the starting value `intBase`, and it satisfies all
four numeric keyword checks. -/
theorem int_leaf_props (s : Schema) (henum : s.enumF = none)
    (hwf : wfIntB s = true) :
    _numeric_default s true = ((intBase s : ℤ) : ℚ) ∧
    checkMinimum (.num ((intBase s : ℤ) : ℚ)) s = true ∧
    checkMaximum (.num ((intBase s : ℤ) : ℚ)) s = true ∧
    checkExclusiveMinimum (.num ((intBase s : ℤ) : ℚ)) s = true ∧
    checkExclusiveMaximum (.num ((intBase s : ℤ) : ℚ)) s = true := by
  unfold wfIntB at hwf
  simp only [Bool.and_eq_true] at hwf
  obtain ⟨⟨⟨h1, h2⟩, h3⟩, h4⟩ := hwf
  have hmaxle : ∀ mx, s.maximumF = some mx → ((intBase s : ℤ) : ℚ) ≤ mx := by
    intro mx hmx
    rw [hmx] at h2
    exact of_decide_eq_true h2
  have hemaxlt : ∀ he, s.exclusiveMaximumF = some he →
      intBase s < pyTrunc he := by
    intro he hhe
    rw [hhe] at h3
    exact of_decide_eq_true h3
  have hemaxltq : ∀ he, s.exclusiveMaximumF = some he →
      ((intBase s : ℤ) : ℚ) < he := by
    intro he hhe
    have hz := hemaxlt he hhe
    have hc : ((intBase s : ℤ) : ℚ) + 1 ≤ ((pyTrunc he : ℤ) : ℚ) := by
      exact_mod_cast hz
    have ht := pyTrunc_lt_add_one he
    linarith
  have hval : _numeric_default s true = ((intBase s : ℤ) : ℚ) := by
    have hmaxgo : ∀ w : ℚ, ((w : ℚ) = ((intBase s : ℤ) : ℚ)) → ∀ mx,
        s.maximumF = some mx → ¬(mx < w) := by
      intro w hw mx hmx
      have := hmaxle mx hmx
      rw [← hw] at this
      exact not_lt.mpr this
    have hemaxgo : ∀ w : ℚ, ((w : ℚ) = ((intBase s : ℤ) : ℚ)) → ∀ he,
        s.exclusiveMaximumF = some he → ¬(((pyTrunc he : ℤ) : ℚ) ≤ w) := by
      intro w hw he hhe
      have h5 := hemaxlt he hhe
      have h6 : ((intBase s : ℤ) : ℚ) < ((pyTrunc he : ℤ) : ℚ) := by
        exact_mod_cast h5
      rw [← hw] at h6
      exact not_le.mpr h6
    unfold _numeric_default
    rw [henum]
    try dsimp only
    simp only [eq_self_iff_true, if_true]
    cases hmin : s.minimumF with
    | some m =>
      have hz : ((pyTrunc m : ℤ) : ℚ) = ((intBase s : ℤ) : ℚ) := by
        unfold intBase
        rw [hmin]
      simp only [Option.getD_some]
      try dsimp only
      cases hhe : s.exclusiveMaximumF with
      | none =>
        try dsimp only
        cases hmx : s.maximumF with
        | none =>
          try dsimp only
          rw [hz]
          exact congrArg _ (pyTrunc_intCast _)
        | some mx =>
          try dsimp only
          rw [if_neg (hmaxgo _ hz mx hmx), hz]
          exact congrArg _ (pyTrunc_intCast _)
      | some he =>
        try dsimp only
        cases hmx : s.maximumF with
        | none =>
          try dsimp only
          rw [if_neg (hemaxgo _ hz he hhe), hz]
          exact congrArg _ (pyTrunc_intCast _)
        | some mx =>
          try dsimp only
          rw [if_neg (hmaxgo _ hz mx hmx)]
          rw [if_neg (hemaxgo _ hz he hhe), hz]
          exact congrArg _ (pyTrunc_intCast _)
    | none =>
      try dsimp only
      cases hemin : s.exclusiveMinimumF with
      | some e =>
        have hz : ((pyTrunc (e + 1) : ℤ) : ℚ) = ((intBase s : ℤ) : ℚ) := by
          unfold intBase
          rw [hmin, hemin]
        simp only [Option.getD_some, eq_self_iff_true, if_true]
        try dsimp only
        cases hhe : s.exclusiveMaximumF with
        | none =>
          try dsimp only
          cases hmx : s.maximumF with
          | none =>
            try dsimp only
            rw [hz]
            exact congrArg _ (pyTrunc_intCast _)
          | some mx =>
            try dsimp only
            rw [if_neg (hmaxgo _ hz mx hmx), hz]
            exact congrArg _ (pyTrunc_intCast _)
        | some he =>
          try dsimp only
          cases hmx : s.maximumF with
          | none =>
            try dsimp only
            rw [if_neg (hemaxgo _ hz he hhe), hz]
            exact congrArg _ (pyTrunc_intCast _)
          | some mx =>
            try dsimp only
            rw [if_neg (hmaxgo _ hz mx hmx)]
            rw [if_neg (hemaxgo _ hz he hhe), hz]
            exact congrArg _ (pyTrunc_intCast _)
      | none =>
        have hz : ((pyTrunc 0 : ℤ) : ℚ) = ((intBase s : ℤ) : ℚ) := by
          unfold intBase
          rw [hmin, hemin]
          norm_num [pyTrunc_eq_floor]
        simp only [Option.getD_none]
        try dsimp only
        cases hhe : s.exclusiveMaximumF with
        | none =>
          try dsimp only
          cases hmx : s.maximumF with
          | none =>
            try dsimp only
            rw [hz]
            exact congrArg _ (pyTrunc_intCast _)
          | some mx =>
            try dsimp only
            rw [if_neg (hmaxgo _ hz mx hmx), hz]
            exact congrArg _ (pyTrunc_intCast _)
        | some he =>
          try dsimp only
          cases hmx : s.maximumF with
          | none =>
            try dsimp only
            rw [if_neg (hemaxgo _ hz he hhe), hz]
            exact congrArg _ (pyTrunc_intCast _)
          | some mx =>
            try dsimp only
            rw [if_neg (hmaxgo _ hz mx hmx)]
            rw [if_neg (hemaxgo _ hz he hhe), hz]
            exact congrArg _ (pyTrunc_intCast _)
  refine ⟨hval, ?_, ?_, ?_, ?_⟩
  · unfold checkMinimum
    cases hmin : s.minimumF with
    | none => rfl
    | some m =>
      rw [hmin] at h1
      have hden := of_decide_eq_true h1
      have : ((intBase s : ℤ) : ℚ) = m := by
        unfold intBase
        rw [hmin]
        exact pyTrunc_den_one m hden
      rw [this]
      simp
  · unfold checkMaximum
    cases hmx : s.maximumF with
    | none => rfl
    | some mx =>
      simp only [decide_eq_true_eq]
      exact hmaxle mx hmx
  · unfold checkExclusiveMinimum
    cases hemin : s.exclusiveMinimumF with
    | none => rfl
    | some e =>
      simp only [decide_eq_true_eq]
      cases hmin : s.minimumF with
      | some m =>
        rw [hmin, hemin] at h4
        rw [hmin] at h1
        have hden := of_decide_eq_true h1
        have hlt := of_decide_eq_true h4
        have : ((intBase s : ℤ) : ℚ) = m := by
          unfold intBase
          rw [hmin]
          exact pyTrunc_den_one m hden
        rw [this]
        exact hlt
      | none =>
        have : intBase s = pyTrunc (e + 1) := by
          unfold intBase
          rw [hmin, hemin]
        rw [this]
        have := sub_one_lt_pyTrunc (e + 1)
        linarith
  · unfold checkExclusiveMaximum
    cases hhe : s.exclusiveMaximumF with
    | none => rfl
    | some he =>
      simp only [decide_eq_true_eq]
      exact hemaxltq he hhe

/-- On a `number` leaf with consistent bounds, the synthesized numeric
default is exactly the starting value `numBase`, and it satisfies all
four numeric keyword checks. -/
theorem num_leaf_props (s : Schema) (henum : s.enumF = none)
    (hwf : wfNumB s = true) :
    _numeric_default s false = numBase s ∧
    checkMinimum (.num (numBase s)) s = true ∧
    checkMaximum (.num (numBase s)) s = true ∧
    checkExclusiveMinimum (.num (numBase s)) s = true ∧
    checkExclusiveMaximum (.num (numBase s)) s = true := by
  unfold wfNumB at hwf
  simp only [Bool.and_eq_true] at hwf
  obtain ⟨⟨h1, h2⟩, h3⟩ := hwf
  have hmaxle : ∀ mx, s.maximumF = some mx → numBase s ≤ mx := by
    intro mx hmx
    rw [hmx] at h1
    exact of_decide_eq_true h1
  have hemaxlt : ∀ he, s.exclusiveMaximumF = some he → numBase s < he := by
    intro he hhe
    rw [hhe] at h2
    exact of_decide_eq_true h2
  have hval : _numeric_default s false = numBase s := by
    have hmaxgo : ∀ w : ℚ, w = numBase s → ∀ mx,
        s.maximumF = some mx → ¬(mx < w) := by
      intro w hw mx hmx
      rw [hw]
      exact not_lt.mpr (hmaxle mx hmx)
    have hemaxgo : ∀ w : ℚ, w = numBase s → ∀ he,
        s.exclusiveMaximumF = some he → ¬(he ≤ w) := by
      intro w hw he hhe
      rw [hw]
      exact not_le.mpr (hemaxlt he hhe)
    unfold _numeric_default
    rw [henum]
    try dsimp only
    simp only [Bool.false_eq_true, if_false]
    cases hmin : s.minimumF with
    | some m =>
      have hz : m = numBase s := by
        unfold numBase
        rw [hmin]
      simp only [Option.getD_some]
      try dsimp only
      cases hhe : s.exclusiveMaximumF with
      | none =>
        try dsimp only
        cases hmx : s.maximumF with
        | none => exact hz
        | some mx =>
          try dsimp only
          rw [if_neg (hmaxgo _ hz mx hmx)]
          exact hz
      | some he =>
        try dsimp only
        cases hmx : s.maximumF with
        | none =>
          try dsimp only
          rw [if_neg (hemaxgo _ hz he hhe)]
          exact hz
        | some mx =>
          try dsimp only
          rw [if_neg (hmaxgo _ hz mx hmx)]
          rw [if_neg (hemaxgo _ hz he hhe)]
          exact hz
    | none =>
      try dsimp only
      cases hemin : s.exclusiveMinimumF with
      | some e =>
        have hz : e + 1 / 1000000 = numBase s := by
          unfold numBase
          rw [hmin, hemin]
        simp only [Option.getD_some, Bool.false_eq_true, if_false]
        try dsimp only
        cases hhe : s.exclusiveMaximumF with
        | none =>
          try dsimp only
          cases hmx : s.maximumF with
          | none => exact hz
          | some mx =>
            try dsimp only
            rw [if_neg (hmaxgo _ hz mx hmx)]
            exact hz
        | some he =>
          try dsimp only
          cases hmx : s.maximumF with
          | none =>
            try dsimp only
            rw [if_neg (hemaxgo _ hz he hhe)]
            exact hz
          | some mx =>
            try dsimp only
            rw [if_neg (hmaxgo _ hz mx hmx)]
            rw [if_neg (hemaxgo _ hz he hhe)]
            exact hz
      | none =>
        have hz : (0 : ℚ) = numBase s := by
          unfold numBase
          rw [hmin, hemin]
        simp only [Option.getD_none]
        try dsimp only
        cases hhe : s.exclusiveMaximumF with
        | none =>
          try dsimp only
          cases hmx : s.maximumF with
          | none => exact hz
          | some mx =>
            try dsimp only
            rw [if_neg (hmaxgo _ hz mx hmx)]
            exact hz
        | some he =>
          try dsimp only
          cases hmx : s.maximumF with
          | none =>
            try dsimp only
            rw [if_neg (hemaxgo _ hz he hhe)]
            exact hz
          | some mx =>
            try dsimp only
            rw [if_neg (hmaxgo _ hz mx hmx)]
            rw [if_neg (hemaxgo _ hz he hhe)]
            exact hz
  refine ⟨hval, ?_, ?_, ?_, ?_⟩
  · unfold checkMinimum
    cases hmin : s.minimumF with
    | none => rfl
    | some m =>
      simp only [decide_eq_true_eq]
      have : m = numBase s := by
        unfold numBase
        rw [hmin]
      rw [this]
  · unfold checkMaximum
    cases hmx : s.maximumF with
    | none => rfl
    | some mx =>
      simp only [decide_eq_true_eq]
      exact hmaxle mx hmx
  · unfold checkExclusiveMinimum
    cases hemin : s.exclusiveMinimumF with
    | none => rfl
    | some e =>
      simp only [decide_eq_true_eq]
      cases hmin : s.minimumF with
      | some m =>
        rw [hmin, hemin] at h3
        have hlt := of_decide_eq_true h3
        have : m = numBase s := by
          unfold numBase
          rw [hmin]
        rw [← this]
        exact hlt
      | none =>
        have : e + 1 / 1000000 = numBase s := by
          unfold numBase
          rw [hmin, hemin]
        rw [← this]
        norm_num
  · unfold checkExclusiveMaximum
    cases hhe : s.exclusiveMaximumF with
    | none => rfl
    | some he =>
      simp only [decide_eq_true_eq]
      exact hemaxlt he hhe

/-- Length of a flattened replicate. -/
theorem length_flatten_replicate {α : Type} (n : ℕ) (l : List α) :
    (List.flatten (List.replicate n l)).length = n * l.length := by
  induction n with
  | zero => simp
  | succ k ih =>
    rw [List.replicate_succ, List.flatten_cons, List.length_append, ih,
      Nat.succ_mul]
    omega

/-- On a `string` leaf with consistent length bounds, the synthesized
string default satisfies both length checks. -/
theorem str_leaf_props (s : Schema) (hconst : s.constF = none)
    (henum : s.enumF = none) (hwf : wfStrB s = true) :
    checkMinLength (.str (_string_default s)) s = true ∧
    checkMaxLength (.str (_string_default s)) s = true := by
  unfold wfStrB at hwf
  simp only [Bool.and_eq_true] at hwf
  obtain ⟨h1, h2⟩ := hwf
  have hbounds :
      (∀ a, s.minLengthF = some a → a ≤ ((_string_default s).length : ℤ)) ∧
      (∀ b, s.maxLengthF = some b → ((_string_default s).length : ℤ) ≤ b) := by
    have hlen : _string_default s = String.mk
        (let min_len : ℤ := (s.minLengthF).getD 0
         let max_len : ℤ := (s.maxLengthF).getD 0
         let base := "unknown".toList
         let base :=
           if 0 < min_len then
             let reps := (min_len.toNat + base.length - 1) / base.length
             (List.flatten (List.replicate reps base)).take
               (max min_len.toNat base.length)
           else base
         if 0 < max_len then base.take max_len.toNat else base) := by
      unfold _string_default
      rw [henum, hconst]
    rw [hlen]
    have h7 : ("unknown".toList).length = 7 := by decide
    cases hminl : s.minLengthF with
    | none =>
      cases hmaxl : s.maxLengthF with
      | none =>
        constructor
        · intro a ha
          simp at ha
        · intro b hb
          simp at hb
      | some b =>
        rw [hmaxl] at h2
        have hb1 : (1 : ℤ) ≤ b := of_decide_eq_true h2
        constructor
        · intro a ha
          simp at ha
        · intro b' hb'
          cases hb'
          simp only [Option.getD_none, Option.getD_some]
          try dsimp only
          rw [if_pos (show (0 : ℤ) < b by omega), if_neg (by omega)]
          simp only [String.length, List.length_take, h7]
          omega
    | some a =>
      cases hmaxl : s.maxLengthF with
      | none =>
        constructor
        · intro a' ha'
          cases ha'
          simp only [Option.getD_none, Option.getD_some]
          try dsimp only
          rw [if_neg (by omega)]
          by_cases hpos : (0 : ℤ) < a
          · rw [if_pos hpos]
            simp only [String.length, List.length_take,
              length_flatten_replicate, h7]
            omega
          · rw [if_neg hpos]
            simp only [String.length, h7]
            omega
        · intro b hb
          simp at hb
      | some b =>
        rw [hminl, hmaxl] at h1
        rw [hmaxl] at h2
        have hab : a ≤ b := of_decide_eq_true h1
        have hb1 : (1 : ℤ) ≤ b := of_decide_eq_true h2
        constructor
        · intro a' ha'
          cases ha'
          simp only [Option.getD_some]
          try dsimp only
          rw [if_pos (by omega)]
          by_cases hpos : (0 : ℤ) < a
          · rw [if_pos hpos]
            simp only [String.length, List.length_take,
              length_flatten_replicate, h7]
            omega
          · rw [if_neg hpos]
            simp only [String.length, List.length_take, h7]
            omega
        · intro b' hb'
          cases hb'
          simp only [Option.getD_some]
          try dsimp only
          rw [if_pos (by omega)]
          by_cases hpos : (0 : ℤ) < a
          · rw [if_pos hpos]
            simp only [String.length, List.length_take,
              length_flatten_replicate, h7]
            omega
          · rw [if_neg hpos]
            simp only [String.length, List.length_take, h7]
            omega
  constructor
  · unfold checkMinLength
    cases hminl : s.minLengthF with
    | none => rfl
    | some a =>
      simp only [decide_eq_true_eq]
      exact hbounds.1 a hminl
  · unfold checkMaxLength
    cases hmaxl : s.maxLengthF with
    | none => rfl
    | some b =>
      simp only [decide_eq_true_eq]
      exact hbounds.2 b hmaxl

/-- The object built from `required` keys passes the `properties` and
`required` checks (given distinct declared keys, well-formed sub-schemas
and the induction hypothesis for them). -/
theorem built_checks (s : Schema) (ps : List (String × Schema))
    (hps : s.propertiesF = some ps) (hnd : (ps.map Prod.fst).Nodup)
    (hall : ∀ p ∈ ps, wfSchema p.2 = true)
    (IH : ∀ t, Schema.size t < Schema.size s → wfSchema t = true →
      validate_json (_schema_default t) t = true) :
    propsCheck validate_json
      (JValue.obj (s.requiredF.foldl
        (fun (acc : JObj) k =>
          match findProp ps k with
          | some sub => acc.set k (_schema_default sub)
          | none => acc.set k (.str "unknown")) [])) s.propertiesF = true ∧
    checkRequired
      (JValue.obj (s.requiredF.foldl
        (fun (acc : JObj) k =>
          match findProp ps k with
          | some sub => acc.set k (_schema_default sub)
          | none => acc.set k (.str "unknown")) [])) s = true := by
  have hget : ∀ k, JObj.get (s.requiredF.foldl
      (fun (acc : JObj) k =>
        match findProp ps k with
        | some sub => acc.set k (_schema_default sub)
        | none => acc.set k (.str "unknown")) []) k =
      if k ∈ s.requiredF then
        some (match findProp ps k with
          | some sub => _schema_default sub
          | none => .str "unknown")
      else none := by
    intro k
    rw [objectDefault_fold_eq]
    rw [foldl_set_get s.requiredF
      (fun x => match findProp ps x with
        | some sub => _schema_default sub
        | none => .str "unknown") [] k]
    rfl
  constructor
  · unfold propsCheck
    rw [hps]
    dsimp only
    rw [List.all_eq_true]
    intro p hp
    unfold propCheck
    rw [hget p.1]
    by_cases hk : p.1 ∈ s.requiredF
    · rw [if_pos hk]
      have hfp : findProp ps p.1 = some p.2 := by
        apply findProp_of_mem_nodup ps p.1 p.2 _ hnd
        cases p
        exact hp
      rw [hfp]
      dsimp only
      apply IH p.2 _ (hall p hp)
      have h1 := size_mem_props_lt ps p hp
      have h2 := size_props_lt s ps hps
      omega
    · rw [if_neg hk]
  · unfold checkRequired
    rw [List.all_eq_true]
    intro k hk
    rw [hget k, if_pos hk]
    rfl

/-- The all-`"unknown"` object built without declared properties contains
every `required` key. -/
theorem unknown_fold_required (s : Schema) :
    checkRequired
      (JValue.obj (s.requiredF.foldl
        (fun (acc : JObj) k => acc.set k (.str "unknown")) [])) s = true := by
  unfold checkRequired
  rw [List.all_eq_true]
  intro k hk
  rw [foldl_set_get s.requiredF (fun _ => JValue.str "unknown") [] k,
    if_pos hk]
  rfl

/-- On a combinator-free well-formed schema, the synthesized default
validates (the leaf case of the fallback-validity induction; `IH` covers
the strictly smaller sub-schemas reached through `items` and
`properties`). -/
theorem wf_leaf_valid (s : Schema) (hone : s.oneOfF = [])
    (hany : s.anyOfF = []) (hwf : wfSchema s = true)
    (IH : ∀ t, Schema.size t < Schema.size s → wfSchema t = true →
      validate_json (_schema_default t) t = true) :
    validate_json (_schema_default s) s = true := by
  have hpick : _pick_schema_variant s = s := pick_self s hone hany
  have hwfb : wfBody wfSchema s = true := by
    rw [← wfSchema_eq]
    exact hwf
  have hd : _schema_default s = schemaDefaultBody _schema_default s := by
    rw [schema_default_eq, hpick]
  unfold wfBody at hwfb
  cases hdef : s.defaultF with
  | some d0 =>
    rw [hdef] at hwfb
    simp at hwfb
  | none =>
    rw [hdef, hone, hany] at hwfb
    simp only [Option.isSome_none, Bool.false_eq_true, if_false] at hwfb
    try dsimp only at hwfb
    rw [validate_json_eq, hd]
    unfold validateBody
    rw [hone, hany]
    simp only [List.isEmpty_nil, if_true]
    cases hconst : s.constF with
    | some c =>
      rw [hconst] at hwfb
      try dsimp only at hwfb
      simp only [Bool.and_eq_true] at hwfb
      obtain ⟨⟨⟨⟨⟨⟨⟨⟨⟨⟨⟨he, hty⟩, hml⟩, hml2⟩, hm⟩, hm2⟩, hem⟩, hem2⟩,
        hmi⟩, hit⟩, hp⟩, hr⟩ := hwfb
      have he' : s.enumF = none := Option.isNone_iff_eq_none.mp he
      have hml' : s.minLengthF = none := Option.isNone_iff_eq_none.mp hml
      have hml2' : s.maxLengthF = none := Option.isNone_iff_eq_none.mp hml2
      have hm' : s.minimumF = none := Option.isNone_iff_eq_none.mp hm
      have hm2' : s.maximumF = none := Option.isNone_iff_eq_none.mp hm2
      have hem' : s.exclusiveMinimumF = none := Option.isNone_iff_eq_none.mp hem
      have hem2' : s.exclusiveMaximumF = none := Option.isNone_iff_eq_none.mp hem2
      have hmi' : s.minItemsF = none := Option.isNone_iff_eq_none.mp hmi
      have hit' : s.itemsF = none := Option.isNone_iff_eq_none.mp hit
      have hp' : s.propertiesF = none := Option.isNone_iff_eq_none.mp hp
      have hr' : s.requiredF = [] := List.isEmpty_iff.mp hr
      have hdc : schemaDefaultBody _schema_default s = c := by
        unfold schemaDefaultBody
        rw [hdef, hconst]
      rw [hdc]
      have c3 : checkConst c s = true := by
        unfold checkConst
        rw [hconst]
        exact jvalEq_refl c
      have c4 := checkEnum_none c s he'
      have c5 : checkType c s = true := by
        rw [checkType_eq_typeOk]
        exact hty
      have c6 := checkMinimum_none c s hm'
      have c7 := checkMaximum_none c s hm2'
      have c8 := checkExclusiveMinimum_none c s hem'
      have c9 := checkExclusiveMaximum_none c s hem2'
      have c10 := checkMinLength_none c s hml'
      have c11 := checkMaxLength_none c s hml2'
      have c12 := checkMinItems_none c s hmi'
      have c13 : itemsCheck validate_json c s.itemsF = true := by
        rw [hit']
        exact itemsCheck_none _ _
      have c14 : propsCheck validate_json c s.propertiesF = true := by
        rw [hp']
        exact propsCheck_none _ _
      have c15 := checkRequired_empty c s hr'
      simp [c3, c4, c5, c6, c7, c8, c9, c10, c11, c12, c13, c14, c15,
        propsCheck_none, itemsCheck_none]
    | none =>
      rw [hconst] at hwfb
      try dsimp only at hwfb
      cases henum : s.enumF with
      | some l =>
        cases l with
        | nil =>
          rw [henum] at hwfb
          simp at hwfb
        | cons e es =>
          rw [henum] at hwfb
          try dsimp only at hwfb
          simp only [Bool.and_eq_true] at hwfb
          obtain ⟨⟨⟨⟨⟨⟨⟨⟨⟨⟨hty, hml⟩, hml2⟩, hm⟩, hm2⟩, hem⟩, hem2⟩,
            hmi⟩, hit⟩, hp⟩, hr⟩ := hwfb
          have hml' : s.minLengthF = none := Option.isNone_iff_eq_none.mp hml
          have hml2' : s.maxLengthF = none := Option.isNone_iff_eq_none.mp hml2
          have hm' : s.minimumF = none := Option.isNone_iff_eq_none.mp hm
          have hm2' : s.maximumF = none := Option.isNone_iff_eq_none.mp hm2
          have hem' : s.exclusiveMinimumF = none :=
            Option.isNone_iff_eq_none.mp hem
          have hem2' : s.exclusiveMaximumF = none :=
            Option.isNone_iff_eq_none.mp hem2
          have hmi' : s.minItemsF = none := Option.isNone_iff_eq_none.mp hmi
          have hit' : s.itemsF = none := Option.isNone_iff_eq_none.mp hit
          have hp' : s.propertiesF = none := Option.isNone_iff_eq_none.mp hp
          have hr' : s.requiredF = [] := List.isEmpty_iff.mp hr
          have hdc : schemaDefaultBody _schema_default s = e := by
            unfold schemaDefaultBody
            rw [hdef, hconst, henum]
          rw [hdc]
          have c3 := checkConst_none e s hconst
          have c4 : checkEnum e s = true := by
            unfold checkEnum
            rw [henum]
            dsimp only
            rw [List.any_eq_true]
            exact ⟨e, List.mem_cons_self _ _, jvalEq_refl e⟩
          have c5 : checkType e s = true := by
            rw [checkType_eq_typeOk]
            exact hty
          have c6 := checkMinimum_none e s hm'
          have c7 := checkMaximum_none e s hm2'
          have c8 := checkExclusiveMinimum_none e s hem'
          have c9 := checkExclusiveMaximum_none e s hem2'
          have c10 := checkMinLength_none e s hml'
          have c11 := checkMaxLength_none e s hml2'
          have c12 := checkMinItems_none e s hmi'
          have c13 : itemsCheck validate_json e s.itemsF = true := by
            rw [hit']
            exact itemsCheck_none _ _
          have c14 : propsCheck validate_json e s.propertiesF = true := by
            rw [hp']
            exact propsCheck_none _ _
          have c15 := checkRequired_empty e s hr'
          simp [c3, c4, c5, c6, c7, c8, c9, c10, c11, c12, c13, c14, c15,
        propsCheck_none, itemsCheck_none]
      | none =>
        rw [henum] at hwfb
        try dsimp only at hwfb
        cases hrt : resolveTypeKey s.typeF with
        | none =>
          rw [hrt] at hwfb
          try dsimp only at hwfb
          have hne : s.typeF ≠ SType.listOf [] := of_decide_eq_true hwfb
          have hdc : schemaDefaultBody _schema_default s = .null := by
            unfold schemaDefaultBody
            rw [hdef, hconst, henum, hrt]
          rw [hdc]
          have c3 := checkConst_none .null s hconst
          have c4 := checkEnum_none .null s henum
          have c5 := checkType_null_of_resolve_none s hrt hne
          obtain ⟨c6, c7, c8, c9⟩ := numChecks_of_not_num .null s
            (fun q h => by cases h)
          obtain ⟨c10, c11⟩ := lenChecks_of_not_str .null s
            (fun t h => by cases h)
          obtain ⟨c12, c13⟩ := arrChecks_of_not_arr validate_json .null s
            (fun xs h => by cases h)
          obtain ⟨c14, c15⟩ := objChecks_of_not_obj validate_json .null s
            (fun kvs h => by cases h)
          simp [c3, c4, c5, c6, c7, c8, c9, c10, c11, c12, c13, c14, c15,
        propsCheck_none, itemsCheck_none]
        | some tv =>
          rw [hrt] at hwfb
          try dsimp only at hwfb
          cases tv with
          | none =>
            have hdc : schemaDefaultBody _schema_default s =
                objectDefault _schema_default false s := by
              unfold schemaDefaultBody
              rw [hdef, hconst, henum, hrt]
            rw [hdc]
            cases hps : s.propertiesF with
            | none =>
              have hdc2 : objectDefault _schema_default false s = .null := by
                unfold objectDefault
                rw [hps]
                rfl
              rw [hdc2]
              have c3 := checkConst_none .null s hconst
              have c4 := checkEnum_none .null s henum
              have c5 := checkType_of_absent .null s hrt
              obtain ⟨c6, c7, c8, c9⟩ := numChecks_of_not_num .null s
                (fun q h => by cases h)
              obtain ⟨c10, c11⟩ := lenChecks_of_not_str .null s
                (fun t h => by cases h)
              obtain ⟨c12, c13⟩ := arrChecks_of_not_arr validate_json .null s
                (fun xs h => by cases h)
              obtain ⟨c14, c15⟩ := objChecks_of_not_obj validate_json .null s
                (fun kvs h => by cases h)
              simp [c3, c4, c5, c6, c7, c8, c9, c10, c11, c12, c13, c14, c15,
        propsCheck_none, itemsCheck_none]
            | some ps =>
              unfold wfProps at hwfb
              rw [hps] at hwfb
              try dsimp only at hwfb
              simp only [Bool.and_eq_true] at hwfb
              obtain ⟨hnd0, hall0⟩ := hwfb
              have hnd := of_decide_eq_true hnd0
              have hall : ∀ p ∈ ps, wfSchema p.2 = true :=
                List.all_eq_true.mp hall0
              have hdc2 : objectDefault _schema_default false s =
                  JValue.obj (s.requiredF.foldl
                    (fun (acc : JObj) k =>
                      match findProp ps k with
                      | some sub => acc.set k (_schema_default sub)
                      | none => acc.set k (.str "unknown")) []) := by
                unfold objectDefault
                rw [hps]
              rw [hdc2]
              obtain ⟨c14, c15⟩ := built_checks s ps hps hnd hall IH
              rw [hps] at c14
              have c3 := checkConst_none
                (JValue.obj (s.requiredF.foldl
                  (fun (acc : JObj) k =>
                    match findProp ps k with
                    | some sub => acc.set k (_schema_default sub)
                    | none => acc.set k (.str "unknown")) [])) s hconst
              have c4 := checkEnum_none
                (JValue.obj (s.requiredF.foldl
                  (fun (acc : JObj) k =>
                    match findProp ps k with
                    | some sub => acc.set k (_schema_default sub)
                    | none => acc.set k (.str "unknown")) [])) s henum
              have c5 := checkType_of_absent
                (JValue.obj (s.requiredF.foldl
                  (fun (acc : JObj) k =>
                    match findProp ps k with
                    | some sub => acc.set k (_schema_default sub)
                    | none => acc.set k (.str "unknown")) [])) s hrt
              obtain ⟨c6, c7, c8, c9⟩ := numChecks_of_not_num
                (JValue.obj (s.requiredF.foldl
                  (fun (acc : JObj) k =>
                    match findProp ps k with
                    | some sub => acc.set k (_schema_default sub)
                    | none => acc.set k (.str "unknown")) [])) s
                (fun q h => by cases h)
              obtain ⟨c10, c11⟩ := lenChecks_of_not_str
                (JValue.obj (s.requiredF.foldl
                  (fun (acc : JObj) k =>
                    match findProp ps k with
                    | some sub => acc.set k (_schema_default sub)
                    | none => acc.set k (.str "unknown")) [])) s
                (fun t h => by cases h)
              obtain ⟨c12, c13⟩ := arrChecks_of_not_arr validate_json
                (JValue.obj (s.requiredF.foldl
                  (fun (acc : JObj) k =>
                    match findProp ps k with
                    | some sub => acc.set k (_schema_default sub)
                    | none => acc.set k (.str "unknown")) [])) s
                (fun xs h => by cases h)
              simp [c3, c4, c5, c6, c7, c8, c9, c10, c11, c12, c13, c14, c15,
        propsCheck_none, itemsCheck_none]
          | some t =>
            by_cases ht0 : t = "null"
            · subst ht0
              have hdc : schemaDefaultBody _schema_default s = .null := by
                unfold schemaDefaultBody
                rw [hdef, hconst, henum, hrt]
                rfl
              rw [hdc]
              have c3 := checkConst_none .null s hconst
              have c4 := checkEnum_none .null s henum
              have c5 := checkType_of_resolve .null s "null" hrt rfl
              obtain ⟨c6, c7, c8, c9⟩ := numChecks_of_not_num .null s
                (fun q h => by cases h)
              obtain ⟨c10, c11⟩ := lenChecks_of_not_str .null s
                (fun t h => by cases h)
              obtain ⟨c12, c13⟩ := arrChecks_of_not_arr validate_json .null s
                (fun xs h => by cases h)
              obtain ⟨c14, c15⟩ := objChecks_of_not_obj validate_json .null s
                (fun kvs h => by cases h)
              simp [c3, c4, c5, c6, c7, c8, c9, c10, c11, c12, c13, c14, c15,
        propsCheck_none, itemsCheck_none]
            · by_cases ht1 : t = "boolean"
              · subst ht1
                have hdc : schemaDefaultBody _schema_default s =
                    .bool false := by
                  unfold schemaDefaultBody
                  rw [hdef, hconst, henum, hrt]
                  rfl
                rw [hdc]
                have c3 := checkConst_none (.bool false) s hconst
                have c4 := checkEnum_none (.bool false) s henum
                have c5 := checkType_of_resolve (.bool false) s "boolean" hrt rfl
                obtain ⟨c6, c7, c8, c9⟩ := numChecks_of_not_num (.bool false) s
                  (fun q h => by cases h)
                obtain ⟨c10, c11⟩ := lenChecks_of_not_str (.bool false) s
                  (fun t h => by cases h)
                obtain ⟨c12, c13⟩ := arrChecks_of_not_arr validate_json
                  (.bool false) s (fun xs h => by cases h)
                obtain ⟨c14, c15⟩ := objChecks_of_not_obj validate_json
                  (.bool false) s (fun kvs h => by cases h)
                simp [c3, c4, c5, c6, c7, c8, c9, c10, c11, c12, c13, c14, c15,
        propsCheck_none, itemsCheck_none]
              · by_cases ht2 : t = "integer"
                · subst ht2
                  try dsimp only at hwfb
                  rw [if_neg ht0, if_neg ht1, if_pos rfl] at hwfb
                  obtain ⟨hval, c6, c7, c8, c9⟩ := int_leaf_props s henum hwfb
                  have hdc : schemaDefaultBody _schema_default s =
                      .num ((intBase s : ℤ) : ℚ) := by
                    unfold schemaDefaultBody
                    rw [hdef, hconst, henum, hrt]
                    try dsimp only
                    rw [if_neg ht0, if_neg ht1, if_pos rfl, hval]
                    try rfl
                  rw [hdc]
                  have c3 := checkConst_none (.num ((intBase s : ℤ) : ℚ)) s
                    hconst
                  have c4 := checkEnum_none (.num ((intBase s : ℤ) : ℚ)) s henum
                  have c5 : checkType (.num ((intBase s : ℤ) : ℚ)) s = true := by
                    apply checkType_of_resolve _ s "integer" hrt
                    unfold typeMatch
                    simp [Rat.den_intCast]
                  obtain ⟨c10, c11⟩ := lenChecks_of_not_str
                    (.num ((intBase s : ℤ) : ℚ)) s (fun t h => by cases h)
                  obtain ⟨c12, c13⟩ := arrChecks_of_not_arr validate_json
                    (.num ((intBase s : ℤ) : ℚ)) s (fun xs h => by cases h)
                  obtain ⟨c14, c15⟩ := objChecks_of_not_obj validate_json
                    (.num ((intBase s : ℤ) : ℚ)) s (fun kvs h => by cases h)
                  simp [c3, c4, c5, c6, c7, c8, c9, c10, c11, c12, c13, c14, c15,
        propsCheck_none, itemsCheck_none]
                · by_cases ht3 : t = "number"
                  · subst ht3
                    try dsimp only at hwfb
                    rw [if_neg ht0, if_neg ht1, if_neg ht2, if_pos rfl] at hwfb
                    obtain ⟨hval, c6, c7, c8, c9⟩ := num_leaf_props s henum hwfb
                    have hdc : schemaDefaultBody _schema_default s =
                        .num (numBase s) := by
                      unfold schemaDefaultBody
                      rw [hdef, hconst, henum, hrt]
                      try dsimp only
                      rw [if_neg ht0, if_neg ht1, if_neg ht2, if_pos rfl, hval]
                      try rfl
                    rw [hdc]
                    have c3 := checkConst_none (.num (numBase s)) s hconst
                    have c4 := checkEnum_none (.num (numBase s)) s henum
                    have c5 : checkType (.num (numBase s)) s = true := by
                      apply checkType_of_resolve _ s "number" hrt
                      unfold typeMatch
                      simp
                    obtain ⟨c10, c11⟩ := lenChecks_of_not_str
                      (.num (numBase s)) s (fun t h => by cases h)
                    obtain ⟨c12, c13⟩ := arrChecks_of_not_arr validate_json
                      (.num (numBase s)) s (fun xs h => by cases h)
                    obtain ⟨c14, c15⟩ := objChecks_of_not_obj validate_json
                      (.num (numBase s)) s (fun kvs h => by cases h)
                    simp [c3, c4, c5, c6, c7, c8, c9, c10, c11, c12, c13, c14,
                      c15, propsCheck_none, itemsCheck_none]
                  · by_cases ht4 : t = "string"
                    · subst ht4
                      try dsimp only at hwfb
                      rw [if_neg ht0, if_neg ht1, if_neg ht2, if_neg ht3,
                        if_pos rfl] at hwfb
                      obtain ⟨c10, c11⟩ := str_leaf_props s hconst henum hwfb
                      have hdc : schemaDefaultBody _schema_default s =
                          .str (_string_default s) := by
                        unfold schemaDefaultBody
                        rw [hdef, hconst, henum, hrt]
                        rfl
                      rw [hdc]
                      have c3 := checkConst_none (.str (_string_default s)) s
                        hconst
                      have c4 := checkEnum_none (.str (_string_default s)) s
                        henum
                      have c5 := checkType_of_resolve
                        (.str (_string_default s)) s "string" hrt rfl
                      obtain ⟨c6, c7, c8, c9⟩ := numChecks_of_not_num
                        (.str (_string_default s)) s (fun q h => by cases h)
                      obtain ⟨c12, c13⟩ := arrChecks_of_not_arr validate_json
                        (.str (_string_default s)) s (fun xs h => by cases h)
                      obtain ⟨c14, c15⟩ := objChecks_of_not_obj validate_json
                        (.str (_string_default s)) s (fun kvs h => by cases h)
                      simp [c3, c4, c5, c6, c7, c8, c9, c10, c11, c12, c13, c14,
                        c15]
                    · by_cases ht5 : t = "array"
                      · subst ht5
                        try dsimp only at hwfb
                        rw [if_neg ht0, if_neg ht1, if_neg ht2, if_neg ht3,
                          if_neg ht4, if_pos rfl] at hwfb
                        have hdc : schemaDefaultBody _schema_default s =
                            arrayDefault _schema_default s := by
                          unfold schemaDefaultBody
                          rw [hdef, hconst, henum, hrt]
                          rfl
                        rw [hdc]
                        have hminit : ∀ (l : List JValue),
                            l.length = (max 0 ((s.minItemsF).getD 0)).toNat →
                            checkMinItems (.arr l) s = true := by
                          intro l hl
                          unfold checkMinItems
                          cases hmi : s.minItemsF with
                          | none => rfl
                          | some m =>
                            simp only [decide_eq_true_eq]
                            rw [hl, hmi]
                            simp only [Option.getD_some]
                            omega
                        cases hit : s.itemsF with
                        | some it =>
                          unfold wfItems at hwfb
                          rw [hit] at hwfb
                          have hdc2 : arrayDefault _schema_default s =
                              .arr (List.replicate
                                (max 0 ((s.minItemsF).getD 0)).toNat
                                (_schema_default it)) := by
                            unfold arrayDefault
                            rw [hit]
                          rw [hdc2]
                          have c3 := checkConst_none
                            (.arr (List.replicate
                              (max 0 ((s.minItemsF).getD 0)).toNat
                              (_schema_default it))) s hconst
                          have c4 := checkEnum_none
                            (.arr (List.replicate
                              (max 0 ((s.minItemsF).getD 0)).toNat
                              (_schema_default it))) s henum
                          have c5 := checkType_of_resolve
                            (.arr (List.replicate
                              (max 0 ((s.minItemsF).getD 0)).toNat
                              (_schema_default it))) s "array" hrt rfl
                          obtain ⟨c6, c7, c8, c9⟩ := numChecks_of_not_num
                            (.arr (List.replicate
                              (max 0 ((s.minItemsF).getD 0)).toNat
                              (_schema_default it))) s (fun q h => by cases h)
                          obtain ⟨c10, c11⟩ := lenChecks_of_not_str
                            (.arr (List.replicate
                              (max 0 ((s.minItemsF).getD 0)).toNat
                              (_schema_default it))) s (fun t h => by cases h)
                          have c12 := hminit
                            (List.replicate
                              (max 0 ((s.minItemsF).getD 0)).toNat
                              (_schema_default it))
                            (List.length_replicate _ _)
                          have c13 : itemsCheck validate_json
                              (.arr (List.replicate
                                (max 0 ((s.minItemsF).getD 0)).toNat
                                (_schema_default it))) (some it) = true := by
                            unfold itemsCheck
                            dsimp only
                            rw [List.all_eq_true]
                            intro x hx
                            rw [List.eq_of_mem_replicate hx]
                            exact IH it (size_items_lt s it hit) hwfb
                          obtain ⟨c14, c15⟩ := objChecks_of_not_obj
                            validate_json
                            (.arr (List.replicate
                              (max 0 ((s.minItemsF).getD 0)).toNat
                              (_schema_default it))) s (fun kvs h => by cases h)
                          simp [c3, c4, c5, c6, c7, c8, c9, c10, c11, c12, c13,
                            c14, c15, propsCheck_none, itemsCheck_none]
                        | none =>
                          have hdc2 : arrayDefault _schema_default s =
                              .arr (List.replicate
                                (max 0 ((s.minItemsF).getD 0)).toNat
                                JValue.null) := by
                            unfold arrayDefault
                            rw [hit]
                          rw [hdc2]
                          have c3 := checkConst_none
                            (.arr (List.replicate
                              (max 0 ((s.minItemsF).getD 0)).toNat
                              JValue.null)) s hconst
                          have c4 := checkEnum_none
                            (.arr (List.replicate
                              (max 0 ((s.minItemsF).getD 0)).toNat
                              JValue.null)) s henum
                          have c5 := checkType_of_resolve
                            (.arr (List.replicate
                              (max 0 ((s.minItemsF).getD 0)).toNat
                              JValue.null)) s "array" hrt rfl
                          obtain ⟨c6, c7, c8, c9⟩ := numChecks_of_not_num
                            (.arr (List.replicate
                              (max 0 ((s.minItemsF).getD 0)).toNat
                              JValue.null)) s (fun q h => by cases h)
                          obtain ⟨c10, c11⟩ := lenChecks_of_not_str
                            (.arr (List.replicate
                              (max 0 ((s.minItemsF).getD 0)).toNat
                              JValue.null)) s (fun t h => by cases h)
                          have c12 := hminit
                            (List.replicate
                              (max 0 ((s.minItemsF).getD 0)).toNat
                              JValue.null)
                            (List.length_replicate _ _)
                          have c13 : itemsCheck validate_json
                              (.arr (List.replicate
                                (max 0 ((s.minItemsF).getD 0)).toNat
                                JValue.null)) (none : Option Schema) = true :=
                            itemsCheck_none _ _
                          obtain ⟨c14, c15⟩ := objChecks_of_not_obj
                            validate_json
                            (.arr (List.replicate
                              (max 0 ((s.minItemsF).getD 0)).toNat
                              JValue.null)) s (fun kvs h => by cases h)
                          simp [c3, c4, c5, c6, c7, c8, c9, c10, c11, c12, c13,
                            c14, c15, propsCheck_none, itemsCheck_none]
                      · by_cases ht6 : t = "object"
                        · subst ht6
                          try dsimp only at hwfb
                          rw [if_neg ht0, if_neg ht1, if_neg ht2, if_neg ht3,
                            if_neg ht4, if_neg ht5, if_pos rfl] at hwfb
                          have hdc : schemaDefaultBody _schema_default s =
                              objectDefault _schema_default
                                (decide ("object" = "object")) s := by
                            unfold schemaDefaultBody
                            rw [hdef, hconst, henum, hrt]
                            try dsimp only
                            rw [if_neg ht0, if_neg ht1, if_neg ht2, if_neg ht3,
                              if_neg ht4, if_neg ht5]
                            try rfl
                          rw [hdc]
                          cases hps : s.propertiesF with
                          | some ps =>
                            unfold wfProps at hwfb
                            rw [hps] at hwfb
                            try dsimp only at hwfb
                            simp only [Bool.and_eq_true] at hwfb
                            obtain ⟨hnd0, hall0⟩ := hwfb
                            have hnd := of_decide_eq_true hnd0
                            have hall : ∀ p ∈ ps, wfSchema p.2 = true :=
                              List.all_eq_true.mp hall0
                            have hdc2 : objectDefault _schema_default
                                (decide ("object" = "object")) s =
                                JValue.obj (s.requiredF.foldl
                                  (fun (acc : JObj) k =>
                                    match findProp ps k with
                                    | some sub => acc.set k (_schema_default sub)
                                    | none => acc.set k (.str "unknown")) []) := by
                              unfold objectDefault
                              rw [hps]
                            rw [hdc2]
                            obtain ⟨c14, c15⟩ := built_checks s ps hps hnd hall IH
                            rw [hps] at c14
                            have c3 := checkConst_none
                              (JValue.obj (s.requiredF.foldl
                                (fun (acc : JObj) k =>
                                  match findProp ps k with
                                  | some sub => acc.set k (_schema_default sub)
                                  | none => acc.set k (.str "unknown")) []))
                              s hconst
                            have c4 := checkEnum_none
                              (JValue.obj (s.requiredF.foldl
                                (fun (acc : JObj) k =>
                                  match findProp ps k with
                                  | some sub => acc.set k (_schema_default sub)
                                  | none => acc.set k (.str "unknown")) []))
                              s henum
                            have c5 := checkType_of_resolve
                              (JValue.obj (s.requiredF.foldl
                                (fun (acc : JObj) k =>
                                  match findProp ps k with
                                  | some sub => acc.set k (_schema_default sub)
                                  | none => acc.set k (.str "unknown")) []))
                              s "object" hrt rfl
                            obtain ⟨c6, c7, c8, c9⟩ := numChecks_of_not_num
                              (JValue.obj (s.requiredF.foldl
                                (fun (acc : JObj) k =>
                                  match findProp ps k with
                                  | some sub => acc.set k (_schema_default sub)
                                  | none => acc.set k (.str "unknown")) []))
                              s (fun q h => by cases h)
                            obtain ⟨c10, c11⟩ := lenChecks_of_not_str
                              (JValue.obj (s.requiredF.foldl
                                (fun (acc : JObj) k =>
                                  match findProp ps k with
                                  | some sub => acc.set k (_schema_default sub)
                                  | none => acc.set k (.str "unknown")) []))
                              s (fun t h => by cases h)
                            obtain ⟨c12, c13⟩ := arrChecks_of_not_arr
                              validate_json
                              (JValue.obj (s.requiredF.foldl
                                (fun (acc : JObj) k =>
                                  match findProp ps k with
                                  | some sub => acc.set k (_schema_default sub)
                                  | none => acc.set k (.str "unknown")) []))
                              s (fun xs h => by cases h)
                            simp [c3, c4, c5, c6, c7, c8, c9, c10, c11, c12,
                              c13, c14, c15, propsCheck_none, itemsCheck_none]
                          | none =>
                            have hdc2 : objectDefault _schema_default
                                (decide ("object" = "object")) s =
                                JValue.obj (s.requiredF.foldl
                                  (fun (acc : JObj) k =>
                                    acc.set k (.str "unknown")) []) := by
                              unfold objectDefault
                              rw [hps]
                              rfl
                            rw [hdc2]
                            have c14 : propsCheck validate_json
                                (JValue.obj (s.requiredF.foldl
                                  (fun (acc : JObj) k =>
                                    acc.set k (.str "unknown")) []))
                                s.propertiesF = true := by
                              rw [hps]
                              exact propsCheck_none _ _
                            have c15 := unknown_fold_required s
                            have c3 := checkConst_none
                              (JValue.obj (s.requiredF.foldl
                                (fun (acc : JObj) k =>
                                  acc.set k (.str "unknown")) [])) s hconst
                            have c4 := checkEnum_none
                              (JValue.obj (s.requiredF.foldl
                                (fun (acc : JObj) k =>
                                  acc.set k (.str "unknown")) [])) s henum
                            have c5 := checkType_of_resolve
                              (JValue.obj (s.requiredF.foldl
                                (fun (acc : JObj) k =>
                                  acc.set k (.str "unknown")) [])) s
                              "object" hrt rfl
                            obtain ⟨c6, c7, c8, c9⟩ := numChecks_of_not_num
                              (JValue.obj (s.requiredF.foldl
                                (fun (acc : JObj) k =>
                                  acc.set k (.str "unknown")) [])) s
                              (fun q h => by cases h)
                            obtain ⟨c10, c11⟩ := lenChecks_of_not_str
                              (JValue.obj (s.requiredF.foldl
                                (fun (acc : JObj) k =>
                                  acc.set k (.str "unknown")) [])) s
                              (fun t h => by cases h)
                            obtain ⟨c12, c13⟩ := arrChecks_of_not_arr
                              validate_json
                              (JValue.obj (s.requiredF.foldl
                                (fun (acc : JObj) k =>
                                  acc.set k (.str "unknown")) [])) s
                              (fun xs h => by cases h)
                            simp [c3, c4, c5, c6, c7, c8, c9, c10, c11, c12,
                              c13, c14, c15, propsCheck_none, itemsCheck_none]
                        · try dsimp only at hwfb
                          rw [if_neg ht0, if_neg ht1, if_neg ht2, if_neg ht3,
                            if_neg ht4, if_neg ht5, if_neg ht6] at hwfb
                          cases hwfb

/-- A list with one marked element and the predicate false elsewhere has
`countP` one. -/
theorem countP_eq_one_split {α : Type} (q : α → Bool) (l1 l2 : List α)
    (a : α) (ha : q a = true) (h1 : ∀ x ∈ l1, q x = false)
    (h2 : ∀ x ∈ l2, q x = false) : (l1 ++ a :: l2).countP q = 1 := by
  rw [List.countP_append, List.countP_cons]
  have e1 : l1.countP q = 0 :=
    List.countP_eq_zero.mpr (fun x hx => by rw [h1 x hx]; simp)
  have e2 : l2.countP q = 0 :=
    List.countP_eq_zero.mpr (fun x hx => by rw [h2 x hx]; simp)
  rw [e1, e2, if_pos ha]

/-- A member satisfying the predicate makes `countP` positive. -/
theorem countP_ne_zero_of_mem {α : Type} (q : α → Bool) (l : List α) (a : α)
    (hmem : a ∈ l) (ha : q a = true) : l.countP q ≠ 0 := by
  have : 0 < l.countP q := List.countP_pos.mpr ⟨a, hmem, ha⟩
  omega

/-- The middle element of a `Nodup` split occurs on neither side. -/
theorem nodup_middle_not_mem {α : Type} (l1 l2 : List α) (a : α)
    (h : (l1 ++ a :: l2).Nodup) : a ∉ l1 ∧ a ∉ l2 := by
  rw [List.nodup_middle, List.nodup_cons] at h
  constructor
  · intro hmem
    exact h.1 (List.mem_append.mpr (Or.inl hmem))
  · intro hmem
    exact h.1 (List.mem_append.mpr (Or.inr hmem))

/-- Unpacking `singleTypedDistinctB`: every variant is single-typed, the
type names are distinct, and `integer`/`number` do not coexist. -/
theorem distinct_unpack (l : List Schema) (h : singleTypedDistinctB l = true) :
    (∀ x ∈ l, x.typeF = SType.single (varType x)) ∧
    (l.map varType).Nodup ∧
    ¬("integer" ∈ l.map varType ∧ "number" ∈ l.map varType) := by
  unfold singleTypedDistinctB at h
  simp only [Bool.and_eq_true, Bool.not_eq_true', Bool.and_eq_false_iff,
    decide_eq_true_eq, decide_eq_false_iff_not, List.all_eq_true] at h
  obtain ⟨⟨hall, hnd⟩, hex⟩ := h
  refine ⟨?_, hnd, ?_⟩
  · intro x hx
    have := hall x hx
    cases hxt : x.typeF with
    | single t =>
      unfold varType
      rw [hxt]
    | absent =>
      rw [hxt] at this
      cases this
    | listOf ts =>
      rw [hxt] at this
      cases this
  · intro ⟨hi, hn⟩
    rcases hex with h | h
    · exact h hi
    · exact h hn

/-- Unpacking `combinatorBareB`: every non-combinator keyword is absent. -/
theorem combinatorBare_fields (s : Schema) (h : combinatorBareB s = true) :
    s.constF = none ∧ s.enumF = none ∧ s.typeF = SType.absent ∧
    s.minLengthF = none ∧ s.maxLengthF = none ∧ s.minimumF = none ∧
    s.maximumF = none ∧ s.exclusiveMinimumF = none ∧
    s.exclusiveMaximumF = none ∧ s.minItemsF = none ∧ s.itemsF = none ∧
    s.propertiesF = none ∧ s.requiredF = [] := by
  unfold combinatorBareB at h
  simp only [Bool.and_eq_true] at h
  obtain ⟨⟨⟨⟨⟨⟨⟨⟨⟨⟨⟨⟨hc, he⟩, ht⟩, hml⟩, hml2⟩, hm⟩, hm2⟩, hem⟩, hem2⟩,
    hmi⟩, hit⟩, hp⟩, hr⟩ := h
  refine ⟨Option.isNone_iff_eq_none.mp hc, Option.isNone_iff_eq_none.mp he,
    ?_, Option.isNone_iff_eq_none.mp hml, Option.isNone_iff_eq_none.mp hml2,
    Option.isNone_iff_eq_none.mp hm, Option.isNone_iff_eq_none.mp hm2,
    Option.isNone_iff_eq_none.mp hem, Option.isNone_iff_eq_none.mp hem2,
    Option.isNone_iff_eq_none.mp hmi, Option.isNone_iff_eq_none.mp hit,
    Option.isNone_iff_eq_none.mp hp, List.isEmpty_iff.mp hr⟩
  cases hx : s.typeF with
  | absent => rfl
  | single t =>
    rw [hx] at ht
    cases ht
  | listOf ts =>
    rw [hx] at ht
    cases ht

/-- With the `type` keyword absent, the `type` check passes outright. -/
theorem checkType_absent (v : JValue) (s : Schema)
    (h : s.typeF = SType.absent) : checkType v s = true := by
  unfold checkType
  rw [h]

/-- Fallback validity, by strong induction on schema size: a well-formed
schema's synthesized default validates against the schema itself. -/
theorem wf_default_valid_aux (n : Nat) :
    ∀ s, Schema.size s ≤ n → wfSchema s = true →
      validate_json (_schema_default s) s = true := by
  induction n using Nat.strong_induction_on with
  | _ n IHn =>
    intro s hsn hwf
    have IH : ∀ t, Schema.size t < Schema.size s → wfSchema t = true →
        validate_json (_schema_default t) t = true := by
      intro t ht hw
      exact IHn (Schema.size t) (by omega) t le_rfl hw
    have hwfb : wfBody wfSchema s = true := by
      rw [← wfSchema_eq]
      exact hwf
    unfold wfBody at hwfb
    cases hone : s.oneOfF with
    | nil =>
      cases hany : s.anyOfF with
      | nil => exact wf_leaf_valid s hone hany hwf IH
      | cons w ws =>
        cases hdef : s.defaultF with
        | some d0 =>
          rw [hdef] at hwfb
          simp at hwfb
        | none =>
          rw [hdef, hone, hany] at hwfb
          simp only [Option.isSome_none, Bool.false_eq_true, if_false] at hwfb
          try dsimp only at hwfb
          simp only [Bool.and_eq_true] at hwfb
          obtain ⟨hbare, hvars⟩ := hwfb
          obtain ⟨hc', he', ht', hml', hml2', hm', hm2', hem', hem2', hmi',
            hit', hp', hr'⟩ := combinatorBare_fields s hbare
          have hpicklem : _pick_schema_variant s =
              pickFirstNonNull w (w :: ws) := by
            rw [_pick_schema_variant, hone, hany]
          have hpmem : pickFirstNonNull w (w :: ws) ∈ w :: ws := by
            rcases pickFirstNonNull_mem w (w :: ws) with h | h
            · rw [h]
              exact List.mem_cons_self _ _
            · exact h
          unfold wfVariants at hvars
          rw [List.all_eq_true] at hvars
          have hpv := hvars _ hpmem
          simp only [Bool.and_eq_true] at hpv
          obtain ⟨⟨hp1, hp2⟩, hpwf⟩ := hpv
          have hp1' : (pickFirstNonNull w (w :: ws)).oneOfF = [] :=
            List.isEmpty_iff.mp hp1
          have hp2' : (pickFirstNonNull w (w :: ws)).anyOfF = [] :=
            List.isEmpty_iff.mp hp2
          have hdp : _schema_default s =
              _schema_default (pickFirstNonNull w (w :: ws)) := by
            rw [schema_default_eq s, hpicklem,
              schema_default_eq (pickFirstNonNull w (w :: ws)),
              pick_self _ hp1' hp2']
          have hsizep : Schema.size (pickFirstNonNull w (w :: ws)) <
              Schema.size s := by
            apply size_mem_anyOf_lt
            rw [hany]
            exact hpmem
          have hvp := IH _ hsizep hpwf
          rw [validate_json_eq, hdp]
          unfold validateBody
          rw [hone, hany]
          simp only [List.isEmpty_nil, if_true, List.isEmpty_cons,
            Bool.false_eq_true, if_false]
          have c2 : ((w :: ws).countP
              (fun u => validate_json
                (_schema_default (pickFirstNonNull w (w :: ws))) u) != 0) =
              true := by
            rw [bne_iff_ne]
            exact countP_ne_zero_of_mem _ _ _ hpmem hvp
          have c3 := checkConst_none
            (_schema_default (pickFirstNonNull w (w :: ws))) s hc'
          have c4 := checkEnum_none
            (_schema_default (pickFirstNonNull w (w :: ws))) s he'
          have c5 := checkType_absent
            (_schema_default (pickFirstNonNull w (w :: ws))) s ht'
          have c6 := checkMinimum_none
            (_schema_default (pickFirstNonNull w (w :: ws))) s hm'
          have c7 := checkMaximum_none
            (_schema_default (pickFirstNonNull w (w :: ws))) s hm2'
          have c8 := checkExclusiveMinimum_none
            (_schema_default (pickFirstNonNull w (w :: ws))) s hem'
          have c9 := checkExclusiveMaximum_none
            (_schema_default (pickFirstNonNull w (w :: ws))) s hem2'
          have c10 := checkMinLength_none
            (_schema_default (pickFirstNonNull w (w :: ws))) s hml'
          have c11 := checkMaxLength_none
            (_schema_default (pickFirstNonNull w (w :: ws))) s hml2'
          have c12 := checkMinItems_none
            (_schema_default (pickFirstNonNull w (w :: ws))) s hmi'
          have c13 : itemsCheck validate_json
              (_schema_default (pickFirstNonNull w (w :: ws))) s.itemsF =
              true := by
            rw [hit']
            exact itemsCheck_none _ _
          have c14 : propsCheck validate_json
              (_schema_default (pickFirstNonNull w (w :: ws)))
              s.propertiesF = true := by
            rw [hp']
            exact propsCheck_none _ _
          have c15 := checkRequired_empty
            (_schema_default (pickFirstNonNull w (w :: ws))) s hr'
          simp [c2, c3, c4, c5, c6, c7, c8, c9, c10, c11, c12, c13, c14, c15,
            propsCheck_none, itemsCheck_none]
    | cons v vs =>
      cases hdef : s.defaultF with
      | some d0 =>
        rw [hdef] at hwfb
        simp at hwfb
      | none =>
        rw [hdef, hone] at hwfb
        simp only [Option.isSome_none, Bool.false_eq_true, if_false] at hwfb
        try dsimp only at hwfb
        simp only [Bool.and_eq_true] at hwfb
        obtain ⟨⟨⟨hanye, hbare⟩, hvars⟩, hdist⟩ := hwfb
        have hany : s.anyOfF = [] := List.isEmpty_iff.mp hanye
        obtain ⟨hc', he', ht', hml', hml2', hm', hm2', hem', hem2', hmi',
          hit', hp', hr'⟩ := combinatorBare_fields s hbare
        obtain ⟨hsingle, hnd, hexcl⟩ := distinct_unpack (v :: vs) hdist
        have hpicklem : _pick_schema_variant s =
            pickFirstNonNull v (v :: vs) := by
          rw [_pick_schema_variant, hone]
        set p := pickFirstNonNull v (v :: vs) with hpdef
        have hpmem : p ∈ v :: vs := by
          rw [hpdef]
          rcases pickFirstNonNull_mem v (v :: vs) with h | h
          · rw [h]
            exact List.mem_cons_self _ _
          · exact h
        unfold wfVariants at hvars
        rw [List.all_eq_true] at hvars
        have hpv := hvars _ hpmem
        simp only [Bool.and_eq_true] at hpv
        obtain ⟨⟨hp1, hp2⟩, hpwf⟩ := hpv
        have hp1' : (p).oneOfF = [] :=
          List.isEmpty_iff.mp hp1
        have hp2' : (p).anyOfF = [] :=
          List.isEmpty_iff.mp hp2
        have hdp : _schema_default s =
            _schema_default (p) := by
          rw [schema_default_eq s, hpicklem,
            schema_default_eq (p),
            pick_self _ hp1' hp2']
        have hsizep : Schema.size (p) <
            Schema.size s := by
          apply size_mem_oneOf_lt
          rw [hone]
          exact hpmem
        have hvp := IH _ hsizep hpwf
        have htpd : typeMatch (_schema_default (p))
            (varType (p)) = true := by
          have hct := checkType_of_validate _ _ hvp
          rw [checkType_eq_typeOk, hsingle _ hpmem] at hct
          exact hct
        have hother : ∀ x ∈ v :: vs,
            varType x ≠ varType (p) →
            validate_json (_schema_default (p)) x =
              false := by
          intro x hx hne
          apply validate_false_of_checkType
          rw [checkType_eq_typeOk, hsingle x hx]
          cases hq : typeMatch
              (_schema_default (p)) (varType x) with
          | false =>
            unfold typeOkTV
            exact hq
          | true =>
            exfalso
            rcases typeMatch_unique _ _ _ htpd hq with heq | ⟨hi, hn⟩ | ⟨hn, hi⟩
            · exact hne heq.symm
            · apply hexcl
              constructor
              · rw [← hi]
                exact List.mem_map_of_mem varType hpmem
              · rw [← hn]
                exact List.mem_map_of_mem varType hx
            · apply hexcl
              constructor
              · rw [← hi]
                exact List.mem_map_of_mem varType hx
              · rw [← hn]
                exact List.mem_map_of_mem varType hpmem
        obtain ⟨l1, l2, hsplit⟩ := List.append_of_mem hpmem
        have hndsplit : ((l1 ++ p :: l2).map
            varType).Nodup := by
          rw [← hsplit]
          exact hnd
        rw [List.map_append, List.map_cons] at hndsplit
        obtain ⟨hnotl1, hnotl2⟩ := nodup_middle_not_mem _ _ _ hndsplit
        have hcount : ((v :: vs).countP
            (fun u => validate_json
              (_schema_default (p)) u)) = 1 := by
          rw [hsplit]
          apply countP_eq_one_split _ _ _ _ hvp
          · intro x hx
            apply hother x (by rw [hsplit]; exact
              List.mem_append.mpr (Or.inl hx))
            intro he
            apply hnotl1
            rw [← he]
            exact List.mem_map_of_mem varType hx
          · intro x hx
            apply hother x (by rw [hsplit]; exact
              List.mem_append.mpr (Or.inr (List.mem_cons_of_mem _ hx)))
            intro he
            apply hnotl2
            rw [← he]
            exact List.mem_map_of_mem varType hx
        rw [validate_json_eq, hdp]
        unfold validateBody
        rw [hone, hany]
        simp only [List.isEmpty_nil, if_true, List.isEmpty_cons,
          Bool.false_eq_true, if_false]
        have c1 : ((v :: vs).countP
            (fun u => validate_json
              (_schema_default (p)) u) == 1) =
            true := by
          rw [beq_iff_eq]
          exact hcount
        have c3 := checkConst_none
          (_schema_default (p)) s hc'
        have c4 := checkEnum_none
          (_schema_default (p)) s he'
        have c5 := checkType_absent
          (_schema_default (p)) s ht'
        have c6 := checkMinimum_none
          (_schema_default (p)) s hm'
        have c7 := checkMaximum_none
          (_schema_default (p)) s hm2'
        have c8 := checkExclusiveMinimum_none
          (_schema_default (p)) s hem'
        have c9 := checkExclusiveMaximum_none
          (_schema_default (p)) s hem2'
        have c10 := checkMinLength_none
          (_schema_default (p)) s hml'
        have c11 := checkMaxLength_none
          (_schema_default (p)) s hml2'
        have c12 := checkMinItems_none
          (_schema_default (p)) s hmi'
        have c13 : itemsCheck validate_json
            (_schema_default (p)) s.itemsF =
            true := by
          rw [hit']
          exact itemsCheck_none _ _
        have c14 : propsCheck validate_json
            (_schema_default (p))
            s.propertiesF = true := by
          rw [hp']
          exact propsCheck_none _ _
        have c15 := checkRequired_empty
          (_schema_default (p)) s hr'
        simp [c1, c3, c4, c5, c6, c7, c8, c9, c10, c11, c12, c13, c14, c15,
          propsCheck_none, itemsCheck_none]

/-- C2 (amended): for every schema satisfying the decidable
well-formedness condition `wfSchema` — no `default` override, bare
one-level combinators with exclusively single-typed, pairwise
type-distinct `oneOf` variants, type-consistent `const`/`enum`,
known type names, and numeric/length bounds that keep the synthesizer's
starting value inside the admissible range — the value returned by the
default synthesizer itself validates against that same schema, so the
schema-validation step applied to the fallback record never fails.
(Unamended the claim is false: see the fractional-`minimum`
counterexample.) -/
theorem schema_default_self_validates (s : Schema) (h : wfSchema s = true) :
    validate_json (_schema_default s) s = true :=
  wf_default_valid_aux (Schema.size s) s le_rfl h

/-- Witness for `schema_default_self_validates` at a concrete object
schema with a bounded string, a typed array with `minItems`, a boolean
and a `required` list. -/
theorem schema_default_self_validates_witness :
    wfSchema (Schema.mk [] [] none none none (.single "object") none none
      none none none none none none
      (some [("name", Schema.mk [] [] none none none (.single "string")
          (some 3) (some 10) none none none none none none none []),
        ("ok", Schema.mk [] [] none none none (.single "boolean")
          none none none none none none none none none []),
        ("tags", Schema.mk [] [] none none none (.single "array")
          none none none none none none (some 1)
          (some (Schema.mk [] [] none none none (.single "string")
            none none none none none none none none none [])) none [])])
      ["name", "tags", "ok"]) = true ∧
    validate_json
      (_schema_default (Schema.mk [] [] none none none (.single "object")
        none none none none none none none none
        (some [("name", Schema.mk [] [] none none none (.single "string")
            (some 3) (some 10) none none none none none none none []),
          ("ok", Schema.mk [] [] none none none (.single "boolean")
            none none none none none none none none none []),
          ("tags", Schema.mk [] [] none none none (.single "array")
            none none none none none none (some 1)
            (some (Schema.mk [] [] none none none (.single "string")
              none none none none none none none none none [])) none [])])
        ["name", "tags", "ok"]))
      (Schema.mk [] [] none none none (.single "object") none none
        none none none none none none
        (some [("name", Schema.mk [] [] none none none (.single "string")
            (some 3) (some 10) none none none none none none none []),
          ("ok", Schema.mk [] [] none none none (.single "boolean")
            none none none none none none none none none []),
          ("tags", Schema.mk [] [] none none none (.single "array")
            none none none none none none (some 1)
            (some (Schema.mk [] [] none none none (.single "string")
              none none none none none none none none none [])) none [])])
        ["name", "tags", "ok"]) = true :=
  ⟨by decide, schema_default_self_validates _ (by decide)⟩

/-- Counterexample to C2 as stated: the schema
`\x7b"type": "integer", "minimum": 4.5\x7d` is accepted by the synthesizer
(every branch of `_schema_default` is total, no schema is rejected) and is
satisfiable (the integer `5` validates against it), yet the synthesized
default `int(4.5) = 4` fails validation against the schema's own
`minimum`.  The spec's claim therefore fails without a well-formedness
restriction on the schema such as `wfSchema`. -/
theorem schema_default_fractional_minimum_invalid :
    _schema_default (Schema.mk [] [] none none none (.single "integer")
      none none (some (9/2)) none none none none none none []) =
      JValue.num ((4 : ℤ) : ℚ) ∧
    validate_json
      (_schema_default (Schema.mk [] [] none none none (.single "integer")
        none none (some (9/2)) none none none none none none []))
      (Schema.mk [] [] none none none (.single "integer")
        none none (some (9/2)) none none none none none none []) = false ∧
    validate_json (JValue.num ((5 : ℤ) : ℚ))
      (Schema.mk [] [] none none none (.single "integer")
        none none (some (9/2)) none none none none none none []) = true := by
  have h45 : pyTrunc ((9:ℚ)/2) = 4 := by
    rw [pyTrunc_eq_floor _ (by norm_num), Int.floor_eq_iff]
    constructor
    · norm_num
    · norm_num
  have hdef : _schema_default (Schema.mk [] [] none none none
      (.single "integer") none none (some (9/2)) none none none none none
      none []) = JValue.num ((4 : ℤ) : ℚ) := by
    rw [schema_default_eq,
      pick_self (Schema.mk [] [] none none none (.single "integer") none none
        (some (9/2)) none none none none none none []) rfl rfl]
    unfold schemaDefaultBody
    dsimp only [Schema.defaultF, Schema.constF, Schema.enumF, Schema.typeF,
      resolveTypeKey]
    rw [if_neg (by decide), if_neg (by decide), if_pos rfl]
    unfold _numeric_default
    dsimp only [Schema.enumF, Schema.minimumF, Schema.maximumF,
      Schema.exclusiveMinimumF, Schema.exclusiveMaximumF, Option.getD]
    simp only [reduceIte]
    rw [h45, pyTrunc_intCast]
  have hmin4 : checkMinimum (JValue.num ((4 : ℤ) : ℚ))
      (Schema.mk [] [] none none none (.single "integer") none none
        (some (9/2)) none none none none none none []) = false := by
    unfold checkMinimum
    dsimp only [Schema.minimumF]
    rw [decide_eq_false_iff_not]
    push_cast
    norm_num
  have hfalse : validate_json (JValue.num ((4 : ℤ) : ℚ))
      (Schema.mk [] [] none none none (.single "integer") none none
        (some (9/2)) none none none none none none []) = false := by
    rw [validate_json_eq]
    unfold validateBody
    rw [hmin4]
    simp
  have htype5 : checkType (JValue.num ((5 : ℤ) : ℚ))
      (Schema.mk [] [] none none none (.single "integer") none none
        (some (9/2)) none none none none none none []) = true := by
    unfold checkType
    dsimp only [Schema.typeF]
    unfold typeMatch
    dsimp only
    rw [Rat.den_intCast]
    rfl
  have hmin5 : checkMinimum (JValue.num ((5 : ℤ) : ℚ))
      (Schema.mk [] [] none none none (.single "integer") none none
        (some (9/2)) none none none none none none []) = true := by
    unfold checkMinimum
    dsimp only [Schema.minimumF]
    rw [decide_eq_true_eq]
    push_cast
    norm_num
  have htrue : validate_json (JValue.num ((5 : ℤ) : ℚ))
      (Schema.mk [] [] none none none (.single "integer") none none
        (some (9/2)) none none none none none none []) = true := by
    rw [validate_json_eq]
    unfold validateBody
    rw [htype5, hmin5]
    rfl
  exact ⟨hdef, by rw [hdef]; exact hfalse, htrue⟩
